import Mathlib

/-!
# dinoC: the simulation loop of the terminal dinosaur game (src/main.c)

Shallow embedding of the game state and of the per-tick operations of `main.c`,
followed by theorems about them.

Conventions of the embedding:

* `int` values are mathematical integers (`Int`); signed overflow is undefined in C
  and is not modelled.
* `unsigned int` values are natural numbers; every place where C computes in
  `unsigned int` (an `int` operand meeting an `unsigned` one) is reduced by `toU32`,
  and an `unsigned` value stored into an `int` goes through `toI32`.
* `score.count` (`ulong`) is a natural number; the program adds one per despawned
  obstacle, so the 64-bit limit is not reached and is not modelled.
* `dino.velocity` (`double`) only ever holds `-3.5` plus a multiple of `0.5`; such
  values are exact in binary floating point, and the embedding stores twice the
  velocity as an integer (field `velocity2`).
* The render buffer is the memory around `screen.map`, a function from integer
  indices to glyphs; every drawing routine is given by the list of writes it
  performs, in program order, so that a write outside the buffer stays visible.
* `tick` and `run` describe the loop while every frame stays inside the buffer. On a
  terminal of one row `draw_score` writes past it; the theorems on that case start
  from the state the program then holds, with the pool lying 96 bytes after the
  buffer and `int` fields read in little-endian order (`littleEndianInt`).
-/

namespace DinoC

/-! ## Constants (main.c lines 12-15) -/

def DINO_TEXTURE_WIDTH : Int := 21
def DINO_TEXTURE_HEIGHT : Int := 18
def CACTUS_TEXTURE_WIDTH : Int := 11
def CACTUS_TEXTURE_HEIGHT : Int := 7

/-! ## Machine integers -/

/-- Conversion of an integer to `unsigned int`: reduction modulo 2^32. -/
def toU32 (z : Int) : Int := z % 4294967296

/-- Conversion of an integer to `int`: the representative of `z` modulo 2^32 in
`-2^31 .. 2^31 - 1` (what gcc does for an out-of-range unsigned value). -/
def toI32 (z : Int) : Int := (z + 2147483648) % 4294967296 - 2147483648

/-! ## Geometry (main.c lines 61-76) -/

/-- The struct `Box`: `int x, y; unsigned int width, height`. -/
structure Box where
  x : Int
  y : Int
  width : Nat
  height : Nat
  deriving DecidableEq, Repr

/-- The function `box_overlap`. Each of the four comparisons has an `unsigned`
operand (`B.x + B.width`, `A.x + A.width`, ...), so C converts the other side to
`unsigned` as well and compares modulo 2^32. -/
def box_overlap (A B : Box) : Int :=
  if toU32 A.x < toU32 (B.x + B.width) ∧ toU32 (A.x + A.width) > toU32 B.x ∧
      toU32 A.y < toU32 (B.y + B.height) ∧ toU32 (A.y + A.height) > toU32 B.y then
    1
  else
    0

/-! ## Game objects (main.c lines 56-100) -/

/-- The struct `Score`: `ulong count; int x, y`. -/
structure Score where
  count : Nat
  x : Int
  y : Int
  deriving DecidableEq, Repr

/-- The struct `Dino`. The C field `double velocity` is stored doubled, as the integer
`velocity2 = 2 * velocity`; `onGround` is the C `int` flag (non-zero means true). -/
structure Dino where
  x : Int
  y : Int
  velocity2 : Int
  onGround : Int
  cbox : Box
  deriving DecidableEq, Repr

/-- The struct `Obstacle`; `active` is the C `int` flag (non-zero means true). -/
structure Obstacle where
  x : Int
  y : Int
  active : Int
  cbox : Box
  deriving DecidableEq, Repr

/-- The mutable part of the program: the locals `dino`, `obstacles` (the pool, a list
whose length is `obstacles.size`), `score` of `main`, and the global `INTERVAL`. -/
structure GameState where
  dino : Dino
  obstacles : List Obstacle
  score : Score
  INTERVAL : Nat
  deriving DecidableEq, Repr

/-! ## Spawn eligibility (main.c lines 135-149) -/

/-- The scan of `can_spawn_new_obstacle`: `last` moves to slot `i` whenever
`last->x < self[i].x` (a signed comparison), over every slot, active or not. -/
def lastObstacle (first : Obstacle) (obstacles : List Obstacle) : Obstacle :=
  obstacles.foldl (fun last o => if last.x < o.x then o else last) first

/-- The function `can_spawn_new_obstacle`. `WIDTH - last->x` is computed in
`unsigned int`. On an empty pool `last` points at no slot and the C read is
undefined: the result is `none`. -/
def can_spawn_new_obstacle (WIDTH : Nat) (obstacles : List Obstacle) : Option Int :=
  match obstacles with
  | [] => none
  | first :: _ =>
    let last := lastObstacle first obstacles
    if toU32 ((WIDTH : Int) - last.x) ≥ 30 then some 1 else some 0

/-! ## Input and physics (main.c lines 222-243) -/

/-- Twice the jump velocity `-3.5`. -/
def JUMP_VELOCITY2 : Int := -7

/-- Twice the gravity `0.5` added to the velocity per airborne tick. -/
def GRAVITY2 : Int := 1

/-- The statement `dino.y += dino.velocity`: the sum `y + velocity2 / 2` is formed in
`double` (exactly) and converted back to `int`, which truncates toward zero. -/
def addVelocity (y velocity2 : Int) : Int := Int.tdiv (2 * y + velocity2) 2

/-- The `switch (key)` of the main loop: space jumps when on the ground, `q` leaves
the program (`none`), every other value of `kbhit()` (0 when no key is pending) does
nothing. -/
def input (key : Int) (dino : Dino) : Option Dino :=
  if key = 32 then
    if dino.onGround ≠ 0 then
      some { dino with velocity2 := JUMP_VELOCITY2, onGround := 0 }
    else
      some dino
  else if key = 113 then
    none
  else
    some dino

/-- The physics block of the main loop. `dino.y >= GROUND - DINO_TEXTURE_HEIGHT` is an
unsigned comparison (`GROUND` is `uint`), and the clamp stores that unsigned value
into the `int` field. -/
def physics (GROUND : Nat) (dino : Dino) : Dino :=
  if dino.onGround = 0 then
    let y1 := addVelocity dino.y dino.velocity2
    let v1 := dino.velocity2 + GRAVITY2
    if toU32 y1 ≥ toU32 ((GROUND : Int) - DINO_TEXTURE_HEIGHT) then
      let y2 := toI32 (toU32 ((GROUND : Int) - DINO_TEXTURE_HEIGHT))
      { dino with y := y2, velocity2 := v1, onGround := 1, cbox := { dino.cbox with y := y2 } }
    else
      { dino with y := y1, velocity2 := v1, cbox := { dino.cbox with y := y1 } }
  else
    dino

/-! ## Obstacle update (main.c lines 245-262) -/

/-- The obstacle written by the spawn branch: `x = WIDTH - 1`, `y = GROUND - 7` and the
inset collision box, the unsigned values being stored into `int` fields. -/
def spawned (WIDTH GROUND : Nat) : Obstacle :=
  { x := toI32 (toU32 ((WIDTH : Int) - 1)),
    y := toI32 (toU32 ((GROUND : Int) - CACTUS_TEXTURE_HEIGHT)),
    active := 1,
    cbox := { x := toI32 (toU32 ((WIDTH : Int) - 1)),
              y := toI32 (toU32 ((GROUND : Int) - CACTUS_TEXTURE_HEIGHT + 1)),
              width := 10,
              height := 6 } }

/-- The body of the obstacle loop for slot `i`, on the pool as the earlier iterations
left it. `rnd i` is the value `rand()` returns when it is called for this slot (it is
called only for an inactive slot, and before `can_spawn_new_obstacle`). -/
def obstacleStep (WIDTH GROUND : Nat) (rnd : Nat → Nat) (st : List Obstacle × Score)
    (i : Nat) : List Obstacle × Score :=
  match st.1[i]? with
  | none => st
  | some obs =>
    if obs.active ≠ 0 then
      let obs1 := { obs with x := obs.x - 2, cbox := { obs.cbox with x := obs.cbox.x - 2 } }
      if obs1.x + CACTUS_TEXTURE_WIDTH < 0 then
        (st.1.set i { obs1 with active := 0 }, { st.2 with count := st.2.count + 1 })
      else
        (st.1.set i obs1, st.2)
    else if rnd i % 200 = 0 ∧
        (can_spawn_new_obstacle WIDTH st.1).any (fun r => decide (r ≠ 0)) = true then
      (st.1.set i (spawned WIDTH GROUND), st.2)
    else
      st

/-- The obstacle loop `for (i = 0; i < obstacles.size; i++)` of one tick. -/
def update_obstacles (WIDTH GROUND : Nat) (rnd : Nat → Nat) (obstacles : List Obstacle)
    (score : Score) : List Obstacle × Score :=
  (List.range obstacles.length).foldl (obstacleStep WIDTH GROUND rnd) (obstacles, score)

/-! ## Collision sweep and difficulty ramp (main.c lines 264-286) -/

/-- The collision loop: true when some slot of the pool, active or not, has a
collision box that `box_overlap` reports against the player's. -/
def collision (obstacles : List Obstacle) (dino : Dino) : Bool :=
  obstacles.any (fun obs => decide (box_overlap obs.cbox dino.cbox ≠ 0))

/-- The `if (score.count == 10) ... else if ... == 20 ... else if ... == 30` chain:
the new value of `INTERVAL`. -/
def ramp (score : Score) (INTERVAL : Nat) : Nat :=
  if score.count = 10 then 25000
  else if score.count = 20 then 20000
  else if score.count = 30 then 15000
  else INTERVAL

/-! ## The main loop (main.c lines 200-288) -/

/-- How one iteration of `while (1)` ends: it reaches `usleep` with a new state, or
`main` returns on `q`, or on a collision (with the score and interval it prints). -/
inductive Outcome where
  | running (s : GameState)
  | quit
  | gameOver (score : Score) (INTERVAL : Nat)
  deriving DecidableEq, Repr

/-- One iteration of the main loop, without the buffer that `draw` fills: the writes
of the iteration's `draw` call are `frameWrites` below. As long as they all fall
inside the buffer (`frame_fits`: at least 2 rows, the score text no wider than a row,
the ground row on the surface) `draw` changes nothing the loop reads, and `tick` is
the whole iteration. A write past the buffer is undefined in C; it can land in the
pool, which is allocated next, and what the program does from there on is not what
`tick` and `run` describe. -/
def tick (WIDTH GROUND : Nat) (key : Int) (rnd : Nat → Nat) (s : GameState) : Outcome :=
  match input key s.dino with
  | none => Outcome.quit
  | some d1 =>
    let d2 := physics GROUND d1
    let r := update_obstacles WIDTH GROUND rnd s.obstacles s.score
    if collision r.1 d2 then
      Outcome.gameOver r.2 s.INTERVAL
    else
      Outcome.running
        { dino := d2, obstacles := r.1, score := r.2, INTERVAL := ramp r.2 s.INTERVAL }

/-- The main loop over a finite sequence of ticks, each with the key `kbhit()` returns
and the values `rand()` returns; it stops at the first tick that leaves `main`. -/
def run (WIDTH GROUND : Nat) : GameState → List (Int × (Nat → Nat)) → Outcome
  | s, [] => Outcome.running s
  | s, (key, rnd) :: rest =>
    match tick WIDTH GROUND key rnd s with
    | Outcome.running s1 => run WIDTH GROUND s1 rest
    | out => out

/-- The player as `main` creates it: at `x = 5`, resting on the ground, with the
collision box `{x, y, 9, DINO_TEXTURE_HEIGHT - 2}`. -/
def initDino (GROUND : Nat) : Dino :=
  let y := toI32 (toU32 ((GROUND : Int) - DINO_TEXTURE_HEIGHT))
  { x := 5, y := y, velocity2 := 0, onGround := 1,
    cbox := { x := 5, y := y, width := 9, height := 16 } }

/-- A pool slot before its first spawn. `main` only clears `active`; the other fields
of the allocated memory are taken to be zero. -/
def initObstacle : Obstacle :=
  { x := 0, y := 0, active := 0, cbox := { x := 0, y := 0, width := 0, height := 0 } }

/-- The state of `main` when it enters the loop, for a terminal of `rows` by `cols`
cells; `GROUND` is the value of `rows - rows * 0.1` stored in the global, `WIDTH` is
`cols`, and the pool has `cols / 15` slots. -/
def initState (rows cols GROUND : Nat) : GameState :=
  { dino := initDino GROUND,
    obstacles := List.replicate (cols / 15) initObstacle,
    score := { count := 0, x := (rows : Int) - 10, y := 0 },
    INTERVAL := 30000 }

/-! ## Shape of a jump -/

/-- The descent-and-return shape of a trajectory: after `n >= 1` physics steps from
`d` the player is on the ground at `GROUND - 18`, and the `y` values of the first `n`
steps do not increase up to step `k` and do not decrease from step `k` on. -/
def JumpArc (GROUND : Nat) (d : Dino) (n k : Nat) : Prop :=
  1 ≤ n ∧ k ≤ n ∧ ((physics GROUND)^[n] d).onGround = 1 ∧
    ((physics GROUND)^[n] d).y = (GROUND : Int) - 18 ∧
    (∀ i, i < k → ((physics GROUND)^[i + 1] d).y ≤ ((physics GROUND)^[i] d).y) ∧
    (∀ i, i < n → k ≤ i → ((physics GROUND)^[i] d).y ≤ ((physics GROUND)^[i + 1] d).y)

instance (GROUND : Nat) (d : Dino) (n k : Nat) : Decidable (JumpArc GROUND d n k) := by
  unfold JumpArc
  infer_instance

/-- How far above the resting position the player is after `i` airborne steps of a
jump that has room to complete (resting `y` at least 16): entry `i` of this list. -/
def jumpArcOffsets : List Int := [0, 4, 7, 10, 12, 14, 15, 16, 16, 16, 15, 14, 12, 10, 7, 4]

/-! ## Descriptions of the obstacle loop -/

/-- What the obstacle loop writes into an active slot: `x` and the box's `x` go down
by 2, and the slot is made inactive when `x + CACTUS_TEXTURE_WIDTH < 0` afterwards. -/
def scrolled (obs : Obstacle) : Obstacle :=
  if obs.x - 2 + CACTUS_TEXTURE_WIDTH < 0 then
    { obs with x := obs.x - 2, active := 0, cbox := { obs.cbox with x := obs.cbox.x - 2 } }
  else
    { obs with x := obs.x - 2, cbox := { obs.cbox with x := obs.cbox.x - 2 } }

/-- How slot `j` of the pool after one obstacle loop relates to the slot before it. -/
def SlotUpdate (WIDTH GROUND : Nat) (rnd : Nat → Nat) (j : Nat) (o o1 : Obstacle) : Prop :=
  (o.active ≠ 0 ∧ o1 = scrolled o) ∨ (o.active = 0 ∧ o1 = o) ∨
    (o.active = 0 ∧ rnd j % 200 = 0 ∧ o1 = spawned WIDTH GROUND)

/-- The obstacle loop run once per tick over a sequence of ticks, `rnds` giving the
values of `rand()` of each tick. -/
def obstacleTicks (WIDTH GROUND : Nat) (rnds : List (Nat → Nat))
    (st : List Obstacle × Score) : List Obstacle × Score :=
  rnds.foldl (fun st rnd => update_obstacles WIDTH GROUND rnd st.1 st.2) st

/-- The number of ticks scenario A of the specification gives for a fresh obstacle to
leave the screen: `ceil((WIDTH - 1 + spriteWidth) / 2)` with `spriteWidth = 11`. -/
def despawnTicksSpec (WIDTH : Nat) : Nat := (WIDTH - 1 + 11 + 1) / 2

/-- The number of ticks after which the obstacle loop makes a fresh obstacle inactive:
the first `t` with `WIDTH - 1 - 2 * t + 11 < 0`. -/
def despawnTicks (WIDTH : Nat) : Nat := (WIDTH - 1 + 11) / 2 + 1

/-! ## Invariants of the pool and of the interval -/

/-- The invariant of the pool between ticks: every slot's `x` is an `int` no larger than
`WIDTH`, an active slot's sprite has not fully left the screen (`x + 11 >= 0`), and two
distinct active slots are at least 29 columns apart. -/
def PoolInv (WIDTH : Nat) (obstacles : List Obstacle) : Prop :=
  (∀ (j : Nat) (o : Obstacle), obstacles[j]? = some o → -2147483648 ≤ o.x ∧ o.x ≤ WIDTH) ∧
  (∀ (j : Nat) (o : Obstacle), obstacles[j]? = some o → o.active ≠ 0 → 0 ≤ o.x + 11) ∧
  (∀ (j1 j2 : Nat) (o1 o2 : Obstacle), j1 ≠ j2 → obstacles[j1]? = some o1 → obstacles[j2]? = some o2 →
    o1.active ≠ 0 → o2.active ≠ 0 → o1.x + 29 ≤ o2.x ∨ o2.x + 29 ≤ o1.x)

/-- Where slot `j` will be at the end of the obstacle loop that has so far handled the
slots below `k`, if it is active and not respawned: handled slots have been scrolled,
the others will be. -/
def xAfterLoop (k j : Nat) (o : Obstacle) : Int := if j < k then o.x else o.x - 2

/-- The invariant of the obstacle loop when the slots below `k` have been handled;
`count0` is `score.count` before the loop. At most one slot is made inactive during
the loop, and once one has been, no slot still to be handled will be. -/
def LoopInv (WIDTH : Nat) (count0 : Nat) (k : Nat) (st : List Obstacle × Score) : Prop :=
  (∀ (j : Nat) (o : Obstacle), st.1[j]? = some o → -2147483648 ≤ o.x ∧ o.x ≤ WIDTH) ∧
  (∀ (j : Nat) (o : Obstacle), st.1[j]? = some o → o.active ≠ 0 → 0 ≤ o.x + 11) ∧
  (∀ (j1 j2 : Nat) (o1 o2 : Obstacle), j1 ≠ j2 → st.1[j1]? = some o1 → st.1[j2]? = some o2 →
    o1.active ≠ 0 → o2.active ≠ 0 →
    xAfterLoop k j1 o1 + 29 ≤ xAfterLoop k j2 o2 ∨
      xAfterLoop k j2 o2 + 29 ≤ xAfterLoop k j1 o1) ∧
  (st.2.count = count0 ∨
    (st.2.count = count0 + 1 ∧
      ∀ (j : Nat) (o : Obstacle), k ≤ j → st.1[j]? = some o → o.active ≠ 0 → 0 ≤ o.x - 2 + 11))

/-- The tick interval the specification assigns to a score: 30000, 25000, 20000 and
15000 for the ranges [0,10), [10,20), [20,30) and [30,∞). -/
def intervalFor (count : Nat) : Nat :=
  if count < 10 then 30000
  else if count < 20 then 25000
  else if count < 30 then 20000
  else 15000

/-! ## Invariants of a slot's collision box -/

/-- The relation between a slot and its collision box that spawning sets up: the slot
is on row `GROUND - 7` and its box is `{x, y + 1, 10, 6}`. -/
def Synced (GROUND : Nat) (o : Obstacle) : Prop :=
  o.y = (GROUND : Int) - 7 ∧ o.cbox = ⟨o.x, o.y + 1, 10, 6⟩

instance (GROUND : Nat) (o : Obstacle) : Decidable (Synced GROUND o) := by
  unfold Synced
  infer_instance

/-- What a slot of the pool can be in a run from the initial state: untouched since
the start, or spawned at least once, in which case it is `Synced` and, if inactive,
has left the screen (`x + 11 < 0`). -/
def SlotInv (GROUND : Nat) (o : Obstacle) : Prop :=
  o = initObstacle ∨ (Synced GROUND o ∧ (o.active = 0 → o.x + 11 < 0))

/-- The invariant of the game state between ticks used for the collision sweep: the
pool invariant, the slot invariant of every slot, and the player's box `{5, y, 9, 16}`
in step with the player's `y`. -/
def RunInv (WIDTH GROUND : Nat) (s : GameState) : Prop :=
  PoolInv WIDTH s.obstacles ∧ (∀ o ∈ s.obstacles, SlotInv GROUND o) ∧
    s.dino.cbox = ⟨5, s.dino.y, 9, 16⟩

/-! ## Sprites (main.c lines 17-47) -/

/-- The glyph `texture[i][j]` of a sprite given by its rows: the rows are C strings,
so the position just past the end of a row holds the terminating NUL; positions
further out are not part of any object and read as NUL here. -/
def glyphs (rows : List String) (i j : Nat) : Char :=
  ((rows.getD i "").toList).getD j (Char.ofNat 0)

/-- The array `CACTUS_TEXTURE`: 7 rows of 11 glyphs. -/
def CACTUS_TEXTURE : List String :=
  ["  _  _     ",
   " | || | _  ",
   " | || || | ",
   "  \\_  || | ",
   "    |  _/  ",
   "    | |    ",
   "    |_|    "]

/-- The array `DINO_TEXTURE`: 18 rows of 21 glyphs. -/
def DINO_TEXTURE : List String :=
  ["           ######### ",
   "          ### #######",
   "          ###########",
   "          ###########",
   "          ######     ",
   "          #########  ",
   "#       #######      ",
   "##    ############   ",
   "###  ##########  #   ",
   "###############      ",
   "###############      ",
   " #############       ",
   "  ###########        ",
   "    ########         ",
   "     ###  ##         ",
   "     ##    #         ",
   "     #     #         ",
   "     ##    ##        "]

/-! ## Render surface (main.c lines 78-82, 121-133, 151-180) -/

/-- The struct `Screen`. The buffer is seen as the memory around `map`: `map i` is the
byte at `screen.map + i`, for every integer `i`; the allocation is the part
`0 .. rows * cols - 1`, and a write elsewhere is a write outside the buffer. -/
structure Screen where
  map : Int → Char
  rows : Int
  cols : Int

/-- The memory after a sequence of writes `(index, glyph)`, performed in list order. -/
def store (map : Int → Char) (writes : List (Int × Char)) : Int → Char :=
  writes.foldl (fun m w => fun i => if i = w.1 then w.2 else m i) map

/-- The writes `screen->map[sy * cols + sx] = texture[i][j]` that `draw_texture`
performs, in loop order: one for each sprite cell whose target lies on the surface
and whose glyph is not a space. -/
def draw_texture_writes (screen : Screen) (x y : Int) (height width : Nat)
    (texture : Nat → Nat → Char) : List (Int × Char) :=
  (List.range height).flatMap (fun (i : Nat) =>
    (List.range width).filterMap (fun (j : Nat) =>
      if y + (i : Int) ≥ 0 ∧ y + (i : Int) < screen.rows ∧ x + (j : Int) ≥ 0 ∧
          x + (j : Int) < screen.cols ∧ texture i j ≠ ' ' then
        some ((y + (i : Int)) * screen.cols + (x + (j : Int)), texture i j)
      else
        none))

/-- The function `draw_texture`. -/
def draw_texture (screen : Screen) (x y : Int) (height width : Nat)
    (texture : Nat → Nat → Char) : Screen :=
  { screen with map := store screen.map (draw_texture_writes screen x y height width texture) }

/-- The text `sprintf(str, "Score: %lu", score->count)` leaves in `str`, without the
terminating NUL. -/
def scoreText (score : Score) : List Char :=
  "Score: ".toList ++ (Nat.repr score.count).toList

/-- The writes of the `memcpy` of `draw_score`: the `strlen(str)` glyphs of the text go
to `map + cols + (cols - strlen(str))` onward. (For `cols < strlen(str)` the C
difference is formed in `size_t` and wraps; on a flat address space the sum is this
index all the same.) -/
def draw_score_writes (screen : Screen) (score : Score) : List (Int × Char) :=
  (List.range (scoreText score).length).map (fun (k : Nat) =>
    (screen.cols + (screen.cols - ((scoreText score).length : Int)) + (k : Int),
      (scoreText score).getD k ' '))

/-- The function `draw_score`. -/
def draw_score (screen : Screen) (score : Score) : Screen :=
  { screen with map := store screen.map (draw_score_writes screen score) }

/-- The writes of the clearing loop of `draw`: a space into every index below
`rows * cols`. -/
def clear_writes (screen : Screen) : List (Int × Char) :=
  (List.range (screen.rows * screen.cols).toNat).map (fun (i : Nat) => ((i : Int), ' '))

/-- The writes of the ground loop of `draw`: a `-` into the `WIDTH` indices from
`GROUND * cols` on (the products and sums staying within the `int` range). -/
def ground_writes (WIDTH GROUND : Nat) (screen : Screen) : List (Int × Char) :=
  (List.range WIDTH).map (fun (t : Nat) => ((GROUND : Int) * screen.cols + (t : Int), '-'))

/-- The writes of the obstacle loop of `draw`: the cactus sprite of every active slot,
in pool order. -/
def obstacles_writes (screen : Screen) (obstacles : List Obstacle) : List (Int × Char) :=
  obstacles.flatMap (fun o =>
    if o.active ≠ 0 then
      draw_texture_writes screen o.x o.y CACTUS_TEXTURE_HEIGHT.toNat
        CACTUS_TEXTURE_WIDTH.toNat (glyphs CACTUS_TEXTURE)
    else
      [])

/-- All the writes of `draw` into the buffer, in program order: clear, score, ground,
obstacles, player. -/
def draw_writes (WIDTH GROUND : Nat) (dino : Dino) (obstacles : List Obstacle)
    (screen : Screen) (score : Score) : List (Int × Char) :=
  clear_writes screen ++ draw_score_writes screen score ++
    ground_writes WIDTH GROUND screen ++ obstacles_writes screen obstacles ++
    draw_texture_writes screen dino.x dino.y DINO_TEXTURE_HEIGHT.toNat
      DINO_TEXTURE_WIDTH.toNat (glyphs DINO_TEXTURE)

/-- The function `draw`, up to the point where the buffer is printed. -/
def draw (WIDTH GROUND : Nat) (dino : Dino) (obstacles : List Obstacle) (screen : Screen)
    (score : Score) : Screen :=
  { screen with map := store screen.map (draw_writes WIDTH GROUND dino obstacles screen score) }

/-! ## The layers of a frame, as the specification describes them -/

/-- The glyph a sprite placed at `(x, y)` shows at cell `(r, c)`: `texture[r - y][c - x]`
when the cell is inside the sprite and that glyph is not a space. -/
def spriteAt (texture : Nat → Nat → Char) (height width : Nat) (x y r c : Int) :
    Option Char :=
  if 0 ≤ r - y ∧ r - y < height ∧ 0 ≤ c - x ∧ c - x < width ∧
      texture (r - y).toNat (c - x).toNat ≠ ' ' then
    some (texture (r - y).toNat (c - x).toNat)
  else
    none

/-- The glyph the active obstacles show at cell `(r, c)`: that of the active slot of
highest pool index whose cactus sprite has a non-space glyph there. -/
def obstacleLayer (obstacles : List Obstacle) (r c : Int) : Option Char :=
  obstacles.reverse.findSome? (fun o =>
    if o.active ≠ 0 then spriteAt (glyphs CACTUS_TEXTURE) 7 11 o.x o.y r c else none)

/-- The frame as the specification layers it, at cell `(r, c)` of a surface `cols`
wide: the player sprite, else the topmost active obstacle, else the ground glyph on
row `GROUND`, else the score text right-aligned on row 1, else a space. -/
def layeredCell (GROUND : Nat) (dino : Dino) (obstacles : List Obstacle) (score : Score)
    (cols r c : Int) : Char :=
  match spriteAt (glyphs DINO_TEXTURE) 18 21 dino.x dino.y r c with
  | some ch => ch
  | none =>
    match obstacleLayer obstacles r c with
    | some ch => ch
    | none =>
      if r = (GROUND : Int) then '-'
      else if r = 1 ∧ cols - ((scoreText score).length : Int) ≤ c then
        (scoreText score).getD (c - (cols - ((scoreText score).length : Int))).toNat ' '
      else ' '

/-! ## Leaving the main loop (main.c lines 231-232, 267-272) -/

/-- The text `printf` produces for `%d`: the decimal digits, after a minus sign for a
negative value. -/
def formatD (z : Int) : String :=
  if z < 0 then "-" ++ Nat.repr z.natAbs else Nat.repr z.natAbs

/-- What the collision branch prints before `return 0`: the three `printf` calls, the
last one passing the `uint` global `INTERVAL` to `%d` and ending in a literal `u`. -/
def gameOverOutput (score : Score) (INTERVAL : Nat) : String :=
  "Game Over!\n" ++ ("Your score is: " ++ Nat.repr score.count ++ "\n") ++
    ("INTERVAL: " ++ formatD (toI32 INTERVAL) ++ "u\n")

/-- The game-over output as the specification describes it: two lines. -/
def gameOverOutputSpec (score : Score) : String :=
  "Game Over!\n" ++ ("Your score is: " ++ Nat.repr score.count ++ "\n")

/-- What `main` prints on its way out of the loop, in the tick that ends the run:
nothing on `q`, the game-over text on a collision; `none` while the loop goes on. -/
def exitOutput : Outcome → Option String
  | Outcome.running _ => none
  | Outcome.quit => some ""
  | Outcome.gameOver score INTERVAL => some (gameOverOutput score INTERVAL)

/-- The status `main` returns, `none` while the loop goes on: both `return`
statements of the loop return 0. -/
def exitStatus : Outcome → Option Int
  | Outcome.running _ => none
  | Outcome.quit => some 0
  | Outcome.gameOver _ _ => some 0

/-! ## The frame of an iteration and stray writes -/

/-- The writes into the buffer of the `draw` call of one iteration of the main loop:
the frame of the new state when the iteration reaches `draw`, none when `main` returns
before (on `q` or on a collision). -/
def frameWrites (WIDTH GROUND : Nat) (key : Int) (rnd : Nat → Nat) (screen : Screen)
    (s : GameState) : List (Int × Char) :=
  match tick WIDTH GROUND key rnd s with
  | Outcome.running s1 => draw_writes WIDTH GROUND s1.dino s1.obstacles screen s1.score
  | Outcome.quit => []
  | Outcome.gameOver _ _ => []

/-- The `int` that four consecutive bytes hold on a little-endian machine, the bytes
given as glyphs: what an `int` field reads once text has been written over it. -/
def littleEndianInt (c0 c1 c2 c3 : Char) : Int :=
  toI32 ((c0.toNat : Int) + 256 * (c1.toNat : Int) + 65536 * (c2.toNat : Int) +
    16777216 * (c3.toNat : Int))

/-! ## Theorems -/

/-- C1: `box_overlap` is symmetric in its two boxes, for all coordinates and sizes. -/
theorem box_overlap_symm (A B : Box) : box_overlap A B = box_overlap B A := by
  unfold box_overlap
  by_cases h1 : toU32 A.x < toU32 (B.x + B.width) <;>
  by_cases h2 : toU32 (A.x + A.width) > toU32 B.x <;>
  by_cases h3 : toU32 A.y < toU32 (B.y + B.height) <;>
  by_cases h4 : toU32 (A.y + A.height) > toU32 B.y <;>
  simp [h1, h2, h3, h4]

/-- C2 (as stated, refuted): the zero-area box at (7, 7) lies strictly inside the box
`{5, 5, 10, 10}` and `box_overlap` reports an overlap. -/
theorem zero_area_box_inside_overlaps :
    (⟨7, 7, 0, 0⟩ : Box).width = 0 ∧ box_overlap ⟨7, 7, 0, 0⟩ ⟨5, 5, 10, 10⟩ = 1 := by
  decide

/-- C2 (amended): a box `A` of width 0 whose `x` is not strictly between `B.x` and
`B.x + B.width` (as unsigned 32-bit values), or of height 0 whose `y` is not strictly
between `B.y` and `B.y + B.height`, does not overlap `B`. -/
theorem box_overlap_zero_area (A B : Box)
    (h : (A.width = 0 ∧ ¬ (toU32 B.x < toU32 A.x ∧ toU32 A.x < toU32 (B.x + B.width))) ∨
         (A.height = 0 ∧ ¬ (toU32 B.y < toU32 A.y ∧ toU32 A.y < toU32 (B.y + B.height)))) :
    box_overlap A B = 0 := by
  unfold box_overlap
  rcases h with ⟨hw, hx⟩ | ⟨hh, hy⟩
  · have e : toU32 (A.x + (A.width : Int)) = toU32 A.x := by simp [hw]
    rw [e]
    apply if_neg
    rintro ⟨h1, h2, -, -⟩
    exact hx ⟨h2, h1⟩
  · have e : toU32 (A.y + (A.height : Int)) = toU32 A.y := by simp [hh]
    rw [e]
    apply if_neg
    rintro ⟨-, -, h3, h4⟩
    exact hy ⟨h4, h3⟩

/-- Witness for C2 (amended): the zero box against the player's box at rest. -/
theorem box_overlap_zero_area_witness :
    box_overlap ⟨0, 0, 0, 0⟩ ⟨5, 20, 9, 16⟩ = 0 :=
  box_overlap_zero_area ⟨0, 0, 0, 0⟩ ⟨5, 20, 9, 16⟩ (Or.inl ⟨rfl, by decide⟩)

/-- Every value in `0 .. 2^32 - 1` is its own `unsigned int` representation. -/
theorem toU32_of_range (z : Int) (h0 : 0 ≤ z) (h1 : z < 4294967296) : toU32 z = z := by
  unfold toU32
  omega

/-- Every value in `-2^31 .. 2^31 - 1` is its own `int` representation. -/
theorem toI32_of_range (z : Int) (h0 : -2147483648 ≤ z) (h1 : z < 2147483648) :
    toI32 z = z := by
  unfold toI32
  omega

/-- Without wraparound `box_overlap` is the integer interval test on both axes. -/
theorem box_overlap_no_wrap (A B : Box)
    (hAx : 0 ≤ A.x) (hAy : 0 ≤ A.y) (hBx : 0 ≤ B.x) (hBy : 0 ≤ B.y)
    (hAr : A.x + A.width < 2147483648) (hAb : A.y + A.height < 2147483648)
    (hBr : B.x + B.width < 2147483648) (hBb : B.y + B.height < 2147483648) :
    box_overlap A B = 1 ↔
      A.x < B.x + B.width ∧ B.x < A.x + A.width ∧
      A.y < B.y + B.height ∧ B.y < A.y + A.height := by
  have wA : (0 : Int) ≤ A.width := Int.ofNat_nonneg _
  have hA : (0 : Int) ≤ A.height := Int.ofNat_nonneg _
  have wB : (0 : Int) ≤ B.width := Int.ofNat_nonneg _
  have hB : (0 : Int) ≤ B.height := Int.ofNat_nonneg _
  unfold box_overlap
  rw [toU32_of_range A.x hAx (by omega), toU32_of_range A.y hAy (by omega),
    toU32_of_range B.x hBx (by omega), toU32_of_range B.y hBy (by omega),
    toU32_of_range (A.x + A.width) (by omega) (by omega),
    toU32_of_range (A.y + A.height) (by omega) (by omega),
    toU32_of_range (B.x + B.width) (by omega) (by omega),
    toU32_of_range (B.y + B.height) (by omega) (by omega)]
  constructor
  · intro h
    by_contra hn
    rw [if_neg (by tauto)] at h
    exact absurd h (by decide)
  · intro h
    rw [if_pos (by tauto)]

/-- C3: for boxes of positive size with non-negative coordinates and no wraparound,
`box_overlap A B` returns 1 exactly when some grid cell lies in both half-open
rectangles; in particular such a box overlaps itself. -/
theorem box_overlap_iff_shared_cell (A B : Box)
    (hAw : 0 < A.width) (hAh : 0 < A.height) (hBw : 0 < B.width) (hBh : 0 < B.height)
    (hAx : 0 ≤ A.x) (hAy : 0 ≤ A.y) (hBx : 0 ≤ B.x) (hBy : 0 ≤ B.y)
    (hAr : A.x + A.width < 2147483648) (hAb : A.y + A.height < 2147483648)
    (hBr : B.x + B.width < 2147483648) (hBb : B.y + B.height < 2147483648) :
    (box_overlap A B = 1 ↔
      ∃ px py : Int, A.x ≤ px ∧ px < A.x + A.width ∧ A.y ≤ py ∧ py < A.y + A.height ∧
        B.x ≤ px ∧ px < B.x + B.width ∧ B.y ≤ py ∧ py < B.y + B.height) ∧
    box_overlap A A = 1 := by
  have wA : (0 : Int) < A.width := by exact_mod_cast hAw
  have hA : (0 : Int) < A.height := by exact_mod_cast hAh
  have wB : (0 : Int) < B.width := by exact_mod_cast hBw
  have hB : (0 : Int) < B.height := by exact_mod_cast hBh
  refine ⟨?_, ?_⟩
  · rw [box_overlap_no_wrap A B hAx hAy hBx hBy hAr hAb hBr hBb]
    constructor
    · rintro ⟨h1, h2, h3, h4⟩
      refine ⟨max A.x B.x, max A.y B.y, ?_, ?_, ?_, ?_, ?_, ?_, ?_, ?_⟩ <;> omega
    · rintro ⟨px, py, h1, h2, h3, h4, h5, h6, h7, h8⟩
      refine ⟨?_, ?_, ?_, ?_⟩ <;> omega
  · rw [box_overlap_no_wrap A A hAx hAy hAx hAy hAr hAb hAr hAb]
    refine ⟨?_, ?_, ?_, ?_⟩ <;> omega

/-- Witness for C3: the player's box at rest and a cactus box that reaches into it. -/
theorem box_overlap_iff_shared_cell_witness :
    (box_overlap ⟨5, 20, 9, 16⟩ ⟨13, 30, 10, 6⟩ = 1 ↔
      ∃ px py : Int, (5 : Int) ≤ px ∧ px < 5 + (9 : Nat) ∧ (20 : Int) ≤ py ∧
        py < 20 + (16 : Nat) ∧ (13 : Int) ≤ px ∧ px < 13 + (10 : Nat) ∧ (30 : Int) ≤ py ∧
        py < 30 + (6 : Nat)) ∧
    box_overlap ⟨5, 20, 9, 16⟩ ⟨5, 20, 9, 16⟩ = 1 :=
  box_overlap_iff_shared_cell ⟨5, 20, 9, 16⟩ ⟨13, 30, 10, 6⟩
    (by decide) (by decide) (by decide) (by decide) (by decide) (by decide) (by decide)
    (by decide) (by decide) (by decide) (by decide) (by decide)

/-! ### Input and physics -/

/-- C5: for a player on the ground, the input switch with a key other than space and
`q` (0 when no key is pending) followed by the physics block returns the player
unchanged: `y`, `velocity`, `onGround` and the collision box keep their values. -/
theorem grounded_no_jump_unchanged (GROUND : Nat) (key : Int) (dino : Dino)
    (hg : dino.onGround ≠ 0) (hs : key ≠ 32) (hq : key ≠ 113) :
    (input key dino).map (physics GROUND) = some dino := by
  simp [input, physics, hg, hs, hq]

/-- Witness for C5: the initial player, no key pending. -/
theorem grounded_no_jump_unchanged_witness :
    (initDino 40).onGround ≠ 0 ∧
      (input 0 (initDino 40)).map (physics 40) = some (initDino 40) :=
  ⟨by decide, grounded_no_jump_unchanged 40 0 (initDino 40) (by decide) (by decide)
    (by decide)⟩

/-- The `y`, velocity and ground flag after a physics step depend only on those three
fields before it. -/
theorem physics_core (GROUND : Nat) (d e : Dino) (hy : d.y = e.y)
    (hv : d.velocity2 = e.velocity2) (hg : d.onGround = e.onGround) :
    (physics GROUND d).y = (physics GROUND e).y ∧
    (physics GROUND d).velocity2 = (physics GROUND e).velocity2 ∧
    (physics GROUND d).onGround = (physics GROUND e).onGround := by
  unfold physics
  rw [hy, hv, hg]
  by_cases c : e.onGround = 0
  · by_cases c2 : toU32 (addVelocity e.y e.velocity2) ≥
        toU32 ((GROUND : Int) - DINO_TEXTURE_HEIGHT)
    · simp [c, c2]
    · simp [c, c2, hg]
  · simp [c, hy, hv, hg]

/-- Repeated physics steps: the same dependence. -/
theorem physics_iterate_core (GROUND : Nat) (d e : Dino) (hy : d.y = e.y)
    (hv : d.velocity2 = e.velocity2) (hg : d.onGround = e.onGround) (n : Nat) :
    ((physics GROUND)^[n] d).y = ((physics GROUND)^[n] e).y ∧
    ((physics GROUND)^[n] d).velocity2 = ((physics GROUND)^[n] e).velocity2 ∧
    ((physics GROUND)^[n] d).onGround = ((physics GROUND)^[n] e).onGround := by
  induction n with
  | zero => exact ⟨hy, hv, hg⟩
  | succ n ih =>
    rw [Function.iterate_succ_apply', Function.iterate_succ_apply']
    exact physics_core GROUND _ _ ih.1 ih.2.1 ih.2.2

/-- The shape of a trajectory depends only on the starting `y`, velocity and flag. -/
theorem JumpArc_core (GROUND : Nat) (d e : Dino) (hy : d.y = e.y)
    (hv : d.velocity2 = e.velocity2) (hg : d.onGround = e.onGround) (n k : Nat)
    (h : JumpArc GROUND e n k) : JumpArc GROUND d n k := by
  obtain ⟨h1, h2, h3, h4, h5, h6⟩ := h
  have c := physics_iterate_core GROUND d e hy hv hg
  refine ⟨h1, h2, ?_, ?_, ?_, ?_⟩
  · rw [(c n).2.2]
    exact h3
  · rw [(c n).1]
    exact h4
  · intro i hi
    rw [(c (i + 1)).1, (c i).1]
    exact h5 i hi
  · intro i hi hk
    rw [(c (i + 1)).1, (c i).1]
    exact h6 i hi hk

/-- An airborne step that stays above the resting position: `y` moves by the
truncated velocity and the velocity gains the gravity. -/
theorem physics_air (GROUND : Nat) (d : Dino) (hG : 18 ≤ GROUND)
    (hG2 : GROUND < 2147483648) (hg : d.onGround = 0) (h0 : 0 ≤ 2 * d.y + d.velocity2)
    (hlt : (2 * d.y + d.velocity2) / 2 < (GROUND : Int) - 18) :
    (physics GROUND d).y = (2 * d.y + d.velocity2) / 2 ∧
    (physics GROUND d).velocity2 = d.velocity2 + 1 ∧ (physics GROUND d).onGround = 0 := by
  have e1 : addVelocity d.y d.velocity2 = (2 * d.y + d.velocity2) / 2 := by
    unfold addVelocity
    exact Int.tdiv_eq_ediv h0 (by decide)
  have e2 : toU32 ((2 * d.y + d.velocity2) / 2) = (2 * d.y + d.velocity2) / 2 :=
    toU32_of_range _ (by omega) (by omega)
  have e3 : toU32 ((GROUND : Int) - DINO_TEXTURE_HEIGHT) = (GROUND : Int) - 18 := by
    unfold DINO_TEXTURE_HEIGHT
    exact toU32_of_range _ (by omega) (by omega)
  unfold physics
  simp only [hg, e1, e2, e3, GRAVITY2]
  rw [if_pos trivial, if_neg (by omega)]
  exact ⟨rfl, rfl, rfl⟩

/-- An airborne step that reaches the resting position: the player is put on it. -/
theorem physics_land (GROUND : Nat) (d : Dino) (hG : 18 ≤ GROUND)
    (hG2 : GROUND < 2147483648) (hg : d.onGround = 0) (h0 : 0 ≤ 2 * d.y + d.velocity2)
    (h1 : (2 * d.y + d.velocity2) / 2 < 4294967296)
    (hge : (GROUND : Int) - 18 ≤ (2 * d.y + d.velocity2) / 2) :
    (physics GROUND d).y = (GROUND : Int) - 18 ∧ (physics GROUND d).onGround = 1 := by
  have e1 : addVelocity d.y d.velocity2 = (2 * d.y + d.velocity2) / 2 := by
    unfold addVelocity
    exact Int.tdiv_eq_ediv h0 (by decide)
  have e2 : toU32 ((2 * d.y + d.velocity2) / 2) = (2 * d.y + d.velocity2) / 2 :=
    toU32_of_range _ (by omega) h1
  have e3 : toU32 ((GROUND : Int) - DINO_TEXTURE_HEIGHT) = (GROUND : Int) - 18 := by
    unfold DINO_TEXTURE_HEIGHT
    exact toU32_of_range _ (by omega) (by omega)
  have e4 : toI32 ((GROUND : Int) - 18) = (GROUND : Int) - 18 :=
    toI32_of_range _ (by omega) (by omega)
  unfold physics
  simp only [hg, e1, e2, e3, e4]
  rw [if_pos trivial, if_pos (by omega)]
  exact ⟨rfl, rfl⟩

/-- When the resting position is at least 16 rows down, the first fifteen steps of a
jump stay airborne and follow `jumpArcOffsets`, the velocity gaining 0.5 per step. -/
theorem jump_follows_offsets (GROUND : Nat) (d : Dino) (hG : 34 ≤ GROUND)
    (hG2 : GROUND < 2147483648) (hy : d.y = (GROUND : Int) - 18)
    (hv : d.velocity2 = JUMP_VELOCITY2) (hg : d.onGround = 0) (i : Nat) (hi : i ≤ 15) :
    ((physics GROUND)^[i] d).y = (GROUND : Int) - 18 - jumpArcOffsets.getD i 0 ∧
    ((physics GROUND)^[i] d).velocity2 = -7 + (i : Int) ∧
    ((physics GROUND)^[i] d).onGround = 0 := by
  induction i with
  | zero =>
    refine ⟨?_, ?_, hg⟩
    · simp [jumpArcOffsets, hy]
    · simp [hv, JUMP_VELOCITY2]
  | succ i ih =>
    obtain ⟨iy, iv, ig⟩ := ih (by omega)
    rw [Function.iterate_succ_apply']
    generalize (physics GROUND)^[i] d = s at iy iv ig ⊢
    have hi2 : i ≤ 14 := by omega
    have hG18 : 18 ≤ GROUND := by omega
    interval_cases i <;> norm_num [jumpArcOffsets] at iy iv ⊢ <;>
      (obtain ⟨a, b, c⟩ := physics_air GROUND s hG18 hG2 ig (by omega) (by omega)
       refine ⟨?_, ?_, c⟩ <;> omega)

/-- The jump on a screen whose resting position is at least 16 rows down: sixteen
steps, the apex at step eight. -/
theorem jump_arc_high (GROUND : Nat) (d : Dino) (hG : 34 ≤ GROUND)
    (hG2 : GROUND < 2147483648) (hy : d.y = (GROUND : Int) - 18)
    (hv : d.velocity2 = JUMP_VELOCITY2) (hg : d.onGround = 0) : JumpArc GROUND d 16 8 := by
  have T := jump_follows_offsets GROUND d hG hG2 hy hv hg
  have hG18 : 18 ≤ GROUND := by omega
  obtain ⟨ty, tv, tg⟩ := T 15 (by decide)
  have o15 : jumpArcOffsets.getD 15 0 = 4 := by decide
  rw [o15] at ty
  have L := physics_land GROUND ((physics GROUND)^[15] d) hG18 hG2 tg (by omega) (by omega)
    (by omega)
  have e16 : (physics GROUND)^[16] d = physics GROUND ((physics GROUND)^[15] d) :=
    Function.iterate_succ_apply' (physics GROUND) 15 d
  unfold JumpArc
  rw [e16]
  refine ⟨by decide, by decide, L.2, L.1, ?_, ?_⟩
  · intro i hi
    rw [(T i (by omega)).1, (T (i + 1) (by omega)).1]
    interval_cases i <;> norm_num [jumpArcOffsets] <;> omega
  · intro i hi hk
    by_cases c : i = 15
    · subst c
      rw [e16, L.1, ty]
      omega
    · rw [(T i (by omega)).1, (T (i + 1) (by omega)).1]
      have : i ≤ 14 := by omega
      interval_cases i <;> norm_num [jumpArcOffsets] <;> omega

/-- The jump on a screen whose resting position is less than 16 rows down, from a
start with an arbitrary `x` and collision box zeroed: the shape holds as well. -/
theorem jump_arc_low (GROUND : Nat) (hG : 18 ≤ GROUND) (hG2 : GROUND < 34) :
    ∃ n k, JumpArc GROUND ⟨0, (GROUND : Int) - 18, JUMP_VELOCITY2, 0, ⟨0, 0, 0, 0⟩⟩ n k := by
  interval_cases GROUND
  · exact ⟨1, 0, by decide⟩
  · exact ⟨1, 0, by decide⟩
  · exact ⟨1, 0, by decide⟩
  · exact ⟨2, 1, by decide⟩
  · exact ⟨2, 1, by decide⟩
  · exact ⟨2, 1, by decide⟩
  · exact ⟨2, 1, by decide⟩
  · exact ⟨3, 2, by decide⟩
  · exact ⟨3, 2, by decide⟩
  · exact ⟨4, 3, by decide⟩
  · exact ⟨4, 3, by decide⟩
  · exact ⟨4, 3, by decide⟩
  · exact ⟨5, 4, by decide⟩
  · exact ⟨6, 5, by decide⟩
  · exact ⟨6, 5, by decide⟩
  · exact ⟨16, 8, by decide⟩

/-- C4: for a ground row of at least 18 (and within the `int` range), from the player
state just after a jump from rest (`y = GROUND - 18`, velocity -3.5, airborne) some
number `n >= 1` of physics steps ends on the ground at exactly `y = GROUND - 18`, and
over those steps `y` first never increases (up to a step `k`) and then never
decreases. -/
theorem jump_returns_to_ground (GROUND : Nat) (d : Dino) (hG : 18 ≤ GROUND)
    (hG2 : GROUND < 2147483648) (hy : d.y = (GROUND : Int) - 18)
    (hv : d.velocity2 = JUMP_VELOCITY2) (hg : d.onGround = 0) :
    ∃ n k : Nat, 1 ≤ n ∧ k ≤ n ∧ ((physics GROUND)^[n] d).onGround = 1 ∧
      ((physics GROUND)^[n] d).y = (GROUND : Int) - 18 ∧
      (∀ i, i < k → ((physics GROUND)^[i + 1] d).y ≤ ((physics GROUND)^[i] d).y) ∧
      (∀ i, i < n → k ≤ i → ((physics GROUND)^[i] d).y ≤ ((physics GROUND)^[i + 1] d).y) := by
  by_cases c : 34 ≤ GROUND
  · exact ⟨16, 8, jump_arc_high GROUND d c hG2 hy hv hg⟩
  · obtain ⟨n, k, h⟩ := jump_arc_low GROUND hG (by omega)
    exact ⟨n, k, JumpArc_core GROUND d _ hy hv hg n k h⟩

/-- Witness for C4: the jump of the initial player on a screen with the ground on
row 40. -/
theorem jump_returns_to_ground_witness :
    ∃ n k : Nat, 1 ≤ n ∧ k ≤ n ∧
      ((physics 40)^[n] ⟨5, 22, -7, 0, ⟨5, 22, 9, 16⟩⟩).onGround = 1 ∧
      ((physics 40)^[n] ⟨5, 22, -7, 0, ⟨5, 22, 9, 16⟩⟩).y = ((40 : Nat) : Int) - 18 ∧
      (∀ i, i < k → ((physics 40)^[i + 1] ⟨5, 22, -7, 0, ⟨5, 22, 9, 16⟩⟩).y ≤
        ((physics 40)^[i] ⟨5, 22, -7, 0, ⟨5, 22, 9, 16⟩⟩).y) ∧
      (∀ i, i < n → k ≤ i → ((physics 40)^[i] ⟨5, 22, -7, 0, ⟨5, 22, 9, 16⟩⟩).y ≤
        ((physics 40)^[i + 1] ⟨5, 22, -7, 0, ⟨5, 22, 9, 16⟩⟩).y) :=
  jump_returns_to_ground 40 ⟨5, 22, -7, 0, ⟨5, 22, 9, 16⟩⟩ (by decide) (by decide)
    (by decide) (by decide) (by decide)

/-! ### Spawn eligibility -/

/-- The scan ends on a slot of the pool (or stays on the slot it started from). -/
theorem lastObstacle_mem (l : List Obstacle) (first : Obstacle) :
    lastObstacle first l = first ∨ lastObstacle first l ∈ l := by
  induction l generalizing first with
  | nil => exact Or.inl rfl
  | cons o l ih =>
    unfold lastObstacle
    rw [List.foldl_cons]
    rcases ih (if first.x < o.x then o else first) with h | h
    · unfold lastObstacle at h
      rw [h]
      by_cases c : first.x < o.x
      · simp [c]
      · simp [c]
    · exact Or.inr (List.mem_cons_of_mem _ h)

/-- The slot the scan ends on has an `x` no smaller than the starting slot and than
every slot scanned. -/
theorem lastObstacle_ge (l : List Obstacle) (first : Obstacle) :
    first.x ≤ (lastObstacle first l).x ∧ ∀ o ∈ l, o.x ≤ (lastObstacle first l).x := by
  induction l generalizing first with
  | nil => exact ⟨le_refl _, fun o ho => absurd ho (List.not_mem_nil o)⟩
  | cons a l ih =>
    have e : lastObstacle first (a :: l) =
        lastObstacle (if first.x < a.x then a else first) l := by
      unfold lastObstacle
      rw [List.foldl_cons]
    rw [e]
    obtain ⟨h1, h2⟩ := ih (if first.x < a.x then a else first)
    by_cases c : first.x < a.x
    · rw [if_pos c] at h1 h2 ⊢
      refine ⟨by omega, ?_⟩
      intro o ho
      rcases List.mem_cons.mp ho with rfl | ho
      · exact h1
      · exact h2 o ho
    · rw [if_neg c] at h1 h2 ⊢
      refine ⟨h1, ?_⟩
      intro o ho
      rcases List.mem_cons.mp ho with rfl | ho
      · omega
      · exact h2 o ho

/-- C9: on a non-empty pool whose slots all have `x <= WIDTH` (within the `int` range,
`WIDTH` being a non-negative `int` screen width), `can_spawn_new_obstacle` returns 1
when `WIDTH - m >= 30` and 0 otherwise, `m` being the largest `x` over all slots,
active or not. -/
theorem can_spawn_iff_gap (WIDTH : Nat) (obstacles : List Obstacle) (m : Int)
    (hne : obstacles ≠ []) (hW : WIDTH < 2147483648)
    (hx : ∀ o ∈ obstacles, -2147483648 ≤ o.x ∧ o.x ≤ WIDTH)
    (hm : ∃ o ∈ obstacles, o.x = m) (hmax : ∀ o ∈ obstacles, o.x ≤ m) :
    (can_spawn_new_obstacle WIDTH obstacles = some 1 ↔ (WIDTH : Int) - m ≥ 30) ∧
    (can_spawn_new_obstacle WIDTH obstacles = some 0 ↔ ¬ ((WIDTH : Int) - m ≥ 30)) := by
  cases obstacles with
  | nil => exact absurd rfl hne
  | cons first rest =>
    have hin : lastObstacle first (first :: rest) ∈ first :: rest := by
      rcases lastObstacle_mem (first :: rest) first with h | h
      · rw [h]
        exact List.mem_cons_self _ _
      · exact h
    obtain ⟨o, ho, rfl⟩ := hm
    have h1 := (lastObstacle_ge (first :: rest) first).2 o ho
    have h2 := hmax _ hin
    have e : (lastObstacle first (first :: rest)).x = o.x := by omega
    have hr := hx o ho
    have hu : toU32 ((WIDTH : Int) - o.x) = (WIDTH : Int) - o.x :=
      toU32_of_range _ (by omega) (by omega)
    simp only [can_spawn_new_obstacle, e, hu]
    by_cases c : (WIDTH : Int) - o.x ≥ 30
    · simp [c]
    · simp [c]

/-- Witness for C9: a pool with a stale slot at -13, an active one at 40 and a fresh
slot at 0, on a screen 80 wide. -/
theorem can_spawn_iff_gap_witness :
    (can_spawn_new_obstacle 80
        [⟨-13, 33, 0, ⟨-13, 34, 10, 6⟩⟩, ⟨40, 33, 1, ⟨40, 34, 10, 6⟩⟩, initObstacle] = some 1 ↔
      ((80 : Nat) : Int) - 40 ≥ 30) ∧
    (can_spawn_new_obstacle 80
        [⟨-13, 33, 0, ⟨-13, 34, 10, 6⟩⟩, ⟨40, 33, 1, ⟨40, 34, 10, 6⟩⟩, initObstacle] = some 0 ↔
      ¬ (((80 : Nat) : Int) - 40 ≥ 30)) :=
  can_spawn_iff_gap 80
    [⟨-13, 33, 0, ⟨-13, 34, 10, 6⟩⟩, ⟨40, 33, 1, ⟨40, 34, 10, 6⟩⟩, initObstacle] 40
    (by decide) (by decide) (by decide) (by decide) (by decide)

/-! ### The obstacle loop -/

/-- The loop body on an active slot: the slot is replaced by its scrolled value and
the score gains one exactly when the slot is made inactive. -/
theorem obstacleStep_active (WIDTH GROUND : Nat) (rnd : Nat → Nat)
    (st : List Obstacle × Score) (i : Nat) (obs : Obstacle) (h : st.1[i]? = some obs)
    (ha : obs.active ≠ 0) :
    obstacleStep WIDTH GROUND rnd st i =
      (st.1.set i (scrolled obs),
        { st.2 with count := st.2.count +
            (if obs.x - 2 + CACTUS_TEXTURE_WIDTH < 0 then 1 else 0) }) := by
  unfold obstacleStep scrolled
  rw [h]
  by_cases c : obs.x - 2 + CACTUS_TEXTURE_WIDTH < 0
  · simp [ha, c]
  · simp [ha, c]

/-- The loop body on an inactive slot: the slot is spawned when the draw is a multiple
of 200 and `can_spawn_new_obstacle` returns non-zero, and nothing changes otherwise. -/
theorem obstacleStep_inactive (WIDTH GROUND : Nat) (rnd : Nat → Nat)
    (st : List Obstacle × Score) (i : Nat) (obs : Obstacle) (h : st.1[i]? = some obs)
    (ha : obs.active = 0) :
    obstacleStep WIDTH GROUND rnd st i =
      if rnd i % 200 = 0 ∧
          (can_spawn_new_obstacle WIDTH st.1).any (fun r => decide (r ≠ 0)) = true then
        (st.1.set i (spawned WIDTH GROUND), st.2)
      else
        st := by
  unfold obstacleStep
  rw [h]
  simp [ha]

/-- Loop invariants: a property that holds before the loop and that the body for slot
`k` carries from `k` to `k + 1` holds with the pool size after the loop. -/
theorem update_obstacles_induction (WIDTH GROUND : Nat) (rnd : Nat → Nat)
    (obstacles : List Obstacle) (score : Score) (Q : Nat → List Obstacle × Score → Prop)
    (h0 : Q 0 (obstacles, score))
    (hstep : ∀ k st, k < obstacles.length → Q k st →
      Q (k + 1) (obstacleStep WIDTH GROUND rnd st k)) :
    Q obstacles.length (update_obstacles WIDTH GROUND rnd obstacles score) := by
  have gen : ∀ k, k ≤ obstacles.length →
      Q k ((List.range k).foldl (obstacleStep WIDTH GROUND rnd) (obstacles, score)) := by
    intro k
    induction k with
    | zero => exact fun _ => h0
    | succ k ih =>
      intro hk
      rw [List.range_succ, List.foldl_append]
      exact hstep k _ (by omega) (ih (by omega))
  exact gen obstacles.length (le_refl _)

/-- What the loop body does to the pool, slot by slot: the pool keeps its length, slot
`i` is updated as `SlotUpdate` says and every other slot is untouched; the score's
`count` gains one exactly when slot `i` was active and is made inactive. -/
theorem obstacleStep_slots (WIDTH GROUND : Nat) (rnd : Nat → Nat)
    (st : List Obstacle × Score) (i : Nat) (obs : Obstacle) (h : st.1[i]? = some obs) :
    (obstacleStep WIDTH GROUND rnd st i).1.length = st.1.length ∧
    (∀ j, j ≠ i → (obstacleStep WIDTH GROUND rnd st i).1[j]? = st.1[j]?) ∧
    (∃ o1, (obstacleStep WIDTH GROUND rnd st i).1[i]? = some o1 ∧
      SlotUpdate WIDTH GROUND rnd i obs o1) ∧
    (obstacleStep WIDTH GROUND rnd st i).2.count = st.2.count +
      (if obs.active ≠ 0 ∧ obs.x - 2 + CACTUS_TEXTURE_WIDTH < 0 then 1 else 0) ∧
    (obstacleStep WIDTH GROUND rnd st i).2.x = st.2.x ∧
    (obstacleStep WIDTH GROUND rnd st i).2.y = st.2.y := by
  have hlen : i < st.1.length := (List.getElem?_eq_some.mp h).1
  by_cases ha : obs.active = 0
  · rw [obstacleStep_inactive WIDTH GROUND rnd st i obs h ha]
    by_cases c : rnd i % 200 = 0 ∧
        (can_spawn_new_obstacle WIDTH st.1).any (fun r => decide (r ≠ 0)) = true
    · rw [if_pos c]
      refine ⟨List.length_set _ _ _, ?_, ⟨spawned WIDTH GROUND, ?_, ?_⟩, ?_, rfl, rfl⟩
      · intro j hj
        exact List.getElem?_set_ne (Ne.symm hj)
      · exact List.getElem?_set_self hlen
      · exact Or.inr (Or.inr ⟨ha, c.1, rfl⟩)
      · simp [ha]
    · rw [if_neg c]
      refine ⟨rfl, fun _ _ => rfl, ⟨obs, h, Or.inr (Or.inl ⟨ha, rfl⟩)⟩, ?_, rfl, rfl⟩
      simp [ha]
  · rw [obstacleStep_active WIDTH GROUND rnd st i obs h ha]
    refine ⟨List.length_set _ _ _, ?_, ⟨scrolled obs, ?_, Or.inl ⟨ha, rfl⟩⟩, ?_, rfl, rfl⟩
    · intro j hj
      exact List.getElem?_set_ne (Ne.symm hj)
    · exact List.getElem?_set_self hlen
    · simp [ha]

/-- What one obstacle loop does to the pool and the score: the pool keeps its length,
every slot is updated from its own old value as `SlotUpdate` says, `score.count`
gains the number of active slots with `x - 2 + 11 < 0`, and the other fields of the
score are untouched. -/
theorem update_obstacles_slots (WIDTH GROUND : Nat) (rnd : Nat → Nat)
    (obstacles : List Obstacle) (score : Score) :
    (update_obstacles WIDTH GROUND rnd obstacles score).1.length = obstacles.length ∧
    (∀ j o, obstacles[j]? = some o →
      ∃ o1, (update_obstacles WIDTH GROUND rnd obstacles score).1[j]? = some o1 ∧
        SlotUpdate WIDTH GROUND rnd j o o1) ∧
    (update_obstacles WIDTH GROUND rnd obstacles score).2.count = score.count +
      obstacles.countP
        (fun o => decide (o.active ≠ 0 ∧ o.x - 2 + CACTUS_TEXTURE_WIDTH < 0)) ∧
    (update_obstacles WIDTH GROUND rnd obstacles score).2.x = score.x ∧
    (update_obstacles WIDTH GROUND rnd obstacles score).2.y = score.y := by
  have key := update_obstacles_induction WIDTH GROUND rnd obstacles score
    (fun k st => st.1.length = obstacles.length ∧
      (∀ j, k ≤ j → st.1[j]? = obstacles[j]?) ∧
      (∀ j o, j < k → obstacles[j]? = some o →
        ∃ o1, st.1[j]? = some o1 ∧ SlotUpdate WIDTH GROUND rnd j o o1) ∧
      st.2.count = score.count + (obstacles.take k).countP
        (fun o => decide (o.active ≠ 0 ∧ o.x - 2 + CACTUS_TEXTURE_WIDTH < 0)) ∧
      st.2.x = score.x ∧ st.2.y = score.y)
    ⟨rfl, fun _ _ => rfl, fun j o hj => absurd hj (Nat.not_lt_zero j), by simp, rfl, rfl⟩
    (by
      rintro k st hk ⟨hl, hrest, hdone, hcount, hsx, hsy⟩
      have hobs : st.1[k]? = some (obstacles[k]) := by
        rw [hrest k (le_refl k)]
        exact List.getElem?_eq_getElem hk
      obtain ⟨s1, s2, s3, s4, s5, s6⟩ :=
        obstacleStep_slots WIDTH GROUND rnd st k (obstacles[k]) hobs
      refine ⟨by rw [s1, hl], ?_, ?_, ?_, by rw [s5, hsx], by rw [s6, hsy]⟩
      · intro j hj
        rw [s2 j (by omega)]
        exact hrest j (by omega)
      · intro j o hj ho
        by_cases c : j = k
        · subst c
          rw [List.getElem?_eq_getElem hk] at ho
          cases ho
          exact s3
        · rw [s2 j c]
          exact hdone j o (by omega) ho
      · rw [s4, hcount, List.take_succ, List.countP_append, List.getElem?_eq_getElem hk]
        simp only [Option.toList, List.countP_cons, List.countP_nil]
        by_cases c : (obstacles[k]).active ≠ 0 ∧
            (obstacles[k]).x - 2 + CACTUS_TEXTURE_WIDTH < 0
        · simp [c]
          omega
        · simp [c])
  obtain ⟨k1, -, k3, k4, k5, k6⟩ := key
  refine ⟨k1, ?_, ?_, k5, k6⟩
  · intro j o ho
    exact k3 j o (List.getElem?_eq_some.mp ho).1 ho
  · rw [k4, List.take_length]

/-- A slot that was active is inactive after the loop exactly when its scrolled
position has `x + CACTUS_TEXTURE_WIDTH < 0`. -/
theorem SlotUpdate_despawned (WIDTH GROUND : Nat) (rnd : Nat → Nat) (j : Nat)
    (o o1 : Obstacle) (h : SlotUpdate WIDTH GROUND rnd j o o1) :
    (o.active ≠ 0 ∧ o1.active = 0) ↔
      (o.active ≠ 0 ∧ o.x - 2 + CACTUS_TEXTURE_WIDTH < 0) := by
  rcases h with ⟨ha, rfl⟩ | ⟨ha, rfl⟩ | ⟨ha, -, rfl⟩
  · unfold scrolled
    by_cases c : o.x - 2 + CACTUS_TEXTURE_WIDTH < 0
    · simp [c]
    · simp [c, ha]
  · simp [ha]
  · simp [ha]

/-- The number of slots active before one obstacle loop and inactive after it is the
number of active slots whose scrolled position has `x + 11 < 0`. -/
theorem despawned_count (WIDTH GROUND : Nat) (rnd : Nat → Nat)
    (obstacles : List Obstacle) (score : Score) :
    (List.zip obstacles (update_obstacles WIDTH GROUND rnd obstacles score).1).countP
        (fun p => decide (p.1.active ≠ 0 ∧ p.2.active = 0)) =
      obstacles.countP
        (fun o => decide (o.active ≠ 0 ∧ o.x - 2 + CACTUS_TEXTURE_WIDTH < 0)) := by
  obtain ⟨hl, hs, -, -, -⟩ := update_obstacles_slots WIDTH GROUND rnd obstacles score
  have e1 : (List.zip obstacles (update_obstacles WIDTH GROUND rnd obstacles score).1).countP
        (fun p => decide (p.1.active ≠ 0 ∧ p.2.active = 0)) =
      (List.zip obstacles (update_obstacles WIDTH GROUND rnd obstacles score).1).countP
        ((fun o => decide (o.active ≠ 0 ∧ o.x - 2 + CACTUS_TEXTURE_WIDTH < 0)) ∘
          Prod.fst) := by
    apply List.countP_congr
    rintro ⟨o, o1⟩ hp
    obtain ⟨j, hj⟩ := List.mem_iff_getElem?.mp hp
    obtain ⟨h1, h2⟩ := List.getElem?_zip_eq_some.mp hj
    obtain ⟨o2, h3, h4⟩ := hs j o h1
    have e : o2 = o1 := by
      rw [h3] at h2
      exact Option.some.inj h2
    subst e
    have := SlotUpdate_despawned WIDTH GROUND rnd j o o2 h4
    simpa using this
  rw [e1, ← List.countP_map, List.map_fst_zip _ _ (le_of_eq hl.symm)]

/-- C6: one obstacle loop adds to `score.count` exactly the number of slots that were
active before it and are inactive after it, which is the number of active slots with
`x + 11 < 0` after scrolling by 2, so it never lowers `score.count`; and the score a
tick ends with (in the new state, or reported at game over) is the one the obstacle
loop of that tick produced: input, physics, collision sweep and ramp leave it alone. -/
theorem score_counts_despawned (WIDTH GROUND : Nat) (rnd : Nat → Nat)
    (obstacles : List Obstacle) (score : Score) (key : Int) (dino : Dino) (INTERVAL : Nat) :
    (update_obstacles WIDTH GROUND rnd obstacles score).2.count = score.count +
      (List.zip obstacles (update_obstacles WIDTH GROUND rnd obstacles score).1).countP
        (fun p => decide (p.1.active ≠ 0 ∧ p.2.active = 0)) ∧
    (List.zip obstacles (update_obstacles WIDTH GROUND rnd obstacles score).1).countP
        (fun p => decide (p.1.active ≠ 0 ∧ p.2.active = 0)) =
      obstacles.countP
        (fun o => decide (o.active ≠ 0 ∧ o.x - 2 + CACTUS_TEXTURE_WIDTH < 0)) ∧
    score.count ≤ (update_obstacles WIDTH GROUND rnd obstacles score).2.count ∧
    (match tick WIDTH GROUND key rnd ⟨dino, obstacles, score, INTERVAL⟩ with
      | Outcome.running s1 =>
        s1.score = (update_obstacles WIDTH GROUND rnd obstacles score).2
      | Outcome.gameOver sc _ =>
        sc = (update_obstacles WIDTH GROUND rnd obstacles score).2
      | Outcome.quit => key = 113) := by
  have hc := despawned_count WIDTH GROUND rnd obstacles score
  obtain ⟨-, -, hcount, -, -⟩ := update_obstacles_slots WIDTH GROUND rnd obstacles score
  refine ⟨by rw [hc, hcount], hc, by omega, ?_⟩
  unfold tick
  cases hi : input key dino with
  | none =>
    simp only []
    unfold input at hi
    split_ifs at hi with h1 h2 h3
    exact h3
  | some d1 =>
    simp only []
    by_cases c : collision (update_obstacles WIDTH GROUND rnd obstacles score).1
        (physics GROUND d1) = true
    · simp [c]
    · simp [c]

/-! ### A single obstacle crossing the screen -/

/-- Counting over a list in which only the element at index `i` can satisfy `p`. -/
theorem countP_single {α : Type} (p : α → Bool) (l : List α) (i : Nat) (a : α)
    (hi : l[i]? = some a) (hothers : ∀ j b, j ≠ i → l[j]? = some b → p b = false) :
    l.countP p = if p a = true then 1 else 0 := by
  induction l generalizing i with
  | nil => simp at hi
  | cons x l ih =>
    cases i with
    | zero =>
      simp only [List.getElem?_cons_zero, Option.some.injEq] at hi
      subst hi
      have hz : l.countP p = 0 := by
        rw [List.countP_eq_zero]
        intro b hb
        obtain ⟨j, hj⟩ := List.mem_iff_getElem?.mp hb
        have := hothers (j + 1) b (by omega) (by simpa using hj)
        simp [this]
      rw [List.countP_cons, hz]
      simp
    | succ i =>
      have hx : p x = false := hothers 0 x (by omega) (by simp)
      have hrec := ih i (by simpa using hi) (fun j b hj hb =>
        hothers (j + 1) b (by omega) (by simpa using hb))
      rw [List.countP_cons, hrec]
      simp [hx]

/-- One obstacle loop without a spawning draw, on a pool whose only active slot is
`i`: slot `i` is scrolled, the other slots stay inactive, and the score gains one
exactly when slot `i` is made inactive. -/
theorem update_single_active (WIDTH GROUND : Nat) (rnd : Nat → Nat)
    (obstacles : List Obstacle) (score : Score) (i : Nat) (o : Obstacle)
    (hr : ∀ j, rnd j % 200 ≠ 0) (hi : obstacles[i]? = some o) (ha : o.active ≠ 0)
    (hothers : ∀ j b, j ≠ i → obstacles[j]? = some b → b.active = 0) :
    (update_obstacles WIDTH GROUND rnd obstacles score).1[i]? = some (scrolled o) ∧
    (∀ j b, j ≠ i → (update_obstacles WIDTH GROUND rnd obstacles score).1[j]? = some b →
      b.active = 0) ∧
    (update_obstacles WIDTH GROUND rnd obstacles score).2.count = score.count +
      (if o.x - 2 + CACTUS_TEXTURE_WIDTH < 0 then 1 else 0) := by
  obtain ⟨hl, hs, hcount, -, -⟩ := update_obstacles_slots WIDTH GROUND rnd obstacles score
  refine ⟨?_, ?_, ?_⟩
  · obtain ⟨o1, h1, h2⟩ := hs i o hi
    rcases h2 with ⟨-, rfl⟩ | ⟨h, -⟩ | ⟨h, -, -⟩
    · exact h1
    · exact absurd h ha
    · exact absurd h ha
  · intro j b hj hb
    have hjl : j < obstacles.length := by
      rw [← hl]
      exact (List.getElem?_eq_some.mp hb).1
    have hb0 := hothers j (obstacles[j]) hj (List.getElem?_eq_getElem hjl)
    obtain ⟨o1, h1, h2⟩ := hs j (obstacles[j]) (List.getElem?_eq_getElem hjl)
    rw [h1] at hb
    cases hb
    rcases h2 with ⟨h, -⟩ | ⟨-, rfl⟩ | ⟨-, h, -⟩
    · exact absurd hb0 h
    · exact hb0
    · exact absurd h (hr j)
  · rw [hcount, countP_single _ obstacles i o hi]
    · by_cases c : o.x - 2 + CACTUS_TEXTURE_WIDTH < 0
      · simp [c, ha]
      · simp [c]
    · intro j b hj hb
      simp [hothers j b hj hb]

/-- An active slot alone in the pool, scrolled tick after tick without a spawning
draw: it needs `k + 1` ticks to become inactive when `k` is the number of scrolls its
`x + 11` survives; until then it is active, two columns further left per tick, and the
score does not move; at that tick the score gains one. -/
theorem single_obstacle_ticks (WIDTH GROUND : Nat) (i : Nat) (rnds : List (Nat → Nat))
    (hr : ∀ rnd ∈ rnds, ∀ j, rnd j % 200 ≠ 0) (obstacles : List Obstacle) (score : Score)
    (o : Obstacle) (k : Nat) (hi : obstacles[i]? = some o) (ha : o.active ≠ 0)
    (hothers : ∀ j b, j ≠ i → obstacles[j]? = some b → b.active = 0)
    (hk1 : 0 ≤ o.x + CACTUS_TEXTURE_WIDTH - 2 * (k : Int))
    (hk2 : o.x + CACTUS_TEXTURE_WIDTH - 2 * ((k : Int) + 1) < 0) :
    (rnds.length < k + 1 →
      ∃ o1, (obstacleTicks WIDTH GROUND rnds (obstacles, score)).1[i]? = some o1 ∧
        o1.active ≠ 0 ∧ o1.x = o.x - 2 * (rnds.length : Int) ∧
        (obstacleTicks WIDTH GROUND rnds (obstacles, score)).2.count = score.count) ∧
    (rnds.length = k + 1 →
      ∃ o1, (obstacleTicks WIDTH GROUND rnds (obstacles, score)).1[i]? = some o1 ∧
        o1.active = 0 ∧
        (obstacleTicks WIDTH GROUND rnds (obstacles, score)).2.count = score.count + 1) := by
  induction rnds generalizing obstacles score o k with
  | nil =>
    refine ⟨fun _ => ⟨o, hi, ha, by simp, rfl⟩, fun h => ?_⟩
    simp at h
  | cons rnd rest ih =>
    have hrnd : ∀ j, rnd j % 200 ≠ 0 := hr rnd (List.mem_cons_self _ _)
    have hrest : ∀ r ∈ rest, ∀ j, r j % 200 ≠ 0 := fun r h => hr r (List.mem_cons_of_mem _ h)
    obtain ⟨u1, u2, u3⟩ :=
      update_single_active WIDTH GROUND rnd obstacles score i o hrnd hi ha hothers
    have unfold1 : obstacleTicks WIDTH GROUND (rnd :: rest) (obstacles, score) =
        obstacleTicks WIDTH GROUND rest
          ((update_obstacles WIDTH GROUND rnd obstacles score).1,
            (update_obstacles WIDTH GROUND rnd obstacles score).2) := rfl
    rw [unfold1]
    unfold CACTUS_TEXTURE_WIDTH at hk1 hk2 u3
    by_cases c : o.x - 2 + 11 < 0
    · have hk0 : k = 0 := by omega
      subst hk0
      refine ⟨fun h => ?_, fun h => ?_⟩
      · simp at h
      · have hnil : rest = [] := by
          cases rest with
          | nil => rfl
          | cons a b => simp at h
        subst hnil
        refine ⟨scrolled o, u1, ?_, ?_⟩
        · unfold scrolled CACTUS_TEXTURE_WIDTH
          rw [if_pos c]
        · show (update_obstacles WIDTH GROUND rnd obstacles score).2.count = score.count + 1
          rw [u3, if_pos c]
    · have hs : scrolled o =
          { o with x := o.x - 2, cbox := { o.cbox with x := o.cbox.x - 2 } } := by
        unfold scrolled CACTUS_TEXTURE_WIDTH
        rw [if_neg c]
      rw [if_neg c] at u3
      obtain ⟨k1, rfl⟩ : ∃ k1, k = k1 + 1 := ⟨k - 1, by omega⟩
      have hx : (scrolled o).x = o.x - 2 := by rw [hs]
      have hact : (scrolled o).active ≠ 0 := by
        rw [hs]
        exact ha
      obtain ⟨i1, i2⟩ := ih hrest (update_obstacles WIDTH GROUND rnd obstacles score).1
        (update_obstacles WIDTH GROUND rnd obstacles score).2 (scrolled o) k1 u1 hact u2
        (by
          unfold CACTUS_TEXTURE_WIDTH
          rw [hx]
          push_cast at hk1 ⊢
          omega)
        (by
          unfold CACTUS_TEXTURE_WIDTH
          rw [hx]
          push_cast at hk2 ⊢
          omega)
      refine ⟨fun h => ?_, fun h => ?_⟩
      · obtain ⟨o1, a1, a2, a3, a4⟩ := i1 (by simpa using h)
        refine ⟨o1, a1, a2, ?_, ?_⟩
        · rw [a3, hx]
          simp only [List.length_cons]
          push_cast
          omega
        · rw [a4, u3]
          rfl
      · obtain ⟨o1, a1, a2, a3⟩ := i2 (by simpa using h)
        refine ⟨o1, a1, a2, ?_⟩
        rw [a3, u3]

set_option maxRecDepth 100000 in
/-- C7 (as stated, refuted): on an 80-column screen the specification's tick count is
`ceil((80 - 1 + 11) / 2) = 45`, and after 45 obstacle loops without a spawning draw the
obstacle spawned at `x = 79` is at `x = -11`, still active, and the score is still 0. -/
theorem despawn_tick_even_width :
    despawnTicksSpec 80 = 45 ∧
    obstacleTicks 80 40 (List.replicate 45 (fun _ => 1)) ([spawned 80 40], ⟨0, 34, 0⟩) =
      ([⟨-11, 33, 1, ⟨-11, 34, 10, 6⟩⟩], ⟨0, 34, 0⟩) := by
  decide

/-- C7 (amended): for a screen width `WIDTH >= 1` (within the `int` range), an obstacle
spawned at `x = WIDTH - 1` in slot `i` of a pool whose other slots are inactive, with
score 0 and no spawning draw, is still active with score 0 after every number of
obstacle loops below `floor((WIDTH - 1 + 11) / 2) + 1`, and is inactive with score 1
after exactly that many. -/
theorem single_obstacle_despawn_tick (WIDTH GROUND : Nat) (i : Nat)
    (rnds : List (Nat → Nat)) (obstacles : List Obstacle) (score : Score)
    (hW : 1 ≤ WIDTH) (hW2 : WIDTH < 2147483648)
    (hr : ∀ rnd ∈ rnds, ∀ j, rnd j % 200 ≠ 0)
    (hi : obstacles[i]? = some (spawned WIDTH GROUND))
    (hothers : ∀ j b, j ≠ i → obstacles[j]? = some b → b.active = 0)
    (hs : score.count = 0) :
    (rnds.length < despawnTicks WIDTH →
      ∃ o1, (obstacleTicks WIDTH GROUND rnds (obstacles, score)).1[i]? = some o1 ∧
        o1.active ≠ 0 ∧
        (obstacleTicks WIDTH GROUND rnds (obstacles, score)).2.count = 0) ∧
    (rnds.length = despawnTicks WIDTH →
      ∃ o1, (obstacleTicks WIDTH GROUND rnds (obstacles, score)).1[i]? = some o1 ∧
        o1.active = 0 ∧
        (obstacleTicks WIDTH GROUND rnds (obstacles, score)).2.count = 1) := by
  have hx : (spawned WIDTH GROUND).x = (WIDTH : Int) - 1 := by
    show toI32 (toU32 ((WIDTH : Int) - 1)) = (WIDTH : Int) - 1
    rw [toU32_of_range _ (by omega) (by omega), toI32_of_range _ (by omega) (by omega)]
  obtain ⟨h1, h2⟩ := single_obstacle_ticks WIDTH GROUND i rnds hr obstacles score
    (spawned WIDTH GROUND) ((WIDTH - 1 + 11) / 2) hi
    (show (1 : Int) ≠ 0 by decide) hothers
    (by
      unfold CACTUS_TEXTURE_WIDTH
      rw [hx]
      omega)
    (by
      unfold CACTUS_TEXTURE_WIDTH
      rw [hx]
      omega)
  unfold despawnTicks
  refine ⟨fun h => ?_, fun h => ?_⟩
  · obtain ⟨o1, a1, a2, -, a4⟩ := h1 h
    exact ⟨o1, a1, a2, by rw [a4, hs]⟩
  · obtain ⟨o1, a1, a2, a3⟩ := h2 h
    exact ⟨o1, a1, a2, by rw [a3, hs]⟩

/-- Witness for C7 (amended): 80 columns, the obstacle in slot 1 of a two-slot pool,
46 obstacle loops. -/
theorem single_obstacle_despawn_tick_witness :
    (List.replicate 46 (fun _ : Nat => 1)).length = despawnTicks 80 ∧
    ∃ o1, (obstacleTicks 80 40 (List.replicate 46 (fun _ => 1))
        ([initObstacle, spawned 80 40], ⟨0, 34, 0⟩)).1[1]? = some o1 ∧ o1.active = 0 ∧
      (obstacleTicks 80 40 (List.replicate 46 (fun _ => 1))
        ([initObstacle, spawned 80 40], ⟨0, 34, 0⟩)).2.count = 1 :=
  ⟨by decide,
    (single_obstacle_despawn_tick 80 40 1 (List.replicate 46 (fun _ => 1))
      [initObstacle, spawned 80 40] ⟨0, 34, 0⟩ (by decide) (by decide)
      (by
        intro rnd h j
        rw [List.eq_of_mem_replicate h]
        show (1 : Nat) % 200 ≠ 0
        decide)
      (by decide)
      (by
        intro j b hj hb
        match j, hj, hb with
        | 0, _, hb =>
          simp only [List.getElem?_cons_zero, Option.some.injEq] at hb
          rw [← hb]
          rfl
        | j + 2, _, hb => simp at hb)
      rfl).2 (by decide)⟩

/-! ### The spacing of obstacles -/

/-- An `int` stored into an `unsigned int` and read back as `int` is unchanged. -/
theorem toI32_toU32 (z : Int) (h0 : -2147483648 ≤ z) (h1 : z < 2147483648) :
    toI32 (toU32 z) = z := by
  unfold toI32 toU32
  omega

/-- When `can_spawn_new_obstacle` returns non-zero, every slot of the pool, active or
not, is at least 30 columns left of `WIDTH`. -/
theorem can_spawn_gap (WIDTH : Nat) (obstacles : List Obstacle) (hW : WIDTH < 2147483648)
    (hb : ∀ o ∈ obstacles, -2147483648 ≤ o.x ∧ o.x ≤ WIDTH)
    (h : (can_spawn_new_obstacle WIDTH obstacles).any (fun r => decide (r ≠ 0)) = true) :
    ∀ o ∈ obstacles, o.x + 30 ≤ WIDTH := by
  cases obstacles with
  | nil => exact fun o ho => absurd ho (List.not_mem_nil o)
  | cons first rest =>
    have hin : lastObstacle first (first :: rest) ∈ first :: rest := by
      rcases lastObstacle_mem (first :: rest) first with h | h
      · rw [h]
        exact List.mem_cons_self _ _
      · exact h
    have hr := hb _ hin
    have hu : toU32 ((WIDTH : Int) - (lastObstacle first (first :: rest)).x) =
        (WIDTH : Int) - (lastObstacle first (first :: rest)).x :=
      toU32_of_range _ (by omega) (by omega)
    have hge : (WIDTH : Int) - (lastObstacle first (first :: rest)).x ≥ 30 := by
      by_contra c
      simp only [can_spawn_new_obstacle, hu, if_neg c] at h
      simp at h
    intro o ho
    have := (lastObstacle_ge (first :: rest) first).2 o ho
    omega

/-- The obstacle written by the spawn branch is at `x = WIDTH - 1` and active. -/
theorem spawned_x (WIDTH GROUND : Nat) (hW : WIDTH < 2147483648) :
    (spawned WIDTH GROUND).x = (WIDTH : Int) - 1 ∧ (spawned WIDTH GROUND).active = 1 :=
  ⟨toI32_toU32 _ (by omega) (by omega), rfl⟩

/-- The `x` and the flag of a scrolled slot. -/
theorem scrolled_x (o : Obstacle) :
    (scrolled o).x = o.x - 2 ∧
    ((scrolled o).active ≠ 0 → o.active ≠ 0 ∧ 0 ≤ o.x - 2 + 11) ∧
    (¬ (o.x - 2 + 11 < 0) → (scrolled o).active = o.active) := by
  unfold scrolled CACTUS_TEXTURE_WIDTH
  by_cases c : o.x - 2 + 11 < 0
  · simp [c]
  · simp [c]
    omega

/-- Reading a list after one of its entries has been replaced. -/
theorem set_lookup {α : Type} (l : List α) (i : Nat) (a : α) (j : Nat) (o : α)
    (h : (l.set i a)[j]? = some o) : (j = i ∧ o = a) ∨ (j ≠ i ∧ l[j]? = some o) := by
  rw [List.getElem?_set] at h
  by_cases c : i = j
  · rw [if_pos c] at h
    by_cases c2 : i < l.length
    · rw [if_pos c2] at h
      exact Or.inl ⟨c.symm, (Option.some.inj h).symm⟩
    · rw [if_neg c2] at h
      exact absurd h (by simp)
  · rw [if_neg c] at h
    exact Or.inr ⟨fun e => c e.symm, h⟩

/-- The position a slot will have after the loop does not depend on whether another
slot has been handled. -/
theorem xAfterLoop_succ (k j : Nat) (o : Obstacle) (h : j ≠ k) :
    xAfterLoop (k + 1) j o = xAfterLoop k j o := by
  unfold xAfterLoop
  by_cases c : j < k
  · rw [if_pos c, if_pos (by omega)]
  · rw [if_neg c, if_neg (by omega)]

/-- The loop invariant moves from `k` to `k + 1` when slot `k` is replaced by a slot
that is within bounds, not off screen if active, 29 columns away from where the other
active slots will be, and the score obeys the one-despawn rule. -/
theorem LoopInv_replace (WIDTH count0 k : Nat) (st : List Obstacle × Score) (a : Obstacle)
    (c1 : Nat) (h : LoopInv WIDTH count0 k st)
    (hb : -2147483648 ≤ a.x ∧ a.x ≤ WIDTH) (ha : a.active ≠ 0 → 0 ≤ a.x + 11)
    (hgap : a.active ≠ 0 → ∀ j o, j ≠ k → st.1[j]? = some o → o.active ≠ 0 →
      a.x + 29 ≤ xAfterLoop k j o ∨ xAfterLoop k j o + 29 ≤ a.x)
    (hscore : c1 = count0 ∨ (c1 = count0 + 1 ∧
      ∀ j o, k + 1 ≤ j → st.1[j]? = some o → o.active ≠ 0 → 0 ≤ o.x - 2 + 11)) :
    LoopInv WIDTH count0 (k + 1) (st.1.set k a, { st.2 with count := c1 }) := by
  obtain ⟨h1, h2, h3, -⟩ := h
  have hk : xAfterLoop (k + 1) k a = a.x := by
    unfold xAfterLoop
    rw [if_pos (by omega)]
  refine ⟨?_, ?_, ?_, ?_⟩
  · intro j o ho
    rcases set_lookup _ _ _ _ _ ho with ⟨-, rfl⟩ | ⟨-, ho⟩
    · exact hb
    · exact h1 j o ho
  · intro j o ho hact
    rcases set_lookup _ _ _ _ _ ho with ⟨-, rfl⟩ | ⟨-, ho⟩
    · exact ha hact
    · exact h2 j o ho hact
  · intro j1 j2 o1 o2 hne ho1 ho2 hact1 hact2
    rcases set_lookup _ _ _ _ _ ho1 with ⟨e1, e2⟩ | ⟨hj1, g1⟩
    · rcases set_lookup _ _ _ _ _ ho2 with ⟨e, -⟩ | ⟨hj2, g2⟩
      · exact absurd (e1.trans e.symm) hne
      · rw [e1, e2, hk, xAfterLoop_succ _ _ _ hj2]
        exact hgap (e2 ▸ hact1) j2 o2 hj2 g2 hact2
    · rcases set_lookup _ _ _ _ _ ho2 with ⟨e3, e4⟩ | ⟨hj2, g2⟩
      · rw [e3, e4, hk, xAfterLoop_succ _ _ _ hj1]
        exact (hgap (e4 ▸ hact2) j1 o1 hj1 g1 hact1).symm
      · rw [xAfterLoop_succ _ _ _ hj1, xAfterLoop_succ _ _ _ hj2]
        exact h3 j1 j2 o1 o2 hne g1 g2 hact1 hact2
  · rcases hscore with e | ⟨e, hrest⟩
    · exact Or.inl e
    · refine Or.inr ⟨e, ?_⟩
      intro j o hj ho hact
      rcases set_lookup _ _ _ _ _ ho with ⟨rfl, -⟩ | ⟨-, ho⟩
      · omega
      · exact hrest j o hj ho hact

/-- The loop body for slot `k` carries the loop invariant from `k` to `k + 1`. -/
theorem LoopInv_step (WIDTH GROUND : Nat) (rnd : Nat → Nat) (count0 k : Nat)
    (st : List Obstacle × Score) (hW : WIDTH < 2147483648) (hk : k < st.1.length)
    (h : LoopInv WIDTH count0 k st) :
    LoopInv WIDTH count0 (k + 1) (obstacleStep WIDTH GROUND rnd st k) := by
  have hobs : st.1[k]? = some (st.1[k]) := List.getElem?_eq_getElem hk
  generalize st.1[k] = obs at hobs
  obtain ⟨h1, h2, h3, h4⟩ := h
  have hkk : xAfterLoop k k obs = obs.x - 2 := by
    unfold xAfterLoop
    rw [if_neg (by omega)]
  have hle : ∀ j o, xAfterLoop k j o ≤ o.x := by
    intro j o
    unfold xAfterLoop
    split_ifs <;> omega
  have hge : ∀ j o, o.x - 2 ≤ xAfterLoop k j o := by
    intro j o
    unfold xAfterLoop
    split_ifs <;> omega
  by_cases hact : obs.active = 0
  · rw [obstacleStep_inactive WIDTH GROUND rnd st k obs hobs hact]
    have hscore : st.2.count = count0 ∨ (st.2.count = count0 + 1 ∧
        ∀ j o, k + 1 ≤ j → st.1[j]? = some o → o.active ≠ 0 → 0 ≤ o.x - 2 + 11) := by
      rcases h4 with e | ⟨e, hr⟩
      · exact Or.inl e
      · exact Or.inr ⟨e, fun j o hj => hr j o (by omega)⟩
    by_cases c : rnd k % 200 = 0 ∧
        (can_spawn_new_obstacle WIDTH st.1).any (fun r => decide (r ≠ 0)) = true
    · rw [if_pos c]
      have hfar := can_spawn_gap WIDTH st.1 hW
        (fun o ho => by
          obtain ⟨j, hj⟩ := List.mem_iff_getElem?.mp ho
          exact h1 j o hj) c.2
      obtain ⟨sx, -⟩ := spawned_x WIDTH GROUND hW
      exact LoopInv_replace WIDTH count0 k st (spawned WIDTH GROUND) st.2.count
        ⟨h1, h2, h3, h4⟩ (by rw [sx]; omega) (fun _ => by rw [sx]; omega)
        (fun _ j o _ ho _ => by
          have := hfar o (List.getElem?_mem ho)
          have := hle j o
          rw [sx]
          omega)
        hscore
    · rw [if_neg c]
      have e : st = (st.1.set k obs, { st.2 with count := st.2.count }) := by
        have e1 : st.1.set k obs = st.1 := by
          apply List.ext_getElem?
          intro j
          rw [List.getElem?_set]
          by_cases cj : k = j
          · rw [if_pos cj, if_pos hk, ← cj, hobs]
          · rw [if_neg cj]
        rw [e1]
      rw [e]
      exact LoopInv_replace WIDTH count0 k st obs st.2.count ⟨h1, h2, h3, h4⟩
        (h1 k obs hobs) (fun a => absurd hact a) (fun a => absurd hact a) hscore
  · rw [obstacleStep_active WIDTH GROUND rnd st k obs hobs hact]
    obtain ⟨sx, sa, sk⟩ := scrolled_x obs
    have hb := h1 k obs hobs
    have hon := h2 k obs hobs hact
    refine LoopInv_replace WIDTH count0 k st (scrolled obs) _ ⟨h1, h2, h3, h4⟩
      (by rw [sx]; omega) (fun a => by rw [sx]; have := (sa a).2; omega) ?_ ?_
    · intro _ j o hj ho ha
      have := h3 k j obs o (Ne.symm hj) hobs ho hact ha
      rw [hkk] at this
      rw [sx]
      exact this
    · unfold CACTUS_TEXTURE_WIDTH
      by_cases c : obs.x - 2 + 11 < 0
      · rw [if_pos c]
        rcases h4 with e | ⟨-, hr⟩
        · refine Or.inr ⟨by rw [e], ?_⟩
          intro j o hj ho ha
          have g := h3 k j obs o (by omega) hobs ho hact ha
          rw [hkk] at g
          have := hge j o
          have := hle j o
          have := h2 j o ho ha
          omega
        · have := hr k obs (le_refl k) hobs hact
          omega
      · rw [if_neg c]
        rcases h4 with e | ⟨e, hr⟩
        · exact Or.inl e
        · exact Or.inr ⟨e, fun j o hj => hr j o (by omega)⟩

/-- One obstacle loop keeps the pool invariant and adds at most one to the score: two
obstacles never leave the screen in the same tick. -/
theorem update_obstacles_inv (WIDTH GROUND : Nat) (rnd : Nat → Nat)
    (obstacles : List Obstacle) (score : Score) (hW : WIDTH < 2147483648)
    (h : PoolInv WIDTH obstacles) :
    PoolInv WIDTH (update_obstacles WIDTH GROUND rnd obstacles score).1 ∧
    ((update_obstacles WIDTH GROUND rnd obstacles score).2.count = score.count ∨
      (update_obstacles WIDTH GROUND rnd obstacles score).2.count = score.count + 1) := by
  obtain ⟨p1, p2, p3⟩ := h
  have key := update_obstacles_induction WIDTH GROUND rnd obstacles score
    (fun k st => st.1.length = obstacles.length ∧ LoopInv WIDTH score.count k st)
    ⟨rfl, p1, p2, fun j1 j2 o1 o2 hne ho1 ho2 ha1 ha2 => by
        have := p3 j1 j2 o1 o2 hne ho1 ho2 ha1 ha2
        unfold xAfterLoop
        rw [if_neg (Nat.not_lt_zero j1), if_neg (Nat.not_lt_zero j2)]
        omega,
      Or.inl rfl⟩
    (fun k st hk ⟨hl, hinv⟩ => by
      refine ⟨?_, LoopInv_step WIDTH GROUND rnd score.count k st hW (by omega) hinv⟩
      have hobs : st.1[k]? = some (st.1[k]) := List.getElem?_eq_getElem (by omega)
      rw [(obstacleStep_slots WIDTH GROUND rnd st k _ hobs).1, hl])
  obtain ⟨hl, k1, k2, k3, k4⟩ := key
  refine ⟨⟨k1, k2, ?_⟩, ?_⟩
  · intro j1 j2 o1 o2 hne ho1 ho2 ha1 ha2
    have l1 : j1 < obstacles.length := by
      rw [← hl]
      exact (List.getElem?_eq_some.mp ho1).1
    have l2 : j2 < obstacles.length := by
      rw [← hl]
      exact (List.getElem?_eq_some.mp ho2).1
    have := k3 j1 j2 o1 o2 hne ho1 ho2 ha1 ha2
    unfold xAfterLoop at this
    rw [if_pos l1, if_pos l2] at this
    exact this
  · rcases k4 with e | ⟨e, -⟩
    · exact Or.inl e
    · exact Or.inr e

/-! ### Runs of the main loop -/

/-- A property that holds at the start and that every completed tick preserves holds
after every run that is still going. -/
theorem run_invariant (WIDTH GROUND : Nat) (P : GameState → Prop)
    (hstep : ∀ s key rnd s1, P s → tick WIDTH GROUND key rnd s = Outcome.running s1 → P s1)
    (inputs : List (Int × (Nat → Nat))) (s0 s : GameState) (h0 : P s0)
    (hrun : run WIDTH GROUND s0 inputs = Outcome.running s) : P s := by
  induction inputs generalizing s0 with
  | nil =>
    simp only [run, Outcome.running.injEq] at hrun
    exact hrun ▸ h0
  | cons kr rest ih =>
    obtain ⟨key, rnd⟩ := kr
    simp only [run] at hrun
    cases ht : tick WIDTH GROUND key rnd s0 with
    | running s1 =>
      rw [ht] at hrun
      exact ih s1 (hstep s0 key rnd s1 h0 ht) hrun
    | quit =>
      rw [ht] at hrun
      exact absurd hrun (by simp)
    | gameOver sc iv =>
      rw [ht] at hrun
      exact absurd hrun (by simp)

/-- A completed tick, taken apart: the key was not `q`, no collision was found, and
the new state is made of the moved player, the updated pool and score and the ramped
interval. -/
theorem tick_running (WIDTH GROUND : Nat) (key : Int) (rnd : Nat → Nat) (s s1 : GameState)
    (h : tick WIDTH GROUND key rnd s = Outcome.running s1) :
    ∃ d1, input key s.dino = some d1 ∧
      s1 = { dino := physics GROUND d1,
             obstacles := (update_obstacles WIDTH GROUND rnd s.obstacles s.score).1,
             score := (update_obstacles WIDTH GROUND rnd s.obstacles s.score).2,
             INTERVAL := ramp (update_obstacles WIDTH GROUND rnd s.obstacles s.score).2
               s.INTERVAL } := by
  unfold tick at h
  cases hi : input key s.dino with
  | none =>
    rw [hi] at h
    exact absurd h (by simp)
  | some d1 =>
    rw [hi] at h
    refine ⟨d1, rfl, ?_⟩
    by_cases c : collision (update_obstacles WIDTH GROUND rnd s.obstacles s.score).1
        (physics GROUND d1) = true
    · simp [c] at h
    · simp only [c] at h
      simpa using h.symm

/-- The input switch keeps the player's `x`, `y` and collision box. -/
theorem input_keeps_position (key : Int) (d d1 : Dino) (h : input key d = some d1) :
    d1.x = d.x ∧ d1.y = d.y ∧ d1.cbox = d.cbox := by
  unfold input at h
  split_ifs at h <;> simp at h <;> subst h <;> simp

/-- The physics block keeps `x` and the box's `x`, width and height, and leaves the
box's `y` equal to the player's `y` whenever it was so before. -/
theorem physics_keeps_box (GROUND : Nat) (d : Dino) :
    (physics GROUND d).x = d.x ∧ (physics GROUND d).cbox.x = d.cbox.x ∧
    (physics GROUND d).cbox.width = d.cbox.width ∧
    (physics GROUND d).cbox.height = d.cbox.height ∧
    (d.cbox.y = d.y → (physics GROUND d).cbox.y = (physics GROUND d).y) := by
  unfold physics
  by_cases hg : d.onGround = 0
  · by_cases hc : toU32 (addVelocity d.y d.velocity2) ≥
        toU32 ((GROUND : Int) - DINO_TEXTURE_HEIGHT)
    · simp [hg, hc]
    · simp [hg, hc]
  · simp [hg]

/-- C10: in every state reached from the initial state by completed ticks, whatever the
keys and spawn draws, the player is at `x = 5` and its collision box is
`{5, y, 9, 16}` with `y` the player's current `y`. -/
theorem player_cbox_synchronised (rows cols GROUND : Nat)
    (inputs : List (Int × (Nat → Nat))) (s : GameState)
    (hrun : run cols GROUND (initState rows cols GROUND) inputs = Outcome.running s) :
    s.dino.x = 5 ∧ s.dino.cbox.x = 5 ∧ s.dino.cbox.y = s.dino.y ∧
      s.dino.cbox.width = 9 ∧ s.dino.cbox.height = 16 := by
  refine run_invariant cols GROUND
    (fun s => s.dino.x = 5 ∧ s.dino.cbox.x = 5 ∧ s.dino.cbox.y = s.dino.y ∧
      s.dino.cbox.width = 9 ∧ s.dino.cbox.height = 16)
    ?_ inputs (initState rows cols GROUND) s ?_ hrun
  · rintro s key rnd s1 ⟨hx, hbx, hby, hbw, hbh⟩ ht
    obtain ⟨d1, hi, rfl⟩ := tick_running cols GROUND key rnd s s1 ht
    obtain ⟨ix, iy, ib⟩ := input_keeps_position key s.dino d1 hi
    obtain ⟨px, pbx, pbw, pbh, pby⟩ := physics_keeps_box GROUND d1
    refine ⟨?_, ?_, ?_, ?_, ?_⟩
    · show (physics GROUND d1).x = 5
      rw [px, ix, hx]
    · show (physics GROUND d1).cbox.x = 5
      rw [pbx, ib, hbx]
    · show (physics GROUND d1).cbox.y = (physics GROUND d1).y
      exact pby (by rw [ib, iy, hby])
    · show (physics GROUND d1).cbox.width = 9
      rw [pbw, ib, hbw]
    · show (physics GROUND d1).cbox.height = 16
      rw [pbh, ib, hbh]
  · simp [initState, initDino]

/-- Witness for C10: a jump on the first tick, then one more tick (a cactus spawns in
slot 0), on an 80-column terminal with the ground on row 40. -/
theorem player_cbox_synchronised_witness :
    run 80 40 (initState 44 80 40) [(32, fun _ => 1), (0, fun _ => 0)] =
        Outcome.running
          ⟨⟨5, 15, -5, 0, ⟨5, 15, 9, 16⟩⟩,
            [⟨79, 33, 1, ⟨79, 34, 10, 6⟩⟩, initObstacle, initObstacle, initObstacle,
              initObstacle],
            ⟨0, 34, 0⟩, 30000⟩ ∧
      ((5 : Int) = 5 ∧ (5 : Int) = 5 ∧ (15 : Int) = 15 ∧ (9 : Nat) = 9 ∧ (16 : Nat) = 16) :=
  ⟨by decide,
    player_cbox_synchronised 44 80 40 [(32, fun _ => 1), (0, fun _ => 0)]
      ⟨⟨5, 15, -5, 0, ⟨5, 15, 9, 16⟩⟩,
        [⟨79, 33, 1, ⟨79, 34, 10, 6⟩⟩, initObstacle, initObstacle, initObstacle,
          initObstacle],
        ⟨0, 34, 0⟩, 30000⟩
      (by decide)⟩

/-! ### The difficulty ramp -/

/-- When the score moved by at most one since the interval matched it, the ramp
chain (which tests equality with 10, 20 and 30) makes the interval match it again. -/
theorem ramp_follows (score : Score) (c0 INTERVAL : Nat) (h : INTERVAL = intervalFor c0)
    (hc : score.count = c0 ∨ score.count = c0 + 1) :
    ramp score INTERVAL = intervalFor score.count := by
  unfold ramp
  subst h
  unfold intervalFor
  rcases hc with e | e <;> rw [e] <;> split_ifs <;> first | rfl | omega

/-- A pool of untouched slots satisfies the pool invariant. -/
theorem PoolInv_init (WIDTH n : Nat) : PoolInv WIDTH (List.replicate n initObstacle) := by
  have hz : ∀ (j : Nat) (o : Obstacle),
      (List.replicate n initObstacle)[j]? = some o → o = initObstacle := by
    intro j o h
    rw [List.getElem?_replicate] at h
    split_ifs at h
    exact (Option.some.inj h).symm
  refine ⟨?_, ?_, ?_⟩
  · intro j o h
    rw [hz j o h]
    have : (0 : Int) ≤ WIDTH := Int.ofNat_nonneg _
    exact ⟨by decide, this⟩
  · intro j o h ha
    rw [hz j o h] at ha
    exact absurd rfl ha
  · intro j1 j2 o1 o2 _ h1 _ ha1
    rw [hz j1 o1 h1] at ha1
    exact absurd rfl ha1

/-- The ramp over `run`, that is, for the program as long as every frame stays inside
the buffer: in every such run from the initial state, whatever the keys and the spawn
draws, at the end of every completed tick the interval is 30000 for a score below 10,
25000 from 10 to 19, 20000 from 20 to 29 and 15000 from 30 on (the screen width `cols`
being a non-negative `int`). -/
theorem interval_follows_score (rows cols GROUND : Nat)
    (inputs : List (Int × (Nat → Nat))) (s : GameState) (hW : cols < 2147483648)
    (hrun : run cols GROUND (initState rows cols GROUND) inputs = Outcome.running s) :
    (s.score.count < 10 → s.INTERVAL = 30000) ∧
    (10 ≤ s.score.count ∧ s.score.count < 20 → s.INTERVAL = 25000) ∧
    (20 ≤ s.score.count ∧ s.score.count < 30 → s.INTERVAL = 20000) ∧
    (30 ≤ s.score.count → s.INTERVAL = 15000) := by
  have inv : PoolInv cols s.obstacles ∧ s.INTERVAL = intervalFor s.score.count := by
    refine run_invariant cols GROUND
      (fun s => PoolInv cols s.obstacles ∧ s.INTERVAL = intervalFor s.score.count)
      ?_ inputs (initState rows cols GROUND) s ?_ hrun
    · rintro s0 key rnd s1 ⟨hp, hi⟩ ht
      obtain ⟨d1, -, rfl⟩ := tick_running cols GROUND key rnd s0 s1 ht
      obtain ⟨u1, u2⟩ := update_obstacles_inv cols GROUND rnd s0.obstacles s0.score hW hp
      exact ⟨u1, ramp_follows _ s0.score.count s0.INTERVAL hi u2⟩
    · exact ⟨PoolInv_init cols (cols / 15), rfl⟩
  obtain ⟨-, hi⟩ := inv
  rw [hi]
  unfold intervalFor
  refine ⟨?_, ?_, ?_, ?_⟩ <;> intro h <;> split_ifs <;> first | rfl | omega

/-- An instance of `interval_follows_score`: two ticks without a key on a terminal of
44 rows and 80 columns, a cactus spawning in slot 0 on the first. -/
theorem interval_follows_score_witness :
    run 80 40 (initState 44 80 40) [(0, fun _ => 0), (0, fun _ => 7)] =
        Outcome.running
          ⟨⟨5, 22, 0, 1, ⟨5, 22, 9, 16⟩⟩,
            [⟨77, 33, 1, ⟨77, 34, 10, 6⟩⟩, initObstacle, initObstacle, initObstacle,
              initObstacle],
            ⟨0, 34, 0⟩, 30000⟩ ∧
      (((0 : Nat) < 10 → (30000 : Nat) = 30000) ∧
        (10 ≤ (0 : Nat) ∧ (0 : Nat) < 20 → (30000 : Nat) = 25000) ∧
        (20 ≤ (0 : Nat) ∧ (0 : Nat) < 30 → (30000 : Nat) = 20000) ∧
        (30 ≤ (0 : Nat) → (30000 : Nat) = 15000)) :=
  ⟨by decide,
    interval_follows_score 44 80 40 [(0, fun _ => 0), (0, fun _ => 7)]
      ⟨⟨5, 22, 0, 1, ⟨5, 22, 9, 16⟩⟩,
        [⟨77, 33, 1, ⟨77, 34, 10, 6⟩⟩, initObstacle, initObstacle, initObstacle,
          initObstacle],
        ⟨0, 34, 0⟩, 30000⟩
      (by decide) (by decide)⟩

/-! ### Boxes left of the screen -/

/-- C20: a box whose `x` is negative (an `int`) overlaps no box `B` with `B.x >= 0` and
`B.x + B.width < 2^31`, because `A.x < B.x + B.width` is compared in `unsigned int`;
in particular a cactus box `{x, y, 10, 6}` with `x` in `-4 .. -1` is not reported
against the player's box `{5, y, 9, 16}` although the cell `(5, y)` lies in both. -/
theorem box_overlap_negative_x (A B : Box) (x y : Int)
    (hA0 : -2147483648 ≤ A.x) (hA : A.x < 0) (hB : 0 ≤ B.x)
    (hBr : B.x + B.width < 2147483648) (hx0 : -4 ≤ x) (hx1 : x ≤ -1) :
    box_overlap A B = 0 ∧
    box_overlap ⟨x, y, 10, 6⟩ ⟨5, y, 9, 16⟩ = 0 ∧
    (x ≤ 5 ∧ (5 : Int) < x + (10 : Nat) ∧ y ≤ y ∧ y < y + (6 : Nat) ∧
      (5 : Int) ≤ 5 ∧ (5 : Int) < 5 + (9 : Nat) ∧ y ≤ y ∧ y < y + (16 : Nat)) := by
  have key : ∀ (C D : Box), -2147483648 ≤ C.x → C.x < 0 → 0 ≤ D.x →
      D.x + D.width < 2147483648 → box_overlap C D = 0 := by
    intro C D h0 h1 h2 h3
    have wD : (0 : Int) ≤ D.width := Int.ofNat_nonneg _
    have e1 : toU32 C.x = C.x + 4294967296 := by
      unfold toU32
      omega
    have e2 : toU32 (D.x + D.width) = D.x + D.width :=
      toU32_of_range _ (by omega) (by omega)
    unfold box_overlap
    rw [e1, e2]
    apply if_neg
    rintro ⟨h, -⟩
    omega
  refine ⟨key A B hA0 hA hB hBr, key _ _ ?_ ?_ ?_ ?_, ?_⟩
  · show -2147483648 ≤ x
    omega
  · show x < 0
    omega
  · show (0 : Int) ≤ 5
    decide
  · show (5 : Int) + ((9 : Nat) : Int) < 2147483648
    decide
  · refine ⟨by omega, by push_cast; omega, le_refl _, by push_cast; omega, le_refl _,
      by decide, le_refl _, by push_cast; omega⟩

/-- Witness for C20: a cactus box two columns off the left edge against the player at
rest on a screen with the ground on row 40. -/
theorem box_overlap_negative_x_witness :
    box_overlap ⟨-2, 34, 10, 6⟩ ⟨5, 22, 9, 16⟩ = 0 ∧
    box_overlap ⟨-2, 34, 10, 6⟩ ⟨5, 34, 9, 16⟩ = 0 ∧
    ((-2 : Int) ≤ 5 ∧ (5 : Int) < -2 + (10 : Nat) ∧ (34 : Int) ≤ 34 ∧
      (34 : Int) < 34 + (6 : Nat) ∧ (5 : Int) ≤ 5 ∧ (5 : Int) < 5 + (9 : Nat) ∧
      (34 : Int) ≤ 34 ∧ (34 : Int) < 34 + (16 : Nat)) :=
  box_overlap_negative_x ⟨-2, 34, 10, 6⟩ ⟨5, 22, 9, 16⟩ (-2) 34 (by decide) (by decide)
    (by decide) (by decide) (by decide) (by decide)

/-! ### The collision box of a slot -/

/-- The spawn branch writes a slot at `x = WIDTH - 1` whose box is in step with it. -/
theorem spawned_synced (WIDTH GROUND : Nat) (hG : GROUND < 2147483648) :
    Synced GROUND (spawned WIDTH GROUND) := by
  have e1 : toI32 (toU32 ((GROUND : Int) - CACTUS_TEXTURE_HEIGHT)) = (GROUND : Int) - 7 := by
    unfold CACTUS_TEXTURE_HEIGHT
    exact toI32_toU32 _ (by omega) (by omega)
  have e2 : toI32 (toU32 ((GROUND : Int) - CACTUS_TEXTURE_HEIGHT + 1)) =
      (GROUND : Int) - 7 + 1 := by
    unfold CACTUS_TEXTURE_HEIGHT
    exact toI32_toU32 _ (by omega) (by omega)
  unfold Synced spawned
  simp only [e1, e2]
  exact ⟨trivial, trivial⟩

/-- Scrolling moves the slot and its box by the same 2 and keeps them in step. -/
theorem scrolled_synced (GROUND : Nat) (o : Obstacle) (h : Synced GROUND o) :
    Synced GROUND (scrolled o) ∧ (scrolled o).x = o.x - 2 ∧
      (scrolled o).cbox.x = o.cbox.x - 2 := by
  obtain ⟨h1, h2⟩ := h
  unfold Synced scrolled
  by_cases c : o.x - 2 + CACTUS_TEXTURE_WIDTH < 0
  · simp only [if_pos c]
    refine ⟨⟨h1, ?_⟩, trivial, trivial⟩
    rw [h2]
  · simp only [if_neg c]
    refine ⟨⟨h1, ?_⟩, trivial, trivial⟩
    rw [h2]

/-- One update of a slot keeps `Synced`. -/
theorem SlotUpdate_synced (WIDTH GROUND : Nat) (rnd : Nat → Nat) (j : Nat)
    (o o1 : Obstacle) (hG : GROUND < 2147483648)
    (h : SlotUpdate WIDTH GROUND rnd j o o1) (hs : Synced GROUND o) : Synced GROUND o1 := by
  rcases h with ⟨-, rfl⟩ | ⟨-, rfl⟩ | ⟨-, -, rfl⟩
  · exact (scrolled_synced GROUND o hs).1
  · exact hs
  · exact spawned_synced WIDTH GROUND hG

/-- One update of a slot keeps the slot invariant. -/
theorem SlotUpdate_inv (WIDTH GROUND : Nat) (rnd : Nat → Nat) (j : Nat)
    (o o1 : Obstacle) (hG : GROUND < 2147483648)
    (h : SlotUpdate WIDTH GROUND rnd j o o1) (hs : SlotInv GROUND o) : SlotInv GROUND o1 := by
  rcases h with ⟨ha, rfl⟩ | ⟨-, rfl⟩ | ⟨-, -, rfl⟩
  · rcases hs with rfl | ⟨hs, -⟩
    · exact absurd rfl ha
    · refine Or.inr ⟨(scrolled_synced GROUND o hs).1, ?_⟩
      intro hin
      obtain ⟨sx, -, sk⟩ := scrolled_x o
      by_contra c
      have : ¬ (o.x - 2 + 11 < 0) := by omega
      rw [sk this] at hin
      exact ha hin
  · exact hs
  · exact Or.inr ⟨spawned_synced WIDTH GROUND hG, fun h => absurd h (show (1 : Int) ≠ 0 by decide)⟩

/-- One obstacle loop keeps the slot invariant of every slot. -/
theorem update_obstacles_slot_inv (WIDTH GROUND : Nat) (rnd : Nat → Nat)
    (obstacles : List Obstacle) (score : Score) (hG : GROUND < 2147483648)
    (h : ∀ o ∈ obstacles, SlotInv GROUND o) :
    ∀ o ∈ (update_obstacles WIDTH GROUND rnd obstacles score).1, SlotInv GROUND o := by
  obtain ⟨hl, hs, -, -, -⟩ := update_obstacles_slots WIDTH GROUND rnd obstacles score
  intro o1 ho1
  obtain ⟨j, hj⟩ := List.mem_iff_getElem?.mp ho1
  have hjl : j < obstacles.length := by
    rw [← hl]
    exact (List.getElem?_eq_some.mp hj).1
  obtain ⟨o2, h2, h3⟩ := hs j (obstacles[j]) (List.getElem?_eq_getElem hjl)
  rw [hj] at h2
  cases h2
  exact SlotUpdate_inv WIDTH GROUND rnd j _ _ hG h3
    (h _ (List.getElem_mem hjl))

/-- The box relation over obstacle loops run back to back, nothing else writing the
pool between them: the record of the spawn branch is at `x = WIDTH - 1` on row
`GROUND - 7` with the box `{x, y + 1, 10, 6}`; scrolling lowers the slot's `x` and the
box's `x` by the same 2; and a slot whose box is in this relation keeps it through any
number of such loops, whatever the draws. -/
theorem spawned_slot_box (WIDTH GROUND : Nat) (rnds : List (Nat → Nat))
    (obstacles : List Obstacle) (score : Score) (i : Nat) (o : Obstacle)
    (hW : WIDTH < 2147483648) (hG : GROUND < 2147483648)
    (hi : obstacles[i]? = some o) (hs : Synced GROUND o) :
    (spawned WIDTH GROUND).x = (WIDTH : Int) - 1 ∧
    (spawned WIDTH GROUND).y = (GROUND : Int) - 7 ∧
    (spawned WIDTH GROUND).cbox = ⟨(WIDTH : Int) - 1, (GROUND : Int) - 7 + 1, 10, 6⟩ ∧
    ((scrolled o).x = o.x - 2 ∧ (scrolled o).cbox.x = o.cbox.x - 2) ∧
    ∃ o1, (obstacleTicks WIDTH GROUND rnds (obstacles, score)).1[i]? = some o1 ∧
      o1.y = (GROUND : Int) - 7 ∧ o1.cbox = ⟨o1.x, o1.y + 1, 10, 6⟩ := by
  obtain ⟨sx, -⟩ := spawned_x WIDTH GROUND hW
  obtain ⟨sy, sb⟩ := spawned_synced WIDTH GROUND hG
  refine ⟨sx, sy, ?_, (scrolled_synced GROUND o hs).2, ?_⟩
  · rw [sb, sx, sy]
  · induction rnds generalizing obstacles score o with
    | nil => exact ⟨o, hi, hs.1, hs.2⟩
    | cons rnd rest ih =>
      obtain ⟨-, hslots, -, -, -⟩ := update_obstacles_slots WIDTH GROUND rnd obstacles score
      obtain ⟨o2, h2, h3⟩ := hslots i o hi
      exact ih (update_obstacles WIDTH GROUND rnd obstacles score).1
        (update_obstacles WIDTH GROUND rnd obstacles score).2 o2 h2
        (SlotUpdate_synced WIDTH GROUND rnd i o o2 hG h3 hs)

/-- An instance of `spawned_slot_box`: a freshly spawned cactus in slot 1 of a two-slot
pool, scrolled for three obstacle loops on an 80-column screen with the ground on row
40. -/
theorem spawned_slot_box_witness :
    (spawned 80 40).x = ((80 : Nat) : Int) - 1 ∧
    (spawned 80 40).y = ((40 : Nat) : Int) - 7 ∧
    (spawned 80 40).cbox = ⟨((80 : Nat) : Int) - 1, ((40 : Nat) : Int) - 7 + 1, 10, 6⟩ ∧
    ((scrolled (spawned 80 40)).x = (spawned 80 40).x - 2 ∧
      (scrolled (spawned 80 40)).cbox.x = (spawned 80 40).cbox.x - 2) ∧
    ∃ o1, (obstacleTicks 80 40 [fun _ => 1, fun _ => 0, fun _ => 1]
        ([initObstacle, spawned 80 40], ⟨0, 34, 0⟩)).1[1]? = some o1 ∧
      o1.y = ((40 : Nat) : Int) - 7 ∧ o1.cbox = ⟨o1.x, o1.y + 1, 10, 6⟩ :=
  spawned_slot_box 80 40 [fun _ => 1, fun _ => 0, fun _ => 1]
    [initObstacle, spawned 80 40] ⟨0, 34, 0⟩ 1 (spawned 80 40) (by decide) (by decide)
    (by decide) (by decide)

/-! ### A despawn and a collision do not share a tick -/

/-- After slot `k` has been replaced, every active slot will end the loop at column 16
or beyond if the new slot does and the other slots did. -/
theorem far_replace (k : Nat) (l : List Obstacle) (a : Obstacle)
    (hold : ∀ j o, j ≠ k → l[j]? = some o → o.active ≠ 0 → 16 ≤ xAfterLoop k j o)
    (ha : a.active ≠ 0 → 16 ≤ a.x) :
    ∀ j o, (l.set k a)[j]? = some o → o.active ≠ 0 → 16 ≤ xAfterLoop (k + 1) j o := by
  intro j o ho hact
  rcases set_lookup _ _ _ _ _ ho with ⟨e1, e2⟩ | ⟨hj, g⟩
  · rw [e1, e2]
    unfold xAfterLoop
    rw [if_pos (by omega)]
    exact ha (e2 ▸ hact)
  · rw [xAfterLoop_succ _ _ _ hj]
    exact hold j o hj g hact

/-- The loop body for slot `k` keeps: once the score has gained one in this loop, a
slot that has just left the screen sits at column -13 or -12 among the handled
slots, and every active slot will end the loop at column 16 or beyond. -/
theorem despawn_far_step (WIDTH GROUND : Nat) (rnd : Nat → Nat) (count0 k : Nat)
    (st : List Obstacle × Score) (hW : WIDTH < 2147483648) (hk : k < st.1.length)
    (h : LoopInv WIDTH count0 k st)
    (hfar : st.2.count = count0 + 1 →
      (∃ j0 o0, j0 < k ∧ st.1[j0]? = some o0 ∧ -13 ≤ o0.x ∧ o0.x ≤ -12) ∧
      ∀ j o, st.1[j]? = some o → o.active ≠ 0 → 16 ≤ xAfterLoop k j o) :
    (obstacleStep WIDTH GROUND rnd st k).2.count = count0 + 1 →
      (∃ j0 o0, j0 < k + 1 ∧ (obstacleStep WIDTH GROUND rnd st k).1[j0]? = some o0 ∧
        -13 ≤ o0.x ∧ o0.x ≤ -12) ∧
      ∀ j o, (obstacleStep WIDTH GROUND rnd st k).1[j]? = some o → o.active ≠ 0 →
        16 ≤ xAfterLoop (k + 1) j o := by
  have hobs : st.1[k]? = some (st.1[k]) := List.getElem?_eq_getElem hk
  generalize st.1[k] = obs at hobs
  obtain ⟨h1, h2, h3, h4⟩ := h
  have hkk : xAfterLoop k k obs = obs.x - 2 := by
    unfold xAfterLoop
    rw [if_neg (by omega)]
  have hge : ∀ j o, o.x - 2 ≤ xAfterLoop k j o := by
    intro j o
    unfold xAfterLoop
    split_ifs <;> omega
  have keep : ∀ (a : Obstacle) (j0 : Nat) (o0 : Obstacle), j0 < k → st.1[j0]? = some o0 →
      (st.1.set k a)[j0]? = some o0 := by
    intro a j0 o0 hj hl
    rw [List.getElem?_set_ne (by omega)]
    exact hl
  by_cases hact : obs.active = 0
  · rw [obstacleStep_inactive WIDTH GROUND rnd st k obs hobs hact]
    by_cases c : rnd k % 200 = 0 ∧
        (can_spawn_new_obstacle WIDTH st.1).any (fun r => decide (r ≠ 0)) = true
    · rw [if_pos c]
      intro hc
      obtain ⟨⟨j0, o0, hj0, hl0, hlo, hhi⟩, hall⟩ := hfar hc
      have hfarW := can_spawn_gap WIDTH st.1 hW
        (fun o ho => by
          obtain ⟨j, hj⟩ := List.mem_iff_getElem?.mp ho
          exact h1 j o hj) c.2 o0 (List.getElem?_mem hl0)
      obtain ⟨sx, -⟩ := spawned_x WIDTH GROUND hW
      refine ⟨⟨j0, o0, by omega, keep _ j0 o0 hj0 hl0, hlo, hhi⟩, ?_⟩
      exact far_replace k st.1 (spawned WIDTH GROUND) (fun j o _ => hall j o)
        (fun _ => by rw [sx]; omega)
    · rw [if_neg c]
      intro hc
      obtain ⟨⟨j0, o0, hj0, hl0, hlo, hhi⟩, hall⟩ := hfar hc
      refine ⟨⟨j0, o0, by omega, hl0, hlo, hhi⟩, ?_⟩
      intro j o ho ha
      by_cases cj : j = k
      · subst cj
        rw [hobs] at ho
        cases ho
        exact absurd hact ha
      · rw [xAfterLoop_succ _ _ _ cj]
        exact hall j o ho ha
  · rw [obstacleStep_active WIDTH GROUND rnd st k obs hobs hact]
    obtain ⟨sx, sa, sk⟩ := scrolled_x obs
    have hon := h2 k obs hobs hact
    unfold CACTUS_TEXTURE_WIDTH
    by_cases c : obs.x - 2 + 11 < 0
    · rw [if_pos c]
      intro _
      refine ⟨⟨k, scrolled obs, by omega, List.getElem?_set_self hk, by rw [sx]; omega,
        by rw [sx]; omega⟩, ?_⟩
      refine far_replace k st.1 (scrolled obs) ?_ ?_
      · intro j o hj ho ha
        have g := h3 k j obs o (Ne.symm hj) hobs ho hact ha
        rw [hkk] at g
        have := hge j o
        have := h2 j o ho ha
        omega
      · intro ha
        have := (sa ha).2
        omega
    · rw [if_neg c]
      intro hc
      obtain ⟨⟨j0, o0, hj0, hl0, hlo, hhi⟩, hall⟩ := hfar hc
      refine ⟨⟨j0, o0, by omega, keep _ j0 o0 hj0 hl0, hlo, hhi⟩, ?_⟩
      refine far_replace k st.1 (scrolled obs) (fun j o _ => hall j o) ?_
      intro _
      have := hall k obs hobs hact
      rw [hkk] at this
      rw [sx]
      exact this

/-- When one obstacle loop raises the score, every slot that is active after it is at
column 16 or beyond. -/
theorem update_obstacles_despawn_far (WIDTH GROUND : Nat) (rnd : Nat → Nat)
    (obstacles : List Obstacle) (score : Score) (hW : WIDTH < 2147483648)
    (h : PoolInv WIDTH obstacles)
    (hc : (update_obstacles WIDTH GROUND rnd obstacles score).2.count = score.count + 1) :
    ∀ o ∈ (update_obstacles WIDTH GROUND rnd obstacles score).1, o.active ≠ 0 → 16 ≤ o.x := by
  obtain ⟨p1, p2, p3⟩ := h
  have key := update_obstacles_induction WIDTH GROUND rnd obstacles score
    (fun k st => st.1.length = obstacles.length ∧ LoopInv WIDTH score.count k st ∧
      (st.2.count = score.count + 1 →
        (∃ j0 o0, j0 < k ∧ st.1[j0]? = some o0 ∧ -13 ≤ o0.x ∧ o0.x ≤ -12) ∧
        ∀ j o, st.1[j]? = some o → o.active ≠ 0 → 16 ≤ xAfterLoop k j o))
    ⟨rfl, ⟨p1, p2, fun j1 j2 o1 o2 hne ho1 ho2 ha1 ha2 => by
        have := p3 j1 j2 o1 o2 hne ho1 ho2 ha1 ha2
        unfold xAfterLoop
        rw [if_neg (Nat.not_lt_zero j1), if_neg (Nat.not_lt_zero j2)]
        omega,
      Or.inl rfl⟩, fun e => absurd (show score.count = score.count + 1 from e) (by omega)⟩
    (fun k st hk ⟨hl, hinv, hfar⟩ => by
      have hobs : st.1[k]? = some (st.1[k]) := List.getElem?_eq_getElem (by omega)
      exact ⟨by rw [(obstacleStep_slots WIDTH GROUND rnd st k _ hobs).1, hl],
        LoopInv_step WIDTH GROUND rnd score.count k st hW (by omega) hinv,
        despawn_far_step WIDTH GROUND rnd score.count k st hW (by omega) hinv hfar⟩)
  obtain ⟨hl, -, hfar⟩ := key
  intro o ho ha
  obtain ⟨j, hj⟩ := List.mem_iff_getElem?.mp ho
  have hjl : j < obstacles.length := by
    rw [← hl]
    exact (List.getElem?_eq_some.mp hj).1
  have := (hfar hc).2 j o hj ha
  unfold xAfterLoop at this
  rw [if_pos hjl] at this
  exact this

/-- A tick that ends in game over, taken apart: the key was not `q`, the sweep found an
overlap between the moved player and the updated pool, and what is reported is the
score the obstacle loop produced and the interval the tick started with. -/
theorem tick_gameOver (WIDTH GROUND : Nat) (key : Int) (rnd : Nat → Nat) (s : GameState)
    (sc : Score) (iv : Nat) (h : tick WIDTH GROUND key rnd s = Outcome.gameOver sc iv) :
    ∃ d1, input key s.dino = some d1 ∧
      collision (update_obstacles WIDTH GROUND rnd s.obstacles s.score).1
        (physics GROUND d1) = true ∧
      sc = (update_obstacles WIDTH GROUND rnd s.obstacles s.score).2 ∧ iv = s.INTERVAL := by
  unfold tick at h
  cases hi : input key s.dino with
  | none =>
    rw [hi] at h
    exact absurd h (by simp)
  | some d1 =>
    rw [hi] at h
    refine ⟨d1, rfl, ?_⟩
    by_cases c : collision (update_obstacles WIDTH GROUND rnd s.obstacles s.score).1
        (physics GROUND d1) = true
    · simp only [c, if_true, Outcome.gameOver.injEq] at h
      exact ⟨c, h.1.symm, h.2.symm⟩
    · simp [c] at h

/-- The player's box after the input switch and the physics block of a tick. -/
theorem dino_box_after (GROUND : Nat) (key : Int) (d d1 : Dino)
    (hb : d.cbox = ⟨5, d.y, 9, 16⟩) (hi : input key d = some d1) :
    (physics GROUND d1).cbox = ⟨5, (physics GROUND d1).y, 9, 16⟩ := by
  obtain ⟨-, iy, ib⟩ := input_keeps_position key d d1 hi
  obtain ⟨-, pbx, pbw, pbh, pby⟩ := physics_keeps_box GROUND d1
  have e : d1.cbox = ⟨5, d1.y, 9, 16⟩ := by rw [ib, iy, hb]
  have h1 : (physics GROUND d1).cbox.x = 5 := by rw [pbx, e]
  have h2 : (physics GROUND d1).cbox.y = (physics GROUND d1).y := pby (by rw [e])
  have h3 : (physics GROUND d1).cbox.width = 9 := by rw [pbw, e]
  have h4 : (physics GROUND d1).cbox.height = 16 := by rw [pbh, e]
  cases hc : (physics GROUND d1).cbox with
  | mk bx b_y bw bh =>
    rw [hc] at h1 h2 h3 h4
    simp only at h1 h2 h3 h4
    rw [h1, h2, h3, h4]

/-- Every state of a run from the initial state satisfies the run invariant. -/
theorem run_inv (rows cols GROUND : Nat) (inputs : List (Int × (Nat → Nat)))
    (s : GameState) (hW : cols < 2147483648) (hG : GROUND < 2147483648)
    (hrun : run cols GROUND (initState rows cols GROUND) inputs = Outcome.running s) :
    RunInv cols GROUND s := by
  refine run_invariant cols GROUND (RunInv cols GROUND) ?_ inputs
    (initState rows cols GROUND) s ?_ hrun
  · rintro s0 key rnd s1 ⟨hp, hs, hb⟩ ht
    obtain ⟨d1, hi, rfl⟩ := tick_running cols GROUND key rnd s0 s1 ht
    exact ⟨(update_obstacles_inv cols GROUND rnd s0.obstacles s0.score hW hp).1,
      update_obstacles_slot_inv cols GROUND rnd s0.obstacles s0.score hG hs,
      dino_box_after GROUND key s0.dino d1 hb hi⟩
  · refine ⟨PoolInv_init cols (cols / 15), ?_, rfl⟩
    intro o ho
    exact Or.inl (List.eq_of_mem_replicate ho)

/-- A slot whose box is reported against a box at `x = 5` of width 9 is active and its
`x` is between 0 and 13. -/
theorem overlap_needs_active (GROUND : Nat) (o : Obstacle) (B : Box)
    (hs : SlotInv GROUND o) (hx : -2147483648 ≤ o.x) (hx2 : o.x < 2147483648)
    (hB : B.x = 5) (hBw : B.width = 9) (h : box_overlap o.cbox B ≠ 0) :
    o.active ≠ 0 ∧ 0 ≤ o.x ∧ o.x ≤ 13 := by
  have h1 : toU32 o.cbox.x < toU32 (B.x + B.width) ∧
      toU32 (o.cbox.x + o.cbox.width) > toU32 B.x := by
    unfold box_overlap at h
    by_contra c
    rw [if_neg (fun hh => c ⟨hh.1, hh.2.1⟩)] at h
    exact h rfl
  rw [hB, hBw] at h1
  have e14 : toU32 ((5 : Int) + ((9 : Nat) : Int)) = 14 := by decide
  have e5 : toU32 5 = 5 := by decide
  rw [e14, e5] at h1
  rcases hs with rfl | ⟨⟨-, hb⟩, hin⟩
  · exact absurd h1.2 (by decide)
  · rw [hb] at h1
    have hlt := h1.1
    simp only [toU32] at hlt
    have hx0 : 0 ≤ o.x := by omega
    refine ⟨fun ha => ?_, hx0, by omega⟩
    have := hin ha
    omega

/-- C19: in a run from the initial state, at the collision sweep of every tick each
inactive slot of the pool, untouched since the start or stale after a despawn, fails
`box_overlap` against every box `{5, y, 9, 16}`; the player's box at the sweep is of
that form, and a tick that ends in game over has an active slot whose box overlaps
it. -/
theorem inactive_slots_never_collide (rows cols GROUND : Nat)
    (inputs : List (Int × (Nat → Nat))) (s : GameState) (key : Int) (rnd : Nat → Nat)
    (hW : cols < 2147483648) (hG : GROUND < 2147483648)
    (hrun : run cols GROUND (initState rows cols GROUND) inputs = Outcome.running s) :
    (∀ o ∈ (update_obstacles cols GROUND rnd s.obstacles s.score).1, o.active = 0 →
      ∀ y, box_overlap o.cbox ⟨5, y, 9, 16⟩ = 0) ∧
    (∀ d1, input key s.dino = some d1 →
      (physics GROUND d1).cbox = ⟨5, (physics GROUND d1).y, 9, 16⟩) ∧
    (∀ sc iv, tick cols GROUND key rnd s = Outcome.gameOver sc iv →
      ∃ d1, input key s.dino = some d1 ∧
        ∃ o ∈ (update_obstacles cols GROUND rnd s.obstacles s.score).1,
          o.active ≠ 0 ∧ box_overlap o.cbox (physics GROUND d1).cbox ≠ 0) := by
  obtain ⟨hp, hs, hb⟩ := run_inv rows cols GROUND inputs s hW hG hrun
  have hp1 := (update_obstacles_inv cols GROUND rnd s.obstacles s.score hW hp).1
  have hs1 := update_obstacles_slot_inv cols GROUND rnd s.obstacles s.score hG hs
  have hrange : ∀ o ∈ (update_obstacles cols GROUND rnd s.obstacles s.score).1,
      -2147483648 ≤ o.x ∧ o.x < 2147483648 := by
    intro o ho
    obtain ⟨j, hj⟩ := List.mem_iff_getElem?.mp ho
    have := hp1.1 j o hj
    omega
  refine ⟨?_, fun d1 hi => dino_box_after GROUND key s.dino d1 hb hi, ?_⟩
  · intro o ho ha y
    by_contra c
    exact (overlap_needs_active GROUND o ⟨5, y, 9, 16⟩ (hs1 o ho) (hrange o ho).1
      (hrange o ho).2 rfl rfl c).1 ha
  · intro sc iv ht
    obtain ⟨d1, hi, hc, -, -⟩ := tick_gameOver cols GROUND key rnd s sc iv ht
    refine ⟨d1, hi, ?_⟩
    unfold collision at hc
    obtain ⟨o, ho, hov⟩ := List.any_eq_true.mp hc
    have hov1 : box_overlap o.cbox (physics GROUND d1).cbox ≠ 0 := of_decide_eq_true hov
    have hbox := dino_box_after GROUND key s.dino d1 hb hi
    refine ⟨o, ho, ?_, hov1⟩
    exact (overlap_needs_active GROUND o (physics GROUND d1).cbox (hs1 o ho)
      (hrange o ho).1 (hrange o ho).2 (by rw [hbox]) (by rw [hbox]) hov1).1

/-- C13: in a run from the initial state, a tick that ends in game over reports the
`score.count` the tick started with: the obstacle loop of that tick made no slot
inactive. -/
theorem game_over_keeps_score (rows cols GROUND : Nat)
    (inputs : List (Int × (Nat → Nat))) (s : GameState) (key : Int) (rnd : Nat → Nat)
    (sc : Score) (iv : Nat) (hW : cols < 2147483648) (hG : GROUND < 2147483648)
    (hrun : run cols GROUND (initState rows cols GROUND) inputs = Outcome.running s)
    (ht : tick cols GROUND key rnd s = Outcome.gameOver sc iv) :
    sc.count = s.score.count := by
  obtain ⟨hp, hs, hb⟩ := run_inv rows cols GROUND inputs s hW hG hrun
  obtain ⟨hp1, hcount⟩ := update_obstacles_inv cols GROUND rnd s.obstacles s.score hW hp
  have hs1 := update_obstacles_slot_inv cols GROUND rnd s.obstacles s.score hG hs
  obtain ⟨d1, hi, hc, rfl, -⟩ := tick_gameOver cols GROUND key rnd s sc iv ht
  rcases hcount with e | e
  · exact e
  · exfalso
    unfold collision at hc
    obtain ⟨o, ho, hov⟩ := List.any_eq_true.mp hc
    have hov1 : box_overlap o.cbox (physics GROUND d1).cbox ≠ 0 := of_decide_eq_true hov
    have hbox := dino_box_after GROUND key s.dino d1 hb hi
    obtain ⟨j, hj⟩ := List.mem_iff_getElem?.mp ho
    have hr := hp1.1 j o hj
    obtain ⟨ha, -, hle⟩ := overlap_needs_active GROUND o (physics GROUND d1).cbox (hs1 o ho)
      hr.1 (by omega) (by rw [hbox]) (by rw [hbox]) hov1
    have := update_obstacles_despawn_far cols GROUND rnd s.obstacles s.score hW hp e o ho ha
    omega

/-! ### Spacing over a run -/

/-- Counting over a list in which at most one index can satisfy `p`. -/
theorem countP_le_one {α : Type} (p : α → Bool) (l : List α)
    (h : ∀ (i j : Nat) (a b : α), l[i]? = some a → l[j]? = some b → p a = true →
      p b = true → i = j) :
    l.countP p ≤ 1 := by
  by_cases hex : ∃ (i : Nat) (a : α), l[i]? = some a ∧ p a = true
  · obtain ⟨i, a, hi, ha⟩ := hex
    rw [countP_single p l i a hi (fun j b hj hb => by
      by_contra c
      have hpb : p b = true := by simpa using c
      exact hj (h j i b a hb hi hpb ha))]
    simp [ha]
  · have : l.countP p = 0 := by
      rw [List.countP_eq_zero]
      intro a ha hpa
      obtain ⟨i, hi⟩ := List.mem_iff_getElem?.mp ha
      exact hex ⟨i, a, hi, hpa⟩
    omega

/-- Any number of obstacle loops keeps the pool invariant. -/
theorem obstacleTicks_inv (WIDTH GROUND : Nat) (rnds : List (Nat → Nat))
    (obstacles : List Obstacle) (score : Score) (hW : WIDTH < 2147483648)
    (h : PoolInv WIDTH obstacles) :
    PoolInv WIDTH (obstacleTicks WIDTH GROUND rnds (obstacles, score)).1 := by
  induction rnds generalizing obstacles score with
  | nil => exact h
  | cons rnd rest ih =>
    exact ih (update_obstacles WIDTH GROUND rnd obstacles score).1
      (update_obstacles WIDTH GROUND rnd obstacles score).2
      (update_obstacles_inv WIDTH GROUND rnd obstacles score hW h).1

/-- The spacing over obstacle loops run back to back, nothing else writing the pool
between them: starting from a pool of inactive slots with `x <= WIDTH - 1`, after any
number of such loops, whatever the draws, two distinct active slots are at least 29
columns apart; and the next obstacle loop spawns at most one slot and makes at most
one slot inactive. -/
theorem active_slots_spaced (WIDTH GROUND : Nat) (rnds : List (Nat → Nat))
    (obstacles : List Obstacle) (score : Score) (rnd : Nat → Nat) (sc : Score)
    (hW : WIDTH < 2147483648)
    (hstart : ∀ o ∈ obstacles,
      o.active = 0 ∧ -2147483648 ≤ o.x ∧ o.x ≤ (WIDTH : Int) - 1) :
    (∀ (j1 j2 : Nat) (o1 o2 : Obstacle), j1 ≠ j2 →
      (obstacleTicks WIDTH GROUND rnds (obstacles, score)).1[j1]? = some o1 →
      (obstacleTicks WIDTH GROUND rnds (obstacles, score)).1[j2]? = some o2 →
      o1.active ≠ 0 → o2.active ≠ 0 → o1.x + 29 ≤ o2.x ∨ o2.x + 29 ≤ o1.x) ∧
    (List.zip (obstacleTicks WIDTH GROUND rnds (obstacles, score)).1
        (update_obstacles WIDTH GROUND rnd
          (obstacleTicks WIDTH GROUND rnds (obstacles, score)).1 sc).1).countP
      (fun p => decide (p.1.active = 0 ∧ p.2.active ≠ 0)) ≤ 1 ∧
    (List.zip (obstacleTicks WIDTH GROUND rnds (obstacles, score)).1
        (update_obstacles WIDTH GROUND rnd
          (obstacleTicks WIDTH GROUND rnds (obstacles, score)).1 sc).1).countP
      (fun p => decide (p.1.active ≠ 0 ∧ p.2.active = 0)) ≤ 1 := by
  have h0 : PoolInv WIDTH obstacles := by
    refine ⟨?_, ?_, ?_⟩
    · intro j o ho
      have := hstart o (List.getElem?_mem ho)
      omega
    · intro j o ho ha
      exact absurd (hstart o (List.getElem?_mem ho)).1 ha
    · intro j1 j2 o1 o2 _ ho1 _ ha1
      exact absurd (hstart o1 (List.getElem?_mem ho1)).1 ha1
  have hp := obstacleTicks_inv WIDTH GROUND rnds obstacles score hW h0
  generalize (obstacleTicks WIDTH GROUND rnds (obstacles, score)).1 = pool at hp ⊢
  obtain ⟨hp1, hcount⟩ := update_obstacles_inv WIDTH GROUND rnd pool sc hW hp
  obtain ⟨-, hslots, -, -, -⟩ := update_obstacles_slots WIDTH GROUND rnd pool sc
  refine ⟨hp.2.2, ?_, ?_⟩
  · apply countP_le_one
    rintro i j ⟨a, a1⟩ ⟨b, b1⟩ hi hj ha hb
    obtain ⟨i1, i2⟩ := List.getElem?_zip_eq_some.mp hi
    obtain ⟨j1, j2⟩ := List.getElem?_zip_eq_some.mp hj
    simp only [decide_eq_true_eq] at ha hb
    simp only at i1 i2 j1 j2
    by_contra hne
    have sa : a1 = spawned WIDTH GROUND := by
      obtain ⟨o2, h2, h3⟩ := hslots i a i1
      rw [i2] at h2
      cases h2
      rcases h3 with ⟨h, -⟩ | ⟨-, e⟩ | ⟨-, -, e⟩
      · exact absurd ha.1 h
      · exact absurd (e ▸ ha.1) ha.2
      · exact e
    have sb : b1 = spawned WIDTH GROUND := by
      obtain ⟨o2, h2, h3⟩ := hslots j b j1
      rw [j2] at h2
      cases h2
      rcases h3 with ⟨h, -⟩ | ⟨-, e⟩ | ⟨-, -, e⟩
      · exact absurd hb.1 h
      · exact absurd (e ▸ hb.1) hb.2
      · exact e
    have := hp1.2.2 i j a1 b1 hne i2 j2 ha.2 hb.2
    rw [sa, sb] at this
    omega
  · rw [despawned_count WIDTH GROUND rnd pool sc]
    obtain ⟨-, -, hc, -, -⟩ := update_obstacles_slots WIDTH GROUND rnd pool sc
    omega

/-- An instance of `active_slots_spaced`: five untouched slots on an 80-column screen,
forty obstacle loops in which every draw is a multiple of 200, then one more. -/
theorem active_slots_spaced_witness :
    (∀ (j1 j2 : Nat) (o1 o2 : Obstacle), j1 ≠ j2 →
      (obstacleTicks 80 40 (List.replicate 40 (fun _ => 0))
        (List.replicate 5 initObstacle, ⟨0, 34, 0⟩)).1[j1]? = some o1 →
      (obstacleTicks 80 40 (List.replicate 40 (fun _ => 0))
        (List.replicate 5 initObstacle, ⟨0, 34, 0⟩)).1[j2]? = some o2 →
      o1.active ≠ 0 → o2.active ≠ 0 → o1.x + 29 ≤ o2.x ∨ o2.x + 29 ≤ o1.x) ∧
    (List.zip (obstacleTicks 80 40 (List.replicate 40 (fun _ => 0))
          (List.replicate 5 initObstacle, ⟨0, 34, 0⟩)).1
        (update_obstacles 80 40 (fun _ => 0)
          (obstacleTicks 80 40 (List.replicate 40 (fun _ => 0))
            (List.replicate 5 initObstacle, ⟨0, 34, 0⟩)).1 ⟨0, 34, 0⟩).1).countP
      (fun p => decide (p.1.active = 0 ∧ p.2.active ≠ 0)) ≤ 1 ∧
    (List.zip (obstacleTicks 80 40 (List.replicate 40 (fun _ => 0))
          (List.replicate 5 initObstacle, ⟨0, 34, 0⟩)).1
        (update_obstacles 80 40 (fun _ => 0)
          (obstacleTicks 80 40 (List.replicate 40 (fun _ => 0))
            (List.replicate 5 initObstacle, ⟨0, 34, 0⟩)).1 ⟨0, 34, 0⟩).1).countP
      (fun p => decide (p.1.active ≠ 0 ∧ p.2.active = 0)) ≤ 1 :=
  active_slots_spaced 80 40 (List.replicate 40 (fun _ => 0))
    (List.replicate 5 initObstacle) ⟨0, 34, 0⟩ (fun _ => 0) ⟨0, 34, 0⟩ (by decide)
    (by decide)

/-! ### Writes into the render surface -/

/-- Memory after a sequence of writes followed by more writes. -/
theorem store_append (m : Int → Char) (a b : List (Int × Char)) :
    store m (a ++ b) = store (store m a) b := by
  unfold store
  rw [List.foldl_append]

/-- An index that no write of the sequence targets keeps its content. -/
theorem store_not_written (m : Int → Char) (ws : List (Int × Char)) (idx : Int)
    (h : ∀ w ∈ ws, w.1 ≠ idx) : store m ws idx = m idx := by
  induction ws generalizing m with
  | nil => rfl
  | cons w rest ih =>
    have e : store m (w :: rest) = store (fun i => if i = w.1 then w.2 else m i) rest := rfl
    rw [e, ih _ (fun v hv => h v (List.mem_cons_of_mem _ hv))]
    have : idx ≠ w.1 := fun c => h w (List.mem_cons_self _ _) c.symm
    simp [this]

/-- An index that some write targets, all the writes to it carrying the same glyph,
holds that glyph afterwards. -/
theorem store_written (m : Int → Char) (ws : List (Int × Char)) (idx : Int) (ch : Char)
    (hex : ∃ w ∈ ws, w.1 = idx) (hall : ∀ w ∈ ws, w.1 = idx → w.2 = ch) :
    store m ws idx = ch := by
  induction ws generalizing m with
  | nil =>
    obtain ⟨w, hw, -⟩ := hex
    exact absurd hw (List.not_mem_nil w)
  | cons w rest ih =>
    have e : store m (w :: rest) = store (fun i => if i = w.1 then w.2 else m i) rest := rfl
    rw [e]
    by_cases hrest : ∃ v ∈ rest, v.1 = idx
    · exact ih _ hrest (fun v hv => hall v (List.mem_cons_of_mem _ hv))
    · rw [store_not_written _ rest idx (fun v hv c => hrest ⟨v, hv, c⟩)]
      obtain ⟨v, hv, hvi⟩ := hex
      rcases List.mem_cons.mp hv with rfl | hv
      · simp only [hvi, if_true]
        exact hall v (List.mem_cons_self _ _) hvi
      · exact absurd ⟨v, hv, hvi⟩ hrest

/-- A cell `(r, c)` with `0 <= c < cols` is determined by its index `r * cols + c`. -/
theorem cell_index_inj (cols r c r1 c1 : Int) (hc0 : 0 ≤ c) (hc : c < cols)
    (hd0 : 0 ≤ c1) (hd : c1 < cols) (h : r * cols + c = r1 * cols + c1) :
    r = r1 ∧ c = c1 := by
  have hr : r = r1 := by
    by_contra hne
    rcases lt_or_gt_of_ne hne with hlt | hgt
    · have : (r1 - r) * cols ≥ 1 * cols :=
        mul_le_mul_of_nonneg_right (by omega) (by omega)
      nlinarith
    · have : (r - r1) * cols ≥ 1 * cols :=
        mul_le_mul_of_nonneg_right (by omega) (by omega)
      nlinarith
  subst hr
  exact ⟨rfl, by omega⟩

/-- The index of a cell of the surface lies within the buffer. -/
theorem cell_index_range (rows cols r c : Int) (hr0 : 0 ≤ r) (hr : r < rows)
    (hc0 : 0 ≤ c) (hc : c < cols) :
    0 ≤ r * cols + c ∧ r * cols + c < rows * cols := by
  have h1 : 0 ≤ r * cols := mul_nonneg hr0 (by omega)
  have h2 : (r + 1) * cols ≤ rows * cols :=
    mul_le_mul_of_nonneg_right (by omega) (by omega)
  constructor
  · omega
  · nlinarith

/-- The writes of `draw_texture`, one by one. -/
theorem mem_draw_texture_writes (screen : Screen) (x y : Int) (height width : Nat)
    (texture : Nat → Nat → Char) (w : Int × Char) :
    w ∈ draw_texture_writes screen x y height width texture ↔
      ∃ i j : Nat, i < height ∧ j < width ∧
        0 ≤ y + (i : Int) ∧ y + (i : Int) < screen.rows ∧
        0 ≤ x + (j : Int) ∧ x + (j : Int) < screen.cols ∧ texture i j ≠ ' ' ∧
        w = ((y + (i : Int)) * screen.cols + (x + (j : Int)), texture i j) := by
  unfold draw_texture_writes
  simp only [List.mem_flatMap, List.mem_filterMap, List.mem_range]
  constructor
  · rintro ⟨i, hi, j, hj, h⟩
    split_ifs at h with c
    refine ⟨i, j, hi, hj, c.1, c.2.1, c.2.2.1, c.2.2.2.1, c.2.2.2.2, ?_⟩
    exact (Option.some.inj h).symm
  · rintro ⟨i, j, hi, hj, h1, h2, h3, h4, h5, rfl⟩
    refine ⟨i, hi, j, hj, ?_⟩
    rw [if_pos ⟨h1, h2, h3, h4, h5⟩]

/-- The content of a surface cell after the writes of `draw_texture`, on any memory:
the sprite's glyph where the sprite covers the cell with a non-space glyph, the
earlier content elsewhere. -/
theorem store_draw_texture (m : Int → Char) (screen : Screen) (x y : Int)
    (height width : Nat) (texture : Nat → Nat → Char) (r c : Int)
    (hr0 : 0 ≤ r) (hr : r < screen.rows) (hc0 : 0 ≤ c) (hc : c < screen.cols) :
    store m (draw_texture_writes screen x y height width texture) (r * screen.cols + c) =
      match spriteAt texture height width x y r c with
      | some ch => ch
      | none => m (r * screen.cols + c) := by
  have hcell : ∀ w ∈ draw_texture_writes screen x y height width texture,
      w.1 = r * screen.cols + c →
      ∃ i j : Nat, i < height ∧ j < width ∧ r = y + (i : Int) ∧ c = x + (j : Int) ∧
        texture i j ≠ ' ' ∧ w.2 = texture i j := by
    intro w hw hidx
    obtain ⟨i, j, hi, hj, h1, h2, h3, h4, h5, rfl⟩ :=
      (mem_draw_texture_writes screen x y height width texture w).mp hw
    obtain ⟨e1, e2⟩ := cell_index_inj screen.cols _ _ _ _ h3 h4 hc0 hc hidx
    exact ⟨i, j, hi, hj, e1.symm, e2.symm, h5, rfl⟩
  unfold spriteAt
  by_cases cov : 0 ≤ r - y ∧ r - y < height ∧ 0 ≤ c - x ∧ c - x < width ∧
      texture (r - y).toNat (c - x).toNat ≠ ' '
  · rw [if_pos cov]
    obtain ⟨c1, c2, c3, c4, c5⟩ := cov
    have ei : (((r - y).toNat : Nat) : Int) = r - y := Int.toNat_of_nonneg c1
    have ej : (((c - x).toNat : Nat) : Int) = c - x := Int.toNat_of_nonneg c3
    apply store_written
    · refine ⟨(r * screen.cols + c, texture (r - y).toNat (c - x).toNat), ?_, rfl⟩
      rw [mem_draw_texture_writes]
      refine ⟨(r - y).toNat, (c - x).toNat, by omega, by omega, by omega, by omega,
        by omega, by omega, c5, ?_⟩
      rw [ei, ej]
      congr 2 <;> ring
    · intro w hw hidx
      obtain ⟨i, j, -, -, e1, e2, -, e3⟩ := hcell w hw hidx
      have hi : (r - y).toNat = i := by omega
      have hj : (c - x).toNat = j := by omega
      rw [e3, hi, hj]
  · rw [if_neg cov]
    apply store_not_written
    intro w hw hidx
    obtain ⟨i, j, hi, hj, e1, e2, e3, -⟩ := hcell w hw hidx
    apply cov
    have hi2 : (r - y).toNat = i := by omega
    have hj2 : (c - x).toNat = j := by omega
    rw [hi2, hj2]
    exact ⟨by omega, by omega, by omega, by omega, e3⟩

/-- Every write of `draw_texture` targets an index of the buffer. -/
theorem draw_texture_writes_in_range (screen : Screen) (x y : Int) (height width : Nat)
    (texture : Nat → Nat → Char) :
    ∀ w ∈ draw_texture_writes screen x y height width texture,
      0 ≤ w.1 ∧ w.1 < screen.rows * screen.cols := by
  intro w hw
  obtain ⟨i, j, -, -, h1, h2, h3, h4, -, rfl⟩ :=
    (mem_draw_texture_writes screen x y height width texture w).mp hw
  exact cell_index_range screen.rows screen.cols _ _ h1 h2 h3 h4

/-- C11: after `draw_texture`, for any offset `(x, y)` and any sprite of `height` by
`width` glyphs, a cell `(r, c)` of the surface holds `texture[r - y][c - x]` when
`0 <= r - y < height`, `0 <= c - x < width` and that glyph is not a space, and its
previous content otherwise; every write targets an index in `0 .. rows * cols - 1`,
and memory outside that range is unchanged. -/
theorem draw_texture_clipped (screen : Screen) (x y : Int) (height width : Nat)
    (texture : Nat → Nat → Char) (r c : Int)
    (hr0 : 0 ≤ r) (hr : r < screen.rows) (hc0 : 0 ≤ c) (hc : c < screen.cols) :
    (draw_texture screen x y height width texture).map (r * screen.cols + c) =
      (if 0 ≤ r - y ∧ r - y < height ∧ 0 ≤ c - x ∧ c - x < width ∧
          texture (r - y).toNat (c - x).toNat ≠ ' ' then
        texture (r - y).toNat (c - x).toNat
      else
        screen.map (r * screen.cols + c)) ∧
    (∀ w ∈ draw_texture_writes screen x y height width texture,
      0 ≤ w.1 ∧ w.1 < screen.rows * screen.cols) ∧
    (∀ idx : Int, ¬ (0 ≤ idx ∧ idx < screen.rows * screen.cols) →
      (draw_texture screen x y height width texture).map idx = screen.map idx) ∧
    (draw_texture screen x y height width texture).rows = screen.rows ∧
    (draw_texture screen x y height width texture).cols = screen.cols := by
  refine ⟨?_, draw_texture_writes_in_range screen x y height width texture, ?_, rfl, rfl⟩
  · show store screen.map (draw_texture_writes screen x y height width texture)
      (r * screen.cols + c) = _
    rw [store_draw_texture screen.map screen x y height width texture r c hr0 hr hc0 hc]
    unfold spriteAt
    split_ifs <;> rfl
  · intro idx hidx
    show store screen.map (draw_texture_writes screen x y height width texture) idx = _
    apply store_not_written
    intro w hw e
    exact hidx (e ▸ draw_texture_writes_in_range screen x y height width texture w hw)

/-- Witness for C11: the cactus sprite drawn one column off the left edge of a 24 by
60 surface filled with dots: cell (15, 0) receives the bar glyph of sprite row 1,
column 1, and cell (14, 0), under a space of the sprite, keeps its dot. -/
theorem draw_texture_clipped_witness :
    (draw_texture ⟨fun _ => '.', 24, 60⟩ (-1) 14 7 11 (glyphs CACTUS_TEXTURE)).map
        (15 * 60 + 0) = '|' ∧
    (draw_texture ⟨fun _ => '.', 24, 60⟩ (-1) 14 7 11 (glyphs CACTUS_TEXTURE)).map
        (14 * 60 + 0) = '.' :=
  ⟨((draw_texture_clipped ⟨fun _ => '.', 24, 60⟩ (-1) 14 7 11 (glyphs CACTUS_TEXTURE) 15 0
      (by decide) (by decide) (by decide) (by decide)).1).trans (by decide),
    ((draw_texture_clipped ⟨fun _ => '.', 24, 60⟩ (-1) 14 7 11 (glyphs CACTUS_TEXTURE) 14 0
      (by decide) (by decide) (by decide) (by decide)).1).trans (by decide)⟩

/-! ### The score text -/

/-- The writes of `draw_score`, one by one. -/
theorem mem_draw_score_writes (screen : Screen) (score : Score) (w : Int × Char) :
    w ∈ draw_score_writes screen score ↔
      ∃ k : Nat, k < (scoreText score).length ∧
        w = (screen.cols + (screen.cols - ((scoreText score).length : Int)) + (k : Int),
          (scoreText score).getD k ' ') := by
  unfold draw_score_writes
  simp only [List.mem_map, List.mem_range]
  constructor
  · rintro ⟨k, hk, rfl⟩
    exact ⟨k, hk, rfl⟩
  · rintro ⟨k, hk, rfl⟩
    exact ⟨k, hk, rfl⟩

/-- The content of a surface cell after the writes of `draw_score`, on any memory, when
the text fits in a row: the text's glyph on row 1 from column `cols - length` on,
the earlier content elsewhere. -/
theorem store_draw_score (m : Int → Char) (screen : Screen) (score : Score) (r c : Int)
    (hL : ((scoreText score).length : Int) ≤ screen.cols)
    (hc0 : 0 ≤ c) (hc : c < screen.cols) :
    store m (draw_score_writes screen score) (r * screen.cols + c) =
      if r = 1 ∧ screen.cols - ((scoreText score).length : Int) ≤ c then
        (scoreText score).getD (c - (screen.cols - ((scoreText score).length : Int))).toNat ' '
      else
        m (r * screen.cols + c) := by
  have hcell : ∀ w ∈ draw_score_writes screen score, w.1 = r * screen.cols + c →
      ∃ k : Nat, k < (scoreText score).length ∧ r = 1 ∧
        c = screen.cols - ((scoreText score).length : Int) + (k : Int) ∧
        w.2 = (scoreText score).getD k ' ' := by
    intro w hw hidx
    obtain ⟨k, hk, rfl⟩ := (mem_draw_score_writes screen score w).mp hw
    have e : 1 * screen.cols + (screen.cols - ((scoreText score).length : Int) + (k : Int)) =
        r * screen.cols + c := by
      rw [← hidx]
      ring
    obtain ⟨e1, e2⟩ := cell_index_inj screen.cols _ _ _ _ (by omega) (by omega) hc0 hc e
    exact ⟨k, hk, e1.symm, e2.symm, rfl⟩
  by_cases cov : r = 1 ∧ screen.cols - ((scoreText score).length : Int) ≤ c
  · rw [if_pos cov]
    obtain ⟨c1, c2⟩ := cov
    apply store_written
    · refine ⟨(r * screen.cols + c, (scoreText score).getD
        (c - (screen.cols - ((scoreText score).length : Int))).toNat ' '), ?_, rfl⟩
      rw [mem_draw_score_writes]
      refine ⟨(c - (screen.cols - ((scoreText score).length : Int))).toNat, by omega, ?_⟩
      have : (((c - (screen.cols - ((scoreText score).length : Int))).toNat : Nat) : Int) =
          c - (screen.cols - ((scoreText score).length : Int)) :=
        Int.toNat_of_nonneg (by omega)
      rw [this, c1]
      congr 1
      ring
    · intro w hw hidx
      obtain ⟨k, -, -, e2, e3⟩ := hcell w hw hidx
      have : (c - (screen.cols - ((scoreText score).length : Int))).toNat = k := by omega
      rw [e3, this]
  · rw [if_neg cov]
    apply store_not_written
    intro w hw hidx
    obtain ⟨k, -, e1, e2, -⟩ := hcell w hw hidx
    exact cov ⟨e1, by omega⟩

/-- C14: on a surface with at least 2 rows and at least as many columns as the text
`Score: N` has glyphs, after `draw_score` the cells of row 1 at the last `length`
columns spell the text, and every other index of the memory holds what it held. -/
theorem draw_score_right_aligned (screen : Screen) (score : Score)
    (hrows : 2 ≤ screen.rows) (hL : ((scoreText score).length : Int) ≤ screen.cols) :
    (List.range (scoreText score).length).map (fun (k : Nat) =>
      (draw_score screen score).map
        (1 * screen.cols + (screen.cols - ((scoreText score).length : Int) + (k : Int)))) =
      scoreText score ∧
    scoreText score = "Score: ".toList ++ (Nat.repr score.count).toList ∧
    (∀ idx : Int,
      (∀ k : Nat, k < (scoreText score).length →
        idx ≠ 1 * screen.cols + (screen.cols - ((scoreText score).length : Int) + (k : Int))) →
      (draw_score screen score).map idx = screen.map idx) ∧
    (∀ w ∈ draw_score_writes screen score, 0 ≤ w.1 ∧ w.1 < screen.rows * screen.cols) := by
  refine ⟨?_, rfl, ?_, ?_⟩
  · apply List.ext_getElem
    · simp
    · intro k h1 h2
      simp only [List.getElem_map, List.getElem_range]
      show store screen.map (draw_score_writes screen score) _ = _
      rw [store_draw_score screen.map screen score 1 _ hL (by omega) (by omega),
        if_pos ⟨rfl, by omega⟩]
      have : (screen.cols - ((scoreText score).length : Int) + (k : Int) -
          (screen.cols - ((scoreText score).length : Int))).toNat = k := by omega
      rw [this, List.getD_eq_getElem?_getD, List.getElem?_eq_getElem h2]
      rfl
  · intro idx hidx
    show store screen.map (draw_score_writes screen score) idx = _
    apply store_not_written
    intro w hw e
    obtain ⟨k, hk, rfl⟩ := (mem_draw_score_writes screen score w).mp hw
    apply hidx k hk
    rw [← e]
    ring
  · intro w hw
    obtain ⟨k, hk, rfl⟩ := (mem_draw_score_writes screen score w).mp hw
    have e : screen.cols + (screen.cols - ((scoreText score).length : Int)) + (k : Int) =
        1 * screen.cols + (screen.cols - ((scoreText score).length : Int) + (k : Int)) := by
      ring
    show 0 ≤ _ ∧ _ < _
    simp only []
    rw [e]
    exact cell_index_range screen.rows screen.cols 1 _ (by omega) (by omega) (by omega)
      (by omega)

/-- Witness for C14: score 12 on a 24 by 60 surface of dots. -/
theorem draw_score_right_aligned_witness :
    (List.range (scoreText ⟨12, 0, 0⟩).length).map (fun (k : Nat) =>
      (draw_score ⟨fun _ => '.', 24, 60⟩ ⟨12, 0, 0⟩).map
        (1 * 60 + (60 - ((scoreText ⟨12, 0, 0⟩).length : Int) + (k : Int)))) =
      "Score: 12".toList :=
  ((draw_score_right_aligned ⟨fun _ => '.', 24, 60⟩ ⟨12, 0, 0⟩ (by decide)
    (by decide)).1).trans (by decide)

/-- C15 (the code at a failing input): on a surface of 1 row and 80 columns, with score
0, `draw_score` writes the eight glyphs of `Score: 0` to the indices 152 to 159, all
of them outside the buffer `0 .. 79`. -/
theorem draw_score_writes_outside :
    draw_score_writes ⟨fun _ => ' ', 1, 80⟩ ⟨0, 0, 0⟩ =
      [(152, 'S'), (153, 'c'), (154, 'o'), (155, 'r'), (156, 'e'), (157, ':'), (158, ' '),
        (159, '0')] ∧
    ∀ w ∈ draw_score_writes ⟨fun _ => ' ', 1, 80⟩ ⟨0, 0, 0⟩, ¬ (w.1 < 1 * 80) := by
  decide

/-! ### The composed frame -/

/-- After the clearing loop every index of the buffer holds a space. -/
theorem store_clear (m : Int → Char) (screen : Screen) (idx : Int) (h0 : 0 ≤ idx)
    (h1 : idx < screen.rows * screen.cols) : store m (clear_writes screen) idx = ' ' := by
  apply store_written
  · refine ⟨(idx, ' '), ?_, rfl⟩
    unfold clear_writes
    simp only [List.mem_map, List.mem_range]
    refine ⟨idx.toNat, by omega, ?_⟩
    rw [Int.toNat_of_nonneg h0]
  · intro w hw _
    unfold clear_writes at hw
    simp only [List.mem_map, List.mem_range] at hw
    obtain ⟨i, -, rfl⟩ := hw
    rfl

/-- The content of a surface cell after the ground loop, on any memory, when `WIDTH` is
the surface's width: `-` on row `GROUND`, the earlier content elsewhere. -/
theorem store_ground (m : Int → Char) (WIDTH GROUND : Nat) (screen : Screen) (r c : Int)
    (hW : (WIDTH : Int) = screen.cols) (hc0 : 0 ≤ c) (hc : c < screen.cols) :
    store m (ground_writes WIDTH GROUND screen) (r * screen.cols + c) =
      if r = (GROUND : Int) then '-' else m (r * screen.cols + c) := by
  have hmem : ∀ w, w ∈ ground_writes WIDTH GROUND screen ↔
      ∃ t : Nat, t < WIDTH ∧ w = ((GROUND : Int) * screen.cols + (t : Int), '-') := by
    intro w
    unfold ground_writes
    simp only [List.mem_map, List.mem_range]
    constructor
    · rintro ⟨t, ht, rfl⟩
      exact ⟨t, ht, rfl⟩
    · rintro ⟨t, ht, rfl⟩
      exact ⟨t, ht, rfl⟩
  by_cases cov : r = (GROUND : Int)
  · rw [if_pos cov]
    apply store_written
    · refine ⟨(r * screen.cols + c, '-'), ?_, rfl⟩
      rw [hmem]
      refine ⟨c.toNat, by omega, ?_⟩
      rw [Int.toNat_of_nonneg hc0, cov]
    · intro w hw _
      obtain ⟨t, -, rfl⟩ := (hmem w).mp hw
      rfl
  · rw [if_neg cov]
    apply store_not_written
    intro w hw hidx
    obtain ⟨t, ht, rfl⟩ := (hmem w).mp hw
    obtain ⟨e1, -⟩ := cell_index_inj screen.cols _ _ _ _ (by omega) (by omega) hc0 hc hidx
    exact cov e1.symm

/-- The content of a surface cell after the obstacle loop of `draw`, on any memory: the
glyph of the topmost active obstacle covering the cell, the earlier content if there
is none. -/
theorem store_obstacles (m : Int → Char) (screen : Screen) (obstacles : List Obstacle)
    (r c : Int) (hr0 : 0 ≤ r) (hr : r < screen.rows) (hc0 : 0 ≤ c) (hc : c < screen.cols) :
    store m (obstacles_writes screen obstacles) (r * screen.cols + c) =
      match obstacleLayer obstacles r c with
      | some ch => ch
      | none => m (r * screen.cols + c) := by
  induction obstacles using List.reverseRecOn with
  | nil => rfl
  | append_singleton l o ih =>
    have e1 : obstacles_writes screen (l ++ [o]) =
        obstacles_writes screen l ++
          (if o.active ≠ 0 then
            draw_texture_writes screen o.x o.y 7 11 (glyphs CACTUS_TEXTURE)
          else []) := by
      unfold obstacles_writes
      rw [List.flatMap_append]
      simp only [List.flatMap_cons, List.flatMap_nil, List.append_nil]
      rfl
    have e2 : obstacleLayer (l ++ [o]) r c =
        match (if o.active ≠ 0 then spriteAt (glyphs CACTUS_TEXTURE) 7 11 o.x o.y r c
          else none) with
        | some ch => some ch
        | none => obstacleLayer l r c := by
      unfold obstacleLayer
      rw [List.reverse_append, List.reverse_singleton, List.singleton_append,
        List.findSome?_cons]
      generalize (if o.active ≠ 0 then spriteAt (glyphs CACTUS_TEXTURE) 7 11 o.x o.y r c
        else none) = q
      cases q <;> rfl
    rw [e1, store_append, e2]
    by_cases ha : o.active ≠ 0
    · rw [if_pos ha, if_pos ha,
        store_draw_texture _ screen o.x o.y 7 11 (glyphs CACTUS_TEXTURE) r c hr0 hr hc0 hc]
      cases spriteAt (glyphs CACTUS_TEXTURE) 7 11 o.x o.y r c with
      | some ch => rfl
      | none => exact ih
    · rw [if_neg ha, if_neg ha]
      exact ih

/-- The content of a surface cell after all the writes of `draw`, on any memory: the
layered glyph. -/
theorem store_draw (m : Int → Char) (WIDTH GROUND : Nat) (dino : Dino)
    (obstacles : List Obstacle) (screen : Screen) (score : Score) (r c : Int)
    (hW : (WIDTH : Int) = screen.cols)
    (hL : ((scoreText score).length : Int) ≤ screen.cols)
    (hr0 : 0 ≤ r) (hr : r < screen.rows) (hc0 : 0 ≤ c) (hc : c < screen.cols) :
    store m (draw_writes WIDTH GROUND dino obstacles screen score) (r * screen.cols + c) =
      layeredCell GROUND dino obstacles score screen.cols r c := by
  have hidx := cell_index_range screen.rows screen.cols r c hr0 hr hc0 hc
  have ed : draw_texture_writes screen dino.x dino.y DINO_TEXTURE_HEIGHT.toNat
      DINO_TEXTURE_WIDTH.toNat (glyphs DINO_TEXTURE) =
      draw_texture_writes screen dino.x dino.y 18 21 (glyphs DINO_TEXTURE) := rfl
  unfold draw_writes layeredCell
  rw [ed, store_append, store_append, store_append, store_append,
    store_draw_texture _ screen dino.x dino.y 18 21 (glyphs DINO_TEXTURE) r c hr0 hr hc0 hc]
  cases spriteAt (glyphs DINO_TEXTURE) 18 21 dino.x dino.y r c with
  | some ch => rfl
  | none =>
    simp only []
    rw [store_obstacles _ screen obstacles r c hr0 hr hc0 hc]
    cases obstacleLayer obstacles r c with
    | some ch => rfl
    | none =>
      simp only []
      rw [store_ground _ WIDTH GROUND screen r c hW hc0 hc]
      by_cases hg : r = (GROUND : Int)
      · rw [if_pos hg, if_pos hg]
      · rw [if_neg hg, if_neg hg, store_draw_score _ screen score r c hL hc0 hc]
        by_cases hs : r = 1 ∧ screen.cols - ((scoreText score).length : Int) ≤ c
        · rw [if_pos hs, if_pos hs]
        · rw [if_neg hs, if_neg hs]
          exact store_clear m screen _ hidx.1 hidx.2

/-- The obstacle layer of a pool with one more slot at the end: that slot's glyph if
it is active and covers the cell, the layer of the earlier slots otherwise. -/
theorem obstacleLayer_snoc (l : List Obstacle) (o : Obstacle) (r c : Int) :
    obstacleLayer (l ++ [o]) r c =
      match (if o.active ≠ 0 then spriteAt (glyphs CACTUS_TEXTURE) 7 11 o.x o.y r c
        else none) with
      | some ch => some ch
      | none => obstacleLayer l r c := by
  unfold obstacleLayer
  rw [List.reverse_append, List.reverse_singleton, List.singleton_append,
    List.findSome?_cons]
  generalize (if o.active ≠ 0 then spriteAt (glyphs CACTUS_TEXTURE) 7 11 o.x o.y r c
    else none) = q
  cases q <;> rfl

/-- Inactive slots do not show in the obstacle layer. -/
theorem obstacleLayer_active_only (l : List Obstacle) (r c : Int) :
    obstacleLayer l r c =
      obstacleLayer (l.filter (fun o => decide (o.active ≠ 0))) r c := by
  induction l using List.reverseRecOn with
  | nil => rfl
  | append_singleton l o ih =>
    rw [List.filter_append, obstacleLayer_snoc]
    by_cases ha : o.active ≠ 0
    · have : List.filter (fun o => decide (o.active ≠ 0)) [o] = [o] := by
        simp [List.filter, ha]
      rw [this, obstacleLayer_snoc, ih]
    · have : List.filter (fun o => decide (o.active ≠ 0)) [o] = [] := by
        simp [List.filter, ha]
      rw [this, List.append_nil, if_neg ha, ih]

/-- C16: when `WIDTH` is the surface's width and the score text fits in a row, every
cell `(r, c)` of the buffer composed by `draw` holds the layered glyph: the player
sprite's, else that of the active obstacle of highest pool index covering the cell,
else `-` on row `GROUND`, else the score text's on row 1, else a space. The result
does not depend on what the buffer held before, and a pool with its inactive slots
removed gives the same frame. -/
theorem draw_layers (WIDTH GROUND : Nat) (dino : Dino) (obstacles : List Obstacle)
    (screen : Screen) (score : Score) (m2 : Int → Char) (r c : Int)
    (hW : (WIDTH : Int) = screen.cols)
    (hL : ((scoreText score).length : Int) ≤ screen.cols)
    (hr0 : 0 ≤ r) (hr : r < screen.rows) (hc0 : 0 ≤ c) (hc : c < screen.cols) :
    (draw WIDTH GROUND dino obstacles screen score).map (r * screen.cols + c) =
      layeredCell GROUND dino obstacles score screen.cols r c ∧
    (draw WIDTH GROUND dino obstacles ⟨m2, screen.rows, screen.cols⟩ score).map
        (r * screen.cols + c) =
      (draw WIDTH GROUND dino obstacles screen score).map (r * screen.cols + c) ∧
    (draw WIDTH GROUND dino (obstacles.filter (fun o => decide (o.active ≠ 0))) screen
        score).map (r * screen.cols + c) =
      (draw WIDTH GROUND dino obstacles screen score).map (r * screen.cols + c) := by
  have h1 := store_draw screen.map WIDTH GROUND dino obstacles screen score r c hW hL
    hr0 hr hc0 hc
  have h2 := store_draw m2 WIDTH GROUND dino obstacles ⟨m2, screen.rows, screen.cols⟩ score
    r c hW hL hr0 hr hc0 hc
  have h3 := store_draw screen.map WIDTH GROUND dino
    (obstacles.filter (fun o => decide (o.active ≠ 0))) screen score r c hW hL hr0 hr hc0 hc
  have e : layeredCell GROUND dino (obstacles.filter (fun o => decide (o.active ≠ 0)))
      score screen.cols r c = layeredCell GROUND dino obstacles score screen.cols r c := by
    unfold layeredCell
    rw [← obstacleLayer_active_only]
  refine ⟨h1, ?_, ?_⟩
  · exact h2.trans h1.symm
  · exact (h3.trans e).trans h1.symm

/-- Witness for C16: a 24 by 60 surface of dots, the ground on row 21, the player at
rest, an active cactus at column 30 and an inactive slot; cell (21, 3) is ground,
cell (15, 31) is the cactus, cell (3, 16) is the player, cell (1, 51) is the score
text and cell (0, 0) is a space. -/
theorem draw_layers_witness :
    (draw 60 21 (initDino 21) [⟨30, 14, 1, ⟨30, 15, 10, 6⟩⟩, ⟨40, 14, 0, ⟨40, 15, 10, 6⟩⟩]
        ⟨fun _ => '.', 24, 60⟩ ⟨12, 0, 0⟩).map (21 * 60 + 3) = '-' ∧
    (draw 60 21 (initDino 21) [⟨30, 14, 1, ⟨30, 15, 10, 6⟩⟩, ⟨40, 14, 0, ⟨40, 15, 10, 6⟩⟩]
        ⟨fun _ => '.', 24, 60⟩ ⟨12, 0, 0⟩).map (15 * 60 + 31) = '|' ∧
    (draw 60 21 (initDino 21) [⟨30, 14, 1, ⟨30, 15, 10, 6⟩⟩, ⟨40, 14, 0, ⟨40, 15, 10, 6⟩⟩]
        ⟨fun _ => '.', 24, 60⟩ ⟨12, 0, 0⟩).map (3 * 60 + 16) = '#' ∧
    (draw 60 21 (initDino 21) [⟨30, 14, 1, ⟨30, 15, 10, 6⟩⟩, ⟨40, 14, 0, ⟨40, 15, 10, 6⟩⟩]
        ⟨fun _ => '.', 24, 60⟩ ⟨12, 0, 0⟩).map (1 * 60 + 51) = 'S' ∧
    (draw 60 21 (initDino 21) [⟨30, 14, 1, ⟨30, 15, 10, 6⟩⟩, ⟨40, 14, 0, ⟨40, 15, 10, 6⟩⟩]
        ⟨fun _ => '.', 24, 60⟩ ⟨12, 0, 0⟩).map (0 * 60 + 0) = ' ' :=
  ⟨((draw_layers 60 21 (initDino 21)
      [⟨30, 14, 1, ⟨30, 15, 10, 6⟩⟩, ⟨40, 14, 0, ⟨40, 15, 10, 6⟩⟩]
      ⟨fun _ => '.', 24, 60⟩ ⟨12, 0, 0⟩ (fun _ => ' ') 21 3 (by decide) (by decide)
      (by decide) (by decide) (by decide) (by decide)).1).trans (by decide),
    ((draw_layers 60 21 (initDino 21)
      [⟨30, 14, 1, ⟨30, 15, 10, 6⟩⟩, ⟨40, 14, 0, ⟨40, 15, 10, 6⟩⟩]
      ⟨fun _ => '.', 24, 60⟩ ⟨12, 0, 0⟩ (fun _ => ' ') 15 31 (by decide) (by decide)
      (by decide) (by decide) (by decide) (by decide)).1).trans (by decide),
    ((draw_layers 60 21 (initDino 21)
      [⟨30, 14, 1, ⟨30, 15, 10, 6⟩⟩, ⟨40, 14, 0, ⟨40, 15, 10, 6⟩⟩]
      ⟨fun _ => '.', 24, 60⟩ ⟨12, 0, 0⟩ (fun _ => ' ') 3 16 (by decide) (by decide)
      (by decide) (by decide) (by decide) (by decide)).1).trans (by decide),
    ((draw_layers 60 21 (initDino 21)
      [⟨30, 14, 1, ⟨30, 15, 10, 6⟩⟩, ⟨40, 14, 0, ⟨40, 15, 10, 6⟩⟩]
      ⟨fun _ => '.', 24, 60⟩ ⟨12, 0, 0⟩ (fun _ => ' ') 1 51 (by decide) (by decide)
      (by decide) (by decide) (by decide) (by decide)).1).trans (by decide),
    ((draw_layers 60 21 (initDino 21)
      [⟨30, 14, 1, ⟨30, 15, 10, 6⟩⟩, ⟨40, 14, 0, ⟨40, 15, 10, 6⟩⟩]
      ⟨fun _ => '.', 24, 60⟩ ⟨12, 0, 0⟩ (fun _ => ' ') 0 0 (by decide) (by decide)
      (by decide) (by decide) (by decide) (by decide)).1).trans (by decide)⟩

/-! ### Game over -/

/-- C12 (as stated, refuted): with a cactus at column 15 and the player at rest, the
next tick ends in game over and prints three lines, the third being
`INTERVAL: 30000u`; this is not the two-line text of the specification. -/
theorem game_over_prints_interval :
    exitOutput (tick 80 40 0 (fun _ => 1)
        ⟨⟨5, 22, 0, 1, ⟨5, 22, 9, 16⟩⟩,
          [⟨15, 33, 1, ⟨15, 34, 10, 6⟩⟩, initObstacle, initObstacle, initObstacle,
            initObstacle],
          ⟨0, 34, 0⟩, 30000⟩) =
      some "Game Over!\nYour score is: 0\nINTERVAL: 30000u\n" ∧
    gameOverOutputSpec ⟨0, 34, 0⟩ = "Game Over!\nYour score is: 0\n" ∧
    exitOutput (tick 80 40 0 (fun _ => 1)
        ⟨⟨5, 22, 0, 1, ⟨5, 22, 9, 16⟩⟩,
          [⟨15, 33, 1, ⟨15, 34, 10, 6⟩⟩, initObstacle, initObstacle, initObstacle,
            initObstacle],
          ⟨0, 34, 0⟩, 30000⟩) ≠
      some (gameOverOutputSpec ⟨0, 34, 0⟩) := by
  decide

/-- C12 (amended): when the collision sweep of a tick finds an overlap, what is printed
is exactly three lines: `Game Over!`, `Your score is: N` with `N` the decimal value
of `score.count` after the obstacle loop of that tick, and `INTERVAL: I` followed by
the letter `u`, with `I` the decimal value of the interval the tick started with
(below 2^31); and `main` returns 0. -/
theorem game_over_output (WIDTH GROUND : Nat) (key : Int) (rnd : Nat → Nat)
    (s : GameState) (sc : Score) (iv : Nat) (hiv : s.INTERVAL < 2147483648)
    (ht : tick WIDTH GROUND key rnd s = Outcome.gameOver sc iv) :
    exitOutput (tick WIDTH GROUND key rnd s) =
      some ("Game Over!\n" ++ ("Your score is: " ++ Nat.repr sc.count ++ "\n") ++
        ("INTERVAL: " ++ Nat.repr s.INTERVAL ++ "u\n")) ∧
    exitStatus (tick WIDTH GROUND key rnd s) = some 0 ∧
    sc = (update_obstacles WIDTH GROUND rnd s.obstacles s.score).2 := by
  obtain ⟨d1, -, -, hsc, hi⟩ := tick_gameOver WIDTH GROUND key rnd s sc iv ht
  have e1 : toI32 ((s.INTERVAL : Nat) : Int) = (s.INTERVAL : Int) :=
    toI32_of_range _ (by omega) (by omega)
  have e2 : formatD (s.INTERVAL : Int) = Nat.repr s.INTERVAL := by
    unfold formatD
    rw [if_neg (by omega), Int.natAbs_ofNat]
  rw [ht]
  refine ⟨?_, rfl, hsc⟩
  show some (gameOverOutput sc iv) = _
  unfold gameOverOutput
  rw [hi, e1, e2]

/-- Witness for C12 (amended): the cactus at column 15 and the player at rest. -/
theorem game_over_output_witness :
    exitOutput (tick 80 40 0 (fun _ => 1)
        ⟨⟨5, 22, 0, 1, ⟨5, 22, 9, 16⟩⟩,
          [⟨15, 33, 1, ⟨15, 34, 10, 6⟩⟩, initObstacle, initObstacle, initObstacle,
            initObstacle],
          ⟨0, 34, 0⟩, 30000⟩) =
      some ("Game Over!\n" ++ ("Your score is: " ++ Nat.repr 0 ++ "\n") ++
        ("INTERVAL: " ++ Nat.repr 30000 ++ "u\n")) ∧
    exitStatus (tick 80 40 0 (fun _ => 1)
        ⟨⟨5, 22, 0, 1, ⟨5, 22, 9, 16⟩⟩,
          [⟨15, 33, 1, ⟨15, 34, 10, 6⟩⟩, initObstacle, initObstacle, initObstacle,
            initObstacle],
          ⟨0, 34, 0⟩, 30000⟩) = some 0 ∧
    (⟨0, 34, 0⟩ : Score) = (update_obstacles 80 40 (fun _ => 1)
      [⟨15, 33, 1, ⟨15, 34, 10, 6⟩⟩, initObstacle, initObstacle, initObstacle,
        initObstacle] ⟨0, 34, 0⟩).2 :=
  game_over_output 80 40 0 (fun _ => 1)
    ⟨⟨5, 22, 0, 1, ⟨5, 22, 9, 16⟩⟩,
      [⟨15, 33, 1, ⟨15, 34, 10, 6⟩⟩, initObstacle, initObstacle, initObstacle,
        initObstacle],
      ⟨0, 34, 0⟩, 30000⟩ ⟨0, 34, 0⟩ 30000 (by decide) (by decide)

set_option maxRecDepth 100000 in
/-- Witness for C13: on an 80-column terminal a cactus spawns on the first tick and no
key is pressed; after 33 ticks it is at column 15, and the 34th tick ends in game
over with the score 0 the tick started with. -/
theorem game_over_keeps_score_witness :
    run 80 40 (initState 44 80 40) ((0, fun _ => 0) :: List.replicate 32 (0, fun _ => 1)) =
        Outcome.running
          ⟨⟨5, 22, 0, 1, ⟨5, 22, 9, 16⟩⟩,
            [⟨15, 33, 1, ⟨15, 34, 10, 6⟩⟩, initObstacle, initObstacle, initObstacle,
              initObstacle],
            ⟨0, 34, 0⟩, 30000⟩ ∧
      tick 80 40 0 (fun _ => 1)
          ⟨⟨5, 22, 0, 1, ⟨5, 22, 9, 16⟩⟩,
            [⟨15, 33, 1, ⟨15, 34, 10, 6⟩⟩, initObstacle, initObstacle, initObstacle,
              initObstacle],
            ⟨0, 34, 0⟩, 30000⟩ =
        Outcome.gameOver ⟨0, 34, 0⟩ 30000 ∧
      (0 : Nat) = 0 :=
  ⟨by decide, by decide,
    game_over_keeps_score 44 80 40 ((0, fun _ => 0) :: List.replicate 32 (0, fun _ => 1))
      ⟨⟨5, 22, 0, 1, ⟨5, 22, 9, 16⟩⟩,
        [⟨15, 33, 1, ⟨15, 34, 10, 6⟩⟩, initObstacle, initObstacle, initObstacle,
          initObstacle],
        ⟨0, 34, 0⟩, 30000⟩
      0 (fun _ => 1) ⟨0, 34, 0⟩ 30000 (by decide) (by decide) (by decide) (by decide)⟩

/-- Witness for C19: the state after a spawn tick and one more tick on an 80-column
terminal; in the sweep of the next tick an untouched slot of the pool fails
`box_overlap` against the player's box at rest. -/
theorem inactive_slots_never_collide_witness :
    run 80 40 (initState 44 80 40) [(0, fun _ => 0), (0, fun _ => 7)] =
        Outcome.running
          ⟨⟨5, 22, 0, 1, ⟨5, 22, 9, 16⟩⟩,
            [⟨77, 33, 1, ⟨77, 34, 10, 6⟩⟩, initObstacle, initObstacle, initObstacle,
              initObstacle],
            ⟨0, 34, 0⟩, 30000⟩ ∧
      box_overlap initObstacle.cbox ⟨5, 22, 9, 16⟩ = 0 :=
  ⟨by decide,
    (inactive_slots_never_collide 44 80 40 [(0, fun _ => 0), (0, fun _ => 7)]
      ⟨⟨5, 22, 0, 1, ⟨5, 22, 9, 16⟩⟩,
        [⟨77, 33, 1, ⟨77, 34, 10, 6⟩⟩, initObstacle, initObstacle, initObstacle,
          initObstacle],
        ⟨0, 34, 0⟩, 30000⟩
      0 (fun _ => 1) (by decide) (by decide) (by decide)).1 initObstacle (by decide) rfl 22⟩

/-- The writes of the ground loop target indices of the buffer when the ground row is
a row of the surface and `WIDTH` is its width. -/
theorem ground_writes_in_range (WIDTH GROUND : Nat) (screen : Screen)
    (hW : (WIDTH : Int) = screen.cols) (hG : (GROUND : Int) < screen.rows) :
    ∀ w ∈ ground_writes WIDTH GROUND screen,
      0 ≤ w.1 ∧ w.1 < screen.rows * screen.cols := by
  intro w hw
  unfold ground_writes at hw
  simp only [List.mem_map, List.mem_range] at hw
  obtain ⟨t, ht, rfl⟩ := hw
  exact cell_index_range screen.rows screen.cols _ _ (Int.ofNat_nonneg _) hG
    (Int.ofNat_nonneg _) (by omega)

/-! ### When the frame stays inside the buffer -/

/-- The writes of `draw_score` target indices of the buffer when the surface has at
least 2 rows and the text is no wider than a row. -/
theorem draw_score_writes_in_range (screen : Screen) (score : Score)
    (hrows : 2 ≤ screen.rows) (hL : ((scoreText score).length : Int) ≤ screen.cols) :
    ∀ w ∈ draw_score_writes screen score, 0 ≤ w.1 ∧ w.1 < screen.rows * screen.cols := by
  intro w hw
  obtain ⟨k, hk, rfl⟩ := (mem_draw_score_writes screen score w).mp hw
  have e : screen.cols + (screen.cols - ((scoreText score).length : Int)) + (k : Int) =
      1 * screen.cols + (screen.cols - ((scoreText score).length : Int) + (k : Int)) := by
    ring
  show 0 ≤ _ ∧ _ < _
  simp only []
  rw [e]
  exact cell_index_range screen.rows screen.cols 1 _ (by omega) (by omega) (by omega)
    (by omega)

/-- The writes of the clearing loop target indices of the buffer. -/
theorem clear_writes_in_range (screen : Screen) :
    ∀ w ∈ clear_writes screen, 0 ≤ w.1 ∧ w.1 < screen.rows * screen.cols := by
  intro w hw
  unfold clear_writes at hw
  simp only [List.mem_map, List.mem_range] at hw
  obtain ⟨i, hi, rfl⟩ := hw
  show 0 ≤ (i : Int) ∧ (i : Int) < screen.rows * screen.cols
  omega

/-- Every write of `draw` targets an index of the buffer when `WIDTH` is the surface's
width, the surface has at least 2 rows, the score text is no wider than a row and the
ground row is a row of the surface. -/
theorem frame_fits (WIDTH GROUND : Nat) (dino : Dino) (obstacles : List Obstacle)
    (screen : Screen) (score : Score) (hW : (WIDTH : Int) = screen.cols)
    (hrows : 2 ≤ screen.rows) (hL : ((scoreText score).length : Int) ≤ screen.cols)
    (hG : (GROUND : Int) < screen.rows) :
    ∀ w ∈ draw_writes WIDTH GROUND dino obstacles screen score,
      0 ≤ w.1 ∧ w.1 < screen.rows * screen.cols := by
  intro w hw
  unfold draw_writes at hw
  simp only [List.mem_append] at hw
  rcases hw with (((h | h) | h) | h) | h
  · exact clear_writes_in_range screen w h
  · exact draw_score_writes_in_range screen score hrows hL w h
  · exact ground_writes_in_range WIDTH GROUND screen hW hG w h
  · unfold obstacles_writes at h
    obtain ⟨o, -, ho⟩ := List.mem_flatMap.mp h
    by_cases ha : o.active ≠ 0
    · rw [if_pos ha] at ho
      exact draw_texture_writes_in_range screen _ _ _ _ _ w ho
    · rw [if_neg ha] at ho
      exact absurd ho (List.not_mem_nil w)
  · exact draw_texture_writes_in_range screen _ _ _ _ _ w h

/-- What the spawn branch of the loop leaves in a slot: a slot that is inactive before
one obstacle loop and active after it is at `x = WIDTH - 1` on row `GROUND - 7`, with
the box `{WIDTH - 1, GROUND - 6, 10, 6}`, whatever it held before. -/
theorem update_obstacles_spawned_slot (WIDTH GROUND : Nat) (rnd : Nat → Nat)
    (obstacles : List Obstacle) (score : Score) (j : Nat) (o o1 : Obstacle)
    (hW : WIDTH < 2147483648) (hG : GROUND < 2147483648)
    (hj : obstacles[j]? = some o)
    (hj1 : (update_obstacles WIDTH GROUND rnd obstacles score).1[j]? = some o1)
    (ha : o.active = 0) (ha1 : o1.active ≠ 0) :
    o1 = ⟨(WIDTH : Int) - 1, (GROUND : Int) - 7, 1,
      ⟨(WIDTH : Int) - 1, (GROUND : Int) - 7 + 1, 10, 6⟩⟩ := by
  obtain ⟨-, hs, -, -, -⟩ := update_obstacles_slots WIDTH GROUND rnd obstacles score
  obtain ⟨o2, h2, h3⟩ := hs j o hj
  rw [hj1] at h2
  cases h2
  obtain ⟨sx, sa⟩ := spawned_x WIDTH GROUND hW
  obtain ⟨sy, sb⟩ := spawned_synced WIDTH GROUND hG
  rcases h3 with ⟨h, -⟩ | ⟨-, e⟩ | ⟨-, -, e⟩
  · exact absurd ha h
  · exact absurd (e ▸ ha) ha1
  · rw [e]
    cases hsp : spawned WIDTH GROUND with
    | mk x y a b =>
      rw [hsp] at sx sa sy sb
      simp only at sx sa sy sb
      rw [sx, sy, sa, sb, sx, sy]

/-! ### The loop on a terminal of one row

On a terminal of 1 row and 80 columns `GROUND` is 0, the pool has 5 slots, and every
frame writes the score text to the indices 152 to 159, past the 80 bytes of the
buffer. With the pool allocated 96 bytes after the buffer these are the 8 bytes of
slot 2's `x` and `y` (slot 2 starts at byte 56 of the pool), so after every frame
slot 2's `x` is the `int` made of the glyphs `Scor` and its `y` the one made of the
next four glyphs. The theorems below evaluate the loop at the states the program then
holds. -/

set_option maxRecDepth 100000 in
/-- C8 (the code at a failing input): on the terminal of 1 row and 80 columns the first
iteration, without a key or a spawning draw, leaves the state as it is and its frame
writes the glyphs of `Score: 0` to the indices 152 to 159, outside the buffer
`0 .. 79`; as `int` fields the glyphs `Scor` read 1919902547 and `e: 8` reads
941636197. With that `x` in slot 2, slots 0, 1, 3 and 4 spawn in one loop and travel
together; at score 8, when they are at column -11, one more iteration makes all four
inactive: the score goes from 8 to 12 without being 10, the ramp does not fire, and
the iteration ends with interval 30000 where the score range [10, 20) asks for
25000. -/
theorem one_row_score_passes_ten :
    tick 80 0 0 (fun _ => 1) (initState 1 80 0) = Outcome.running (initState 1 80 0) ∧
    (frameWrites 80 0 0 (fun _ => 1) ⟨fun _ => ' ', 1, 80⟩ (initState 1 80 0)).filter
        (fun w => decide (¬ (0 ≤ w.1 ∧ w.1 < 1 * 80))) =
      [(152, 'S'), (153, 'c'), (154, 'o'), (155, 'r'), (156, 'e'), (157, ':'), (158, ' '),
        (159, '0')] ∧
    littleEndianInt 'S' 'c' 'o' 'r' = 1919902547 ∧
    littleEndianInt 'e' ':' ' ' '8' = 941636197 ∧
    tick 80 0 0 (fun j => if j = 2 then 1 else 0)
        ⟨initDino 0,
          [⟨-11, -7, 1, ⟨-11, -6, 10, 6⟩⟩, ⟨-11, -7, 1, ⟨-11, -6, 10, 6⟩⟩,
            ⟨1919902547, 941636197, 0, ⟨0, 0, 0, 0⟩⟩,
            ⟨-11, -7, 1, ⟨-11, -6, 10, 6⟩⟩, ⟨-11, -7, 1, ⟨-11, -6, 10, 6⟩⟩],
          ⟨8, -9, 0⟩, 30000⟩ =
      Outcome.running
        ⟨initDino 0,
          [⟨-13, -7, 0, ⟨-13, -6, 10, 6⟩⟩, ⟨-13, -7, 0, ⟨-13, -6, 10, 6⟩⟩,
            ⟨1919902547, 941636197, 0, ⟨0, 0, 0, 0⟩⟩,
            ⟨-13, -7, 0, ⟨-13, -6, 10, 6⟩⟩, ⟨-13, -7, 0, ⟨-13, -6, 10, 6⟩⟩],
          ⟨12, -9, 0⟩, 30000⟩ ∧
    intervalFor 12 = 25000 := by
  decide

set_option maxRecDepth 100000 in
/-- C18 (the code at a failing input): on the terminal of 1 row and 80 columns, with
every draw of the first iteration a multiple of 200, slot 0 spawns at column 79 and
the frame writes the glyphs of `Score: 0` to the indices 152 to 159, outside the
buffer `0 .. 79`; as `int` fields the glyphs `Scor` read 1919902547 and `e: 0` reads
807418469. With these in slot 2's `x` and `y`, `can_spawn_new_obstacle` returns 1
although slot 0, scrolled to column 77, is 3 columns from `WIDTH` (the unsigned
`WIDTH - x` is formed with slot 2's `x` and wraps), and the next obstacle loop, with a
draw that is a multiple of 200 for every slot but slot 2, spawns slots 1, 3 and 4
together: the active slots end at columns 77, 79, 79 and 79. -/
theorem one_row_slots_spawn_together :
    tick 80 0 0 (fun _ => 0) (initState 1 80 0) =
      Outcome.running
        ⟨initDino 0,
          [⟨79, -7, 1, ⟨79, -6, 10, 6⟩⟩, initObstacle, initObstacle, initObstacle,
            initObstacle],
          ⟨0, -9, 0⟩, 30000⟩ ∧
    (frameWrites 80 0 0 (fun _ => 0) ⟨fun _ => ' ', 1, 80⟩ (initState 1 80 0)).filter
        (fun w => decide (¬ (0 ≤ w.1 ∧ w.1 < 1 * 80))) =
      [(152, 'S'), (153, 'c'), (154, 'o'), (155, 'r'), (156, 'e'), (157, ':'), (158, ' '),
        (159, '0')] ∧
    littleEndianInt 'S' 'c' 'o' 'r' = 1919902547 ∧
    littleEndianInt 'e' ':' ' ' '0' = 807418469 ∧
    can_spawn_new_obstacle 80
        [⟨77, -7, 1, ⟨77, -6, 10, 6⟩⟩, initObstacle,
          ⟨1919902547, 807418469, 0, ⟨0, 0, 0, 0⟩⟩, initObstacle, initObstacle] = some 1 ∧
    update_obstacles 80 0 (fun j => if j = 2 then 1 else 0)
        [⟨79, -7, 1, ⟨79, -6, 10, 6⟩⟩, initObstacle,
          ⟨1919902547, 807418469, 0, ⟨0, 0, 0, 0⟩⟩, initObstacle, initObstacle]
        ⟨0, -9, 0⟩ =
      ([⟨77, -7, 1, ⟨77, -6, 10, 6⟩⟩, ⟨79, -7, 1, ⟨79, -6, 10, 6⟩⟩,
          ⟨1919902547, 807418469, 0, ⟨0, 0, 0, 0⟩⟩,
          ⟨79, -7, 1, ⟨79, -6, 10, 6⟩⟩, ⟨79, -7, 1, ⟨79, -6, 10, 6⟩⟩],
        ⟨0, -9, 0⟩) := by
  decide

set_option maxRecDepth 100000 in
/-- C17 (the code at a failing input): on the terminal of 1 row and 80 columns, every
draw a multiple of 200. In the second iteration, with the glyphs of the first frame in
slot 2's `x` and `y`, the loop spawns slot 2 with `x = 79` and the box
`{79, -6, 10, 6}`; the frame of that iteration again writes the glyphs of `Score: 0`
to the indices 152 to 159, outside the buffer, so that slot 2 then has
`x = 1919902547`, `y = 807418469` and the box `{79, -6, 10, 6}`. The third loop
lowers both `x` and the box's `x` by 2: slot 2 is a spawned slot with
`x = 1919902545` and `y = 807418469` whose box `{77, -6, 10, 6}` is not
`{x, y + 1, 10, 6}`, and whose `y` is not `GROUND - 7`. -/
theorem one_row_box_out_of_step :
    update_obstacles 80 0 (fun _ => 0)
        [⟨79, -7, 1, ⟨79, -6, 10, 6⟩⟩, initObstacle,
          ⟨1919902547, 807418469, 0, ⟨0, 0, 0, 0⟩⟩, initObstacle, initObstacle]
        ⟨0, -9, 0⟩ =
      ([⟨77, -7, 1, ⟨77, -6, 10, 6⟩⟩, ⟨79, -7, 1, ⟨79, -6, 10, 6⟩⟩,
          ⟨79, -7, 1, ⟨79, -6, 10, 6⟩⟩, initObstacle, initObstacle],
        ⟨0, -9, 0⟩) ∧
    (draw_writes 80 0 (initDino 0)
        [⟨77, -7, 1, ⟨77, -6, 10, 6⟩⟩, ⟨79, -7, 1, ⟨79, -6, 10, 6⟩⟩,
          ⟨79, -7, 1, ⟨79, -6, 10, 6⟩⟩, initObstacle, initObstacle]
        ⟨fun _ => ' ', 1, 80⟩ ⟨0, -9, 0⟩).filter
        (fun w => decide (¬ (0 ≤ w.1 ∧ w.1 < 1 * 80))) =
      [(152, 'S'), (153, 'c'), (154, 'o'), (155, 'r'), (156, 'e'), (157, ':'), (158, ' '),
        (159, '0')] ∧
    littleEndianInt 'S' 'c' 'o' 'r' = 1919902547 ∧
    littleEndianInt 'e' ':' ' ' '0' = 807418469 ∧
    (update_obstacles 80 0 (fun _ => 0)
        [⟨77, -7, 1, ⟨77, -6, 10, 6⟩⟩, ⟨79, -7, 1, ⟨79, -6, 10, 6⟩⟩,
          ⟨1919902547, 807418469, 1, ⟨79, -6, 10, 6⟩⟩, initObstacle, initObstacle]
        ⟨0, -9, 0⟩).1[2]? =
      some ⟨1919902545, 807418469, 1, ⟨77, -6, 10, 6⟩⟩ ∧
    (⟨77, -6, 10, 6⟩ : Box) ≠ ⟨1919902545, 807418469 + 1, 10, 6⟩ ∧
    (807418469 : Int) ≠ ((0 : Nat) : Int) - 7 := by
  decide

end DinoC
